import Mathlib

/- Verification of the TurtleTanks match engine (src/lib/TurtleTanks/Game.ts).
   The Game class is embedded as pure functions over an explicit GameState.
   Collaborators whose sources are not in the repository snapshot (Map.ts,
   Player.ts, Constants.ts, Weapons.ts, Perks.ts) are modelled from the spec;
   each such definition carries a doc comment saying so. -/

namespace TurtleTanks

/-- A grid coordinate (Types.ts Coordinate, used throughout Game.ts). -/
structure Coordinate where
  x : Int
  y : Int
deriving DecidableEq, Repr

/-- Modelled from the spec: MapManager.distanceBetweenStraightLine (Map.ts is
not under src). Spec 4.3 fixes the geometry as square/Chebyshev or equivalent,
consistent with the movement cost model. -/
def distanceBetweenStraightLine (a b : Coordinate) : Nat :=
  max (a.x - b.x).natAbs (a.y - b.y).natAbs

/-- A cell of the tile map. Spec 6: each Tile carries a coordinate, a
passability flag (sparse = out of bounds) and an optional occupant id. -/
structure MapTile where
  coords : Coordinate
  sparse : Bool
  occupied : Option String
deriving DecidableEq, Repr

/-- Modelled from the spec: the Tile Map capability (Map.ts is not under src),
reduced to the list of its cells. -/
structure MapManager where
  tiles : List MapTile
deriving DecidableEq, Repr

/-- Modelled from the spec: tryGetTile returns the tile at a coordinate when
one exists (spec 6). Game.ts itself reads occupied and sparse off the result
(getPlayerAtLocation, canAttack), so existing tiles are returned whether or
not they are occupied or sparse. -/
def MapManager.tryGetTile (m : MapManager) (c : Coordinate) : Option MapTile :=
  m.tiles.find? (fun t => decide (t.coords = c))

/-- Occupancy mutation: `getTile(c).occupied = v` in Game.ts, as a map update. -/
def MapManager.setOccupied (m : MapManager) (c : Coordinate) (v : Option String) : MapManager :=
  ⟨m.tiles.map (fun t => if t.coords = c then { t with occupied := v } else t)⟩

/-- Modelled from the spec: getUnoccupiedSquare returns some unoccupied,
in-bounds cell if one exists (spec 4.1, 6); here the first such cell. -/
def MapManager.getUnoccupiedSquare (m : MapManager) : Option MapTile :=
  m.tiles.find? (fun t => t.occupied.isNone && !t.sparse)

/-- Modelled from the spec: getTilesInRadius with non-diagonal/false mode is a
square (Chebyshev) radius query (spec 4.3). -/
def MapManager.getTilesInRadius (m : MapManager) (c : Coordinate) (radius : Nat) : List MapTile :=
  m.tiles.filter (fun t => decide (distanceBetweenStraightLine t.coords c ≤ radius))

/-- A weapon stat bundle (spec 3: damage, radius, range, name). -/
structure Weapon where
  name : String
  damage : Nat
  radius : Nat
  range : Nat
deriving DecidableEq, Repr

/-- Modelled from the spec: the weapon every joining player receives
(Weapons.ts is not under src); stats from the spec scenario in section 8:
damage 30, radius 1, range 5. -/
def SmallMissile : Weapon := { name := "Small Missile", damage := 30, radius := 1, range := 5 }

/-- Modelled from the spec: the perk type (Perks.ts is not under src); Game.ts
only ever compares against PerkType.Kamikaze. -/
inductive PerkType where
  | Kamikaze
deriving DecidableEq, Repr

/-- A player's battle state, with the fields the Player constructor receives in
Game.ts join (lines 457-470) plus the dead flag used by checkForEndOfGame. -/
structure Player where
  userId : String
  hp : Nat
  points : Int
  pointsPerMove : Nat
  pointsPerShot : Nat
  pointsPerTick : Nat
  pointsPerKill : Nat
  coords : Coordinate
  team : Option String
  weapon : Weapon
  perk : Option PerkType
  dead : Bool
deriving DecidableEq, Repr

/-- Modelled from the spec: default starting health (Constants.ts is not under
src); 100 in the spec scenario of section 8. -/
def DEFAULT_STARTING_HP : Nat := 100

/-- Modelled from the spec: default starting points, 20 in the spec scenario. -/
def DEFAULT_STARTING_POINTS : Nat := 20

/-- Modelled from the spec: per-move point cost, 5 in the spec scenario. -/
def POINTS_PER_MOVE : Nat := 5

/-- Modelled from the spec: per-shot point cost, 10 in the spec scenario. -/
def POINTS_PER_SHOT : Nat := 10

/-- Modelled from the spec: per-kill reward; the spec gives no value, the
concrete number is arbitrary and no theorem depends on it. -/
def POINTS_PER_KILL : Nat := 5

/-- Modelled from the spec: per-tick income; arbitrary concrete value. -/
def POINTS_PER_TICK : Nat := 1

/-- Modelled from the spec: default tick interval; arbitrary concrete value,
no theorem depends on it. -/
def MILLISECONDS_PER_TICK : Nat := 600000

/-- The rule set fixed at match creation (Types.ts GameRules as consumed by
Game.ts). -/
structure GameRules where
  teams : Option (List String)
  millisecondsPerTick : Nat
  defaultStartingHp : Nat
  defaultStartingPoints : Nat
  defaultPointsPerMove : Nat
  defaultPointsPerShot : Nat
  defaultPointsPerTick : Nat
  defaultPointsPerKill : Nat
deriving DecidableEq, Repr

/-- A caller-supplied Partial GameRules (the constructor argument, Game.ts
line 123). -/
structure PartialGameRules where
  teams : Option (List String) := none
  millisecondsPerTick : Option Nat := none
  defaultStartingHp : Option Nat := none
  defaultStartingPoints : Option Nat := none
  defaultPointsPerMove : Option Nat := none
  defaultPointsPerShot : Option Nat := none
  defaultPointsPerTick : Option Nat := none
  defaultPointsPerKill : Option Nat := none
deriving DecidableEq, Repr

/-- JavaScript `override || default` on numbers: 0 (falsy) falls back to the
default (Game.ts lines 133-139). -/
def orDefault (v : Option Nat) (d : Nat) : Nat :=
  match v with
  | some n => if n = 0 then d else n
  | none => d

/-- The rule merge of the Game constructor (Game.ts lines 131-140). -/
def mergeRules (rules : PartialGameRules) : GameRules :=
  { teams := rules.teams
    millisecondsPerTick := orDefault rules.millisecondsPerTick MILLISECONDS_PER_TICK
    defaultStartingHp := orDefault rules.defaultStartingHp DEFAULT_STARTING_HP
    defaultStartingPoints := orDefault rules.defaultStartingPoints DEFAULT_STARTING_POINTS
    defaultPointsPerMove := orDefault rules.defaultPointsPerMove POINTS_PER_MOVE
    defaultPointsPerShot := orDefault rules.defaultPointsPerShot POINTS_PER_SHOT
    defaultPointsPerTick := orDefault rules.defaultPointsPerTick POINTS_PER_TICK
    defaultPointsPerKill := orDefault rules.defaultPointsPerKill POINTS_PER_KILL }

/-- The mutable state of one Match that Game.ts methods touch: map occupancy,
living and dead rosters, rules, ended flag, tick bookkeeping. The timer field
records the delay passed to the last setTimeout call, if any. -/
structure GameState where
  map : MapManager
  players : List Player
  deadPlayers : List Player
  rules : GameRules
  ended : Bool
  tickLoopLaunched : Bool
  timer : Option Nat
deriving DecidableEq, Repr

/-- `this.players.get(uid)` on the insertion-ordered roster. -/
def findPlayer (ps : List Player) (uid : String) : Option Player :=
  ps.find? (fun p => decide (p.userId = uid))

/-- Mutation of the roster entry with the given id, in place. -/
def updatePlayer (ps : List Player) (uid : String) (f : Player → Player) : List Player :=
  ps.map (fun p => if p.userId = uid then f p else p)

/-- `this.players.delete(uid)`. -/
def removePlayer (ps : List Player) (uid : String) : List Player :=
  ps.filter (fun p => decide (p.userId ≠ uid))

/-- `map.set(p.userId, p)`: update when the key exists, append otherwise. -/
def setPlayer (ps : List Player) (p : Player) : List Player :=
  if (findPlayer ps p.userId).isSome then updatePlayer ps p.userId (fun _ => p) else ps ++ [p]

/-- The empty game built by the constructor body (Game.ts lines 142-172):
nobody joined, log fresh, no timer. -/
def initGame (rules : PartialGameRules) (map : MapManager) : GameState :=
  { map := map, players := [], deadPlayers := [], rules := mergeRules rules,
    ended := false, tickLoopLaunched := false, timer := none }

/-- The Game constructor (Game.ts lines 118-142): with fewer than two
configured teams it throws, modelled as none. -/
def mkGame (rules : PartialGameRules) (map : MapManager) : Option GameState :=
  match rules.teams with
  | some ts => if ts.length < 2 then none else some (initGame rules map)
  | none => some (initGame rules map)

/-- Modelled from the spec: a fresh width-by-height grid of unoccupied,
in-bounds cells (spec 2, 6; the MapManager constructor is not under src). -/
def mkMapTiles (w h : Nat) : List MapTile :=
  (List.range h).flatMap (fun y =>
    (List.range w).map (fun x => { coords := { x := Int.ofNat x, y := Int.ofNat y },
                                   sparse := false, occupied := none }))

/-- The number of living members of a team: what the counting loop of
chooseTeam (Game.ts lines 362-373) computes for one configured team. -/
def countTeam (ps : List Player) (t : String) : Nat :=
  (ps.filter (fun p => decide (p.team = some t))).length

/-- The minimum-selection loop of chooseTeam (Game.ts lines 375-383): running
minimum starts at MAX_SAFE_INTEGER, `count <= minimumAmount` updates, so of
equal counts the last one encountered wins. -/
def chooseTeamFold (counts : List (String × Nat)) : Option (String × Nat) :=
  counts.foldl
    (fun acc tc =>
      match acc with
      | none => some tc
      | some prev => if tc.2 ≤ prev.2 then some tc else acc)
    none

/-- Game.chooseTeam (Game.ts lines 357-386): counts living members per
configured team in configured order, then picks by the fold above. -/
def Game.chooseTeam (g : GameState) : Option String :=
  match g.rules.teams with
  | none => none
  | some ts => (chooseTeamFold (ts.map (fun t => (t, countTeam g.players t)))).map Prod.fst

/-- The stored-team restore loop of join (Game.ts lines 432-438): scan all
configured teams, keep the last whose name equals the stored one; a falsy
(empty) stored name is skipped. -/
def resolveStoredTeam (ts : List String) (storedTeam : Option String) : Option String :=
  match storedTeam with
  | none => none
  | some s =>
    if s = "" then none
    else ts.foldl (fun acc t => if t = s then some t else acc) none

inductive JoinResult where
  | err (msg : String)
  | ok (player : Player)
deriving DecidableEq, Repr

/-- The square-selection steps of join (Game.ts lines 413-421): the supplied
coordinate is used whenever tryGetTile finds a tile there (occupied or not);
otherwise any unoccupied cell. -/
def Game.joinSquare (g : GameState) (coords : Option Coordinate) : Option MapTile :=
  match coords with
  | some c =>
    match g.map.tryGetTile c with
    | some t => some t
    | none => g.map.getUnoccupiedSquare
  | none => g.map.getUnoccupiedSquare

/-- The team assignment of join (Game.ts lines 429-443): no team without
configured teams; a usable stored team is restored, else chooseTeam. -/
def Game.joinTeam (g : GameState) (storedTeam : Option String) : Option String :=
  match g.rules.teams with
  | none => none
  | some ts =>
    match resolveStoredTeam ts storedTeam with
    | some t => some t
    | none => Game.chooseTeam g

/-- The Player record join constructs (Game.ts lines 457-470). -/
def Game.joinPlayer (g : GameState) (userId : String) (hpOpt : Option Nat)
    (pointsOpt : Option Int) (sq : MapTile) (storedTeam : Option String)
    (perk : Option PerkType) : Player :=
  { userId := userId
    hp := hpOpt.getD g.rules.defaultStartingHp
    points := pointsOpt.getD (g.rules.defaultStartingPoints : Int)
    pointsPerMove := g.rules.defaultPointsPerMove
    pointsPerShot := g.rules.defaultPointsPerShot
    pointsPerTick := g.rules.defaultPointsPerTick
    pointsPerKill := g.rules.defaultPointsPerKill
    coords := sq.coords
    team := Game.joinTeam g storedTeam
    weapon := SmallMissile
    perk := perk
    dead := decide (hpOpt.getD g.rules.defaultStartingHp = 0) }

/-- Game.join (Game.ts lines 388-499). With no square at all the match is
full. hp and points default to the rule set. The second joiner launches the
tick loop with the global constant delay. -/
def Game.join (g : GameState) (userId : String) (hpOpt : Option Nat)
    (pointsOpt : Option Int) (coords : Option Coordinate)
    (storedTeam : Option String) (perk : Option PerkType) : JoinResult × GameState :=
  if g.ended then (.err "Game has ended", g)
  else if (findPlayer g.players userId).isSome then (.err "You are already in the game!", g)
  else if (findPlayer g.deadPlayers userId).isSome then
    (.err "Cannot perform action, you are dead.", g)
  else
    match Game.joinSquare g coords with
    | none => (.err "Game is full, sorry.", g)
    | some sq =>
      let player := Game.joinPlayer g userId hpOpt pointsOpt sq storedTeam perk
      let players := setPlayer g.players player
      let map := g.map.setOccupied sq.coords (some userId)
      let launch := decide (players.length + g.deadPlayers.length = 2) && !g.tickLoopLaunched
      (.ok player,
       { g with players := players, map := map,
                tickLoopLaunched := g.tickLoopLaunched || launch,
                timer := if launch then some MILLISECONDS_PER_TICK else g.timer })

inductive MoveCheck where
  | err (msg : String)
  | ok (pointsRequired : Nat) (tilesTraversed : Nat)
deriving DecidableEq, Repr

/-- Modelled from the spec: MapManager.canMoveTo (Map.ts is not under src).
Spec 4.2 and 6: destination must exist, be in bounds and passable, with a
distance-based cost model; an occupied destination is unreachable (spec 3
makes one combatant per occupied cell an invariant). -/
def MapManager.canMoveTo (m : MapManager) (c : Coordinate) (p : Player) : MoveCheck :=
  match m.tryGetTile c with
  | none => .err "Cannot move there, tile does not exist"
  | some t =>
    if t.sparse then .err "Cannot move there, it is out of bounds"
    else if t.occupied.isSome then .err "Cannot move there, tile is occupied"
    else
      let tiles := distanceBetweenStraightLine p.coords c
      .ok (tiles * p.pointsPerMove) tiles

/-- Game.canMove (Game.ts lines 614-630). -/
def Game.canMove (g : GameState) (userId : String) (c : Coordinate) : MoveCheck :=
  if g.ended then .err "Game has ended"
  else
    match findPlayer g.players userId with
    | none => .err "User is not in the game"
    | some p => g.map.canMoveTo c p

/-- Game.moveToCoord (Game.ts lines 632-678): validate, check points, deduct,
swap occupancy from the old cell to the new one, update the position. Every
error path leaves the state untouched. -/
def Game.moveToCoord (g : GameState) (userId : String) (c : Coordinate) :
    (Bool × String) × GameState :=
  match Game.canMove g userId c with
  | .err msg => ((false, msg), g)
  | .ok pointsRequired tilesTraversed =>
    match findPlayer g.players userId with
    | none => ((false, "User is not in the game"), g)
    | some player =>
      if (pointsRequired : Int) ≤ player.points then
        let oldPosition := player.coords
        let map1 := g.map.setOccupied oldPosition none
        let map2 := map1.setOccupied c (some userId)
        let players := updatePlayer g.players userId
          (fun p => { p with points := p.points - (pointsRequired : Int), coords := c })
        ((true, ""), { g with map := map2, players := players })
      else
        ((false,
          s!"You don't have enough points required to move {tilesTraversed} tiles. " ++
          s!"You need {pointsRequired} points, but have {player.points} points."), g)

/-- One record of the affectedPlayers array canAttack builds (Types.ts
PlayerShotEffect). -/
structure PlayerShotEffect where
  player : Player
  oldHP : Nat
  newHP : Nat
  damageTaken : Nat
deriving DecidableEq, Repr

/-- The result record of a validated shot (Types.ts ShotEffect). -/
structure ShotEffect where
  affectedTiles : List MapTile
  affectedPlayers : List PlayerShotEffect
  killedPlayers : List Player
  pointsRequired : Nat
  totalDamage : Nat
deriving DecidableEq, Repr

/-- The friendly-fire test of canAttack (Game.ts lines 815-819): a different
player, both on teams, same team name. -/
def sameTeam (a b : Option String) : Bool :=
  match a, b with
  | some x, some y => decide (x = y)
  | _, _ => false

/-- The damage computation of canAttack (Game.ts lines 823-832): in kamikaze
mode, the attacker's full health for the attacker and half of the global
default starting health for anyone else; otherwise the weapon damage. -/
def blastDamage (attacker tilePlayer : Player) (isKamikaze : Bool) : Nat :=
  if isKamikaze then
    if tilePlayer.userId = attacker.userId then attacker.hp
    else DEFAULT_STARTING_HP / 2
  else attacker.weapon.damage

/-- The occupied-tile body of the area-of-effect loop (Game.ts lines 813-849). -/
def blastOccupant (attacker : Player) (isKamikaze : Bool) (acc : ShotEffect)
    (tile : MapTile) (tilePlayer : Player) : ShotEffect :=
  if tilePlayer.userId ≠ attacker.userId ∧ sameTeam tilePlayer.team attacker.team then
    acc
  else
    let damage := blastDamage attacker tilePlayer isKamikaze
    let newHP := tilePlayer.hp - damage
    let damageTaken := tilePlayer.hp - newHP
    { affectedTiles := acc.affectedTiles ++ [tile]
      affectedPlayers := acc.affectedPlayers ++
        [{ player := tilePlayer, oldHP := tilePlayer.hp, newHP := newHP,
           damageTaken := damageTaken }]
      killedPlayers := acc.killedPlayers ++ (if newHP = 0 then [tilePlayer] else [])
      pointsRequired := acc.pointsRequired
      totalDamage := acc.totalDamage + damageTaken }

/-- One iteration of the area-of-effect loop of canAttack (Game.ts lines
809-853). The teammate branch is a `continue`: it skips the damage block AND
the affectedTiles push at the bottom of the loop body. -/
def blastStep (ps : List Player) (attacker : Player) (isKamikaze : Bool)
    (acc : ShotEffect) (tile : MapTile) : ShotEffect :=
  match tile.occupied with
  | none => { acc with affectedTiles := acc.affectedTiles ++ [tile] }
  | some occupantId =>
    match findPlayer ps occupantId with
    | none => { acc with affectedTiles := acc.affectedTiles ++ [tile] }
    | some tilePlayer => blastOccupant attacker isKamikaze acc tile tilePlayer

/-- The kamikaze test of canAttack and doAttack (Game.ts lines 799-801):
target is the attacker's own cell and the self-destruct perk is active. -/
def Game.isKamikazeShot (p : Player) (coords : Coordinate) : Bool :=
  decide (p.coords = coords) && decide (p.perk = some PerkType.Kamikaze)

inductive AttackCheck where
  | err (msg : String)
  | ok (effect : ShotEffect)
deriving DecidableEq, Repr

/-- Game.canAttack (Game.ts lines 746-862): validation chain, then the
area-of-effect fold with radius 2 in kamikaze mode and the weapon radius
otherwise. -/
def Game.canAttack (g : GameState) (userId : String) (coords : Coordinate) : AttackCheck :=
  if g.ended then .err "Game has ended"
  else
    match findPlayer g.players userId with
    | none => .err "Player is not in the game"
    | some player =>
      match g.map.tryGetTile coords with
      | none => .err "Cannot attack, tile does not exist"
      | some tile =>
        if tile.sparse then .err "Cannot attack, it is out of bounds"
        else if player.weapon.range < distanceBetweenStraightLine player.coords coords then
          .err "Cannot attack, out of weapon range"
        else if player.points < (player.pointsPerShot : Int) then
          .err "Cannot attack, not enough points"
        else
          let isKamikaze := Game.isKamikazeShot player coords
          let radius := if isKamikaze then 2 else player.weapon.radius
          .ok ((g.map.getTilesInRadius coords radius).foldl
            (blastStep g.players player isKamikaze)
            { affectedTiles := [], affectedPlayers := [], killedPlayers := [],
              pointsRequired := player.pointsPerShot, totalDamage := 0 })

/-- Modelled from the spec: Player.receiveDamage (Player.ts is not under src).
Spec 4.3: new health = max(current health - damage, 0); zero health marks the
combatant dead. -/
def Player.receiveDamage (p : Player) (damage : Nat) : Player :=
  let newHP := p.hp - damage
  { p with hp := newHP, dead := decide (newHP = 0) }

/-- Game.killPlayer (Game.ts lines 202-208): move the player to the dead
roster and drop them from the living one. The tile map is not touched. -/
def Game.killPlayer (g : GameState) (p : Player) : GameState :=
  { g with deadPlayers := setPlayer g.deadPlayers p,
           players := removePlayer g.players p.userId }

/-- One iteration of the damage loop of doAttack (Game.ts lines 934-967):
apply the recorded damage to the current roster entry and kill on zero. -/
def applyEffectStep (g : GameState) (e : PlayerShotEffect) : GameState :=
  match findPlayer g.players e.player.userId with
  | none => g
  | some p =>
    let p1 := p.receiveDamage e.damageTaken
    if p1.hp = 0 then Game.killPlayer g p1
    else { g with players := updatePlayer g.players p.userId (fun _ => p1) }

/-- The damage loop of doAttack over all affected players. -/
def applyEffects (g : GameState) (es : List PlayerShotEffect) : GameState :=
  es.foldl applyEffectStep g

/-- Game.checkForEndOfGame (Game.ts lines 864-889): alive players are the
living roster without the dead flag; their team names form a set; the game
ends with no alive player, one alive player, or one distinct team name. -/
def Game.checkForEndOfGame (g : GameState) : Bool × List Player :=
  let alivePlayers := g.players.filter (fun p => !p.dead)
  let teams := (alivePlayers.filterMap (fun p => p.team)).dedup
  if alivePlayers.length = 0 then (true, [])
  else if alivePlayers.length = 1 ∨ teams.length = 1 then (true, alivePlayers)
  else (false, [])

inductive ShotResult where
  | Hit
  | Miss
deriving DecidableEq, Repr

structure AttackOutcome where
  effect : ShotEffect
  shotResult : ShotResult
  ended : Bool
  winners : List Player
deriving DecidableEq, Repr

inductive AttackResult where
  | err (msg : String)
  | ok (outcome : AttackOutcome)
deriving DecidableEq, Repr

/-- Game.doAttack (Game.ts lines 891-985). Player.attack is not under src and
is modelled from the spec: the shot always consumes the per-shot cost, the
probabilistic draw is the roll argument and kamikaze always hits (spec 4.3);
on a hit the per-kill reward is credited to the attacker once per killed
player (spec 4.3). A hit then applies the damage loop, runs the end-of-game
check, and on end marks the game ended and cancels the timer (cleanup). -/
def Game.doAttack (g : GameState) (userId : String) (coords : Coordinate) (roll : Bool) :
    AttackResult × GameState :=
  match Game.canAttack g userId coords with
  | .err msg => (.err msg, g)
  | .ok effect =>
    match findPlayer g.players userId with
    | none => (.err "Player is not in the game", g)
    | some attacker =>
      let isKamikaze := Game.isKamikazeShot attacker coords
      let hit := isKamikaze || roll
      let g1 := { g with players := (updatePlayer g.players userId
                    (fun p => { p with points := p.points - (p.pointsPerShot : Int) })) }
      if hit then
        let g2 := { g1 with players := (updatePlayer g1.players userId
                      (fun p => { p with points := p.points +
                        ((p.pointsPerKill * effect.killedPlayers.length : Nat) : Int) })) }
        let g3 := applyEffects g2 effect.affectedPlayers
        let endCheck := Game.checkForEndOfGame g3
        if endCheck.1 then
          (.ok { effect := effect, shotResult := .Hit, ended := true, winners := endCheck.2 },
           { g3 with ended := true, timer := none })
        else
          (.ok { effect := effect, shotResult := .Hit, ended := false, winners := endCheck.2 }, g3)
      else
        (.ok { effect := effect, shotResult := .Miss, ended := false, winners := [] }, g1)

/-- Game.handleGameTick (Game.ts lines 256-276): every living player receives
the per-tick income (Player.handleGameTick, modelled from the spec 4.5), and
the timer is rescheduled with the global MILLISECONDS_PER_TICK constant
(line 275), not the configured interval. -/
def Game.handleGameTick (g : GameState) : GameState :=
  { g with players := g.players.map (fun p => { p with points := p.points + (p.pointsPerTick : Int) }),
           timer := some MILLISECONDS_PER_TICK }

end TurtleTanks

namespace TurtleTanks

/- Basic lemmas about the roster and map helpers. -/

theorem userId_if_update (uid : String) (f : Player → Player)
    (hf : ∀ p, (f p).userId = p.userId) (p : Player) :
    (if p.userId = uid then f p else p).userId = p.userId := by
  by_cases h : p.userId = uid <;> simp [h, hf]

theorem findPlayer_updatePlayer (ps : List Player) (uid : String) (f : Player → Player)
    (hf : ∀ p, (f p).userId = p.userId) (id : String) :
    findPlayer (updatePlayer ps uid f) id =
      (findPlayer ps id).map (fun p => if p.userId = uid then f p else p) := by
  unfold findPlayer updatePlayer
  rw [List.find?_map]
  have hpred : ((fun p => decide (p.userId = id)) ∘ fun p => if p.userId = uid then f p else p)
      = (fun p : Player => decide (p.userId = id)) := by
    funext p
    simp only [Function.comp]
    rw [userId_if_update uid f hf p]
  rw [hpred]

theorem findPlayer_removePlayer_ne (ps : List Player) (uid id : String) (h : id ≠ uid) :
    findPlayer (removePlayer ps uid) id = findPlayer ps id := by
  induction ps with
  | nil => rfl
  | cons p ps ih =>
    simp only [removePlayer, List.filter_cons] at *
    by_cases hp : p.userId = uid
    · simp [hp, Ne.symm h, findPlayer, List.find?_cons]
      simpa [removePlayer, findPlayer] using ih
    · by_cases hid : p.userId = id
      · simp [hp, hid, h, findPlayer, List.find?_cons]
      · simp [hp, hid, findPlayer, List.find?_cons]
        simpa [removePlayer, findPlayer] using ih

theorem findPlayer_removePlayer_self (ps : List Player) (uid : String) :
    findPlayer (removePlayer ps uid) uid = none := by
  rw [findPlayer, List.find?_eq_none]
  intro p hp
  rw [removePlayer, List.mem_filter] at hp
  simp only [decide_eq_true_eq] at hp ⊢
  exact hp.2

theorem tryGetTile_setOccupied (m : MapManager) (c : Coordinate) (v : Option String)
    (c' : Coordinate) :
    (m.setOccupied c v).tryGetTile c' =
      (m.tryGetTile c').map (fun t => if t.coords = c then { t with occupied := v } else t) := by
  unfold MapManager.setOccupied MapManager.tryGetTile
  rw [List.find?_map]
  have hpred : ((fun t => decide (t.coords = c')) ∘
      fun t => if t.coords = c then { t with occupied := v } else t)
      = (fun t : MapTile => decide (t.coords = c')) := by
    funext t
    simp only [Function.comp]
    by_cases h : t.coords = c <;> simp [h]
  rw [hpred]

/- Concrete scenario fixtures used by witnesses and counterexamples. -/

/-- A fresh 5 by 5 map, all cells in bounds and unoccupied. -/
def map5 : MapManager := ⟨mkMapTiles 5 5⟩

/-- A match with default rules and no teams on the 5 by 5 map. -/
def gEmpty : GameState := initGame {} map5

/-- Player A joined at the origin. -/
def gA : GameState := (Game.join gEmpty "A" none none (some ⟨0, 0⟩) none none).2
end TurtleTanks

namespace TurtleTanks

/-- C10: the constructor merges caller overrides with JavaScript `||`, so a
supplied override of 0 for any numeric rule is silently replaced by the global
default constant, and only nonzero overrides take effect
(Game.ts lines 131-142). -/
theorem c10_zero_overrides_fall_back (pr : PartialGameRules) (n : Nat) (hn : n ≠ 0) :
    (pr.millisecondsPerTick = some 0 → (mergeRules pr).millisecondsPerTick = MILLISECONDS_PER_TICK) ∧
    (pr.defaultStartingHp = some 0 → (mergeRules pr).defaultStartingHp = DEFAULT_STARTING_HP) ∧
    (pr.defaultStartingPoints = some 0 →
      (mergeRules pr).defaultStartingPoints = DEFAULT_STARTING_POINTS) ∧
    (pr.defaultPointsPerMove = some 0 → (mergeRules pr).defaultPointsPerMove = POINTS_PER_MOVE) ∧
    (pr.defaultPointsPerShot = some 0 → (mergeRules pr).defaultPointsPerShot = POINTS_PER_SHOT) ∧
    (pr.defaultPointsPerTick = some 0 → (mergeRules pr).defaultPointsPerTick = POINTS_PER_TICK) ∧
    (pr.defaultPointsPerKill = some 0 → (mergeRules pr).defaultPointsPerKill = POINTS_PER_KILL) ∧
    (pr.millisecondsPerTick = some n → (mergeRules pr).millisecondsPerTick = n) ∧
    (pr.defaultStartingHp = some n → (mergeRules pr).defaultStartingHp = n) ∧
    (pr.defaultStartingPoints = some n → (mergeRules pr).defaultStartingPoints = n) ∧
    (pr.defaultPointsPerMove = some n → (mergeRules pr).defaultPointsPerMove = n) ∧
    (pr.defaultPointsPerShot = some n → (mergeRules pr).defaultPointsPerShot = n) ∧
    (pr.defaultPointsPerTick = some n → (mergeRules pr).defaultPointsPerTick = n) ∧
    (pr.defaultPointsPerKill = some n → (mergeRules pr).defaultPointsPerKill = n) := by
  refine ⟨?_, ?_, ?_, ?_, ?_, ?_, ?_, ?_, ?_, ?_, ?_, ?_, ?_, ?_⟩ <;>
    intro h <;> simp [mergeRules, orDefault, h, hn]

/-- C10 witness: a rule set overriding the tick interval with 0 and the move
cost with 7 keeps the global tick default and takes the nonzero override. -/
theorem c10_witness :
    (mergeRules { millisecondsPerTick := some 0 }).millisecondsPerTick = MILLISECONDS_PER_TICK ∧
    (mergeRules { defaultPointsPerMove := some 7 }).defaultPointsPerMove = 7 :=
  ⟨(c10_zero_overrides_fall_back { millisecondsPerTick := some 0 } 7 (by decide)).1 rfl,
   ((c10_zero_overrides_fall_back { defaultPointsPerMove := some 7 } 7
      (by decide)).2.2.2.2.2.2.2.2.2.2.1) rfl⟩

/-- C8 (amended): both the initial scheduling at the second join and every
self-rescheduling of the tick pass the global MILLISECONDS_PER_TICK constant
to setTimeout, ignoring the rule set's configured millisecondsPerTick
(Game.ts lines 275 and 493 use the constant, not this.rules). -/
theorem c8_scheduling_uses_global_constant (g : GameState) (userId : String)
    (hpOpt : Option Nat) (pointsOpt : Option Int) (coords : Option Coordinate)
    (storedTeam : Option String) (perk : Option PerkType)
    (hstart : g.tickLoopLaunched = false)
    (hlaunch : (Game.join g userId hpOpt pointsOpt coords storedTeam perk).2.tickLoopLaunched = true) :
    (Game.join g userId hpOpt pointsOpt coords storedTeam perk).2.timer =
      some MILLISECONDS_PER_TICK ∧
    (Game.handleGameTick g).timer = some MILLISECONDS_PER_TICK := by
  refine ⟨?_, rfl⟩
  by_cases h1 : g.ended
  · simp [Game.join, h1, hstart] at hlaunch
  · by_cases h2 : (findPlayer g.players userId).isSome
    · simp [Game.join, h1, h2, hstart] at hlaunch
    · by_cases h3 : (findPlayer g.deadPlayers userId).isSome
      · simp [Game.join, h1, h2, h3, hstart] at hlaunch
      · cases hsq : Game.joinSquare g coords with
        | none => simp [Game.join, h1, h2, h3, hsq, hstart] at hlaunch
        | some sq =>
          simp [Game.join, h1, h2, h3, hsq, hstart] at hlaunch ⊢
          intro h
          exact absurd hlaunch h

/-- C8 counterexample: with the tick interval configured to a value different
from the global constant, the timer scheduled at the second join still carries
the global constant, not the configured interval; the claim as stated is false. -/
theorem c8_counterexample :
    (Game.join gA "B" none none (some ⟨1, 0⟩) none none).2.rules.millisecondsPerTick =
        MILLISECONDS_PER_TICK ∧
    ((Game.join (Game.join (initGame { millisecondsPerTick := some (MILLISECONDS_PER_TICK + 1) }
        map5) "A" none none none none none).2 "B" none none none none none).2.timer =
      some MILLISECONDS_PER_TICK ∧
    (initGame { millisecondsPerTick := some (MILLISECONDS_PER_TICK + 1) }
        map5).rules.millisecondsPerTick = MILLISECONDS_PER_TICK + 1) := by
  constructor
  · decide
  · constructor
    · decide
    · decide

end TurtleTanks

namespace TurtleTanks

/-- The insufficient-points message of moveToCoord (Game.ts lines 644-648). -/
def insufficientPointsMsg (tilesTraversed pointsRequired : Nat) (points : Int) : String :=
  s!"You don't have enough points required to move {tilesTraversed} tiles. " ++
  s!"You need {pointsRequired} points, but have {points} points."

/-- C9: when the computed movement cost exceeds the living player's points,
moveToCoord returns an error stating the required and the available points and
returns the state completely unchanged (Game.ts lines 641-649: the deduction
happens only in the sufficient branch, and nothing was mutated before it). -/
theorem c9_insufficient_points_is_pure (g : GameState) (userId : String) (c : Coordinate)
    (player : Player) (pointsRequired tilesTraversed : Nat)
    (hfind : findPlayer g.players userId = some player)
    (hcan : Game.canMove g userId c = .ok pointsRequired tilesTraversed)
    (hlt : player.points < (pointsRequired : Int)) :
    Game.moveToCoord g userId c =
      ((false, insufficientPointsMsg tilesTraversed pointsRequired player.points), g) := by
  simp only [Game.moveToCoord, hcan, hfind]
  rw [if_neg (fun hle => absurd hlt (not_lt.mpr hle))]
  rfl

/-- C9 witness: player A with 3 points cannot afford a 4-tile move costing 20;
the call errors with both numbers and leaves the state unchanged. -/
theorem c9_witness :
    Game.moveToCoord (Game.join gEmpty "A" none (some 3) (some ⟨0, 0⟩) none none).2 "A" ⟨4, 4⟩ =
      ((false, "You don't have enough points required to move 4 tiles. " ++
               "You need 20 points, but have 3 points."),
       (Game.join gEmpty "A" none (some 3) (some ⟨0, 0⟩) none none).2) := by
  have h := c9_insufficient_points_is_pure
    (Game.join gEmpty "A" none (some 3) (some ⟨0, 0⟩) none none).2 "A" ⟨4, 4⟩
    { userId := "A", hp := 100, points := 3, pointsPerMove := 5, pointsPerShot := 10,
      pointsPerTick := 1, pointsPerKill := 5, coords := ⟨0, 0⟩, team := none,
      weapon := SmallMissile, perk := none, dead := false }
    20 4 (by decide) (by decide) (by decide)
  rw [h]
  rfl

/-- C5 (amended): join with a supplied target coordinate uses the cell at that
coordinate whenever it exists, occupied or not (tryGetTile checks existence
only, Game.ts lines 415-417): the player is placed there and the cell's
occupancy is overwritten with the new player's id. Only when the cell does not
exist is an unoccupied cell allocated, and only when that also fails does join
reject with the match-full error (Game.ts lines 419-427). -/
theorem c5_join_supplied_coordinate (g : GameState) (userId : String) (hpOpt : Option Nat)
    (pointsOpt : Option Int) (c : Coordinate) (storedTeam : Option String)
    (perk : Option PerkType)
    (hended : g.ended = false)
    (hliving : findPlayer g.players userId = none)
    (hdead : findPlayer g.deadPlayers userId = none) :
    (∀ t, g.map.tryGetTile c = some t →
      (Game.join g userId hpOpt pointsOpt (some c) storedTeam perk).1 =
        .ok (Game.joinPlayer g userId hpOpt pointsOpt t storedTeam perk) ∧
      (Game.joinPlayer g userId hpOpt pointsOpt t storedTeam perk).coords = t.coords ∧
      ((Game.join g userId hpOpt pointsOpt (some c) storedTeam perk).2.map.tryGetTile
        t.coords).map MapTile.occupied = some (some userId)) ∧
    (g.map.tryGetTile c = none →
      (∀ sq, g.map.getUnoccupiedSquare = some sq →
        sq.occupied = none ∧
        (Game.join g userId hpOpt pointsOpt (some c) storedTeam perk).1 =
          .ok (Game.joinPlayer g userId hpOpt pointsOpt sq storedTeam perk) ∧
        (Game.joinPlayer g userId hpOpt pointsOpt sq storedTeam perk).coords = sq.coords) ∧
      (g.map.getUnoccupiedSquare = none →
        (Game.join g userId hpOpt pointsOpt (some c) storedTeam perk).1 =
          .err "Game is full, sorry.")) := by
  have h1 : ¬ (g.ended = true) := by rw [hended]; exact Bool.false_ne_true
  have h2 : ¬ ((findPlayer g.players userId).isSome = true) := by rw [hliving]; decide
  have h3 : ¬ ((findPlayer g.deadPlayers userId).isSome = true) := by rw [hdead]; decide
  constructor
  · intro t ht
    have hsq : Game.joinSquare g (some c) = some t := by
      simp [Game.joinSquare, ht]
    refine ⟨?_, rfl, ?_⟩
    · simp [Game.join, h1, h2, h3, hsq]
    · have hmap : (Game.join g userId hpOpt pointsOpt (some c) storedTeam perk).2.map =
          g.map.setOccupied t.coords (some userId) := by
        simp [Game.join, h1, h2, h3, hsq]
      rw [hmap, tryGetTile_setOccupied]
      have htc : g.map.tryGetTile t.coords = some t := by
        have hc := List.find?_some ht
        simp only [decide_eq_true_eq] at hc
        rw [← hc] at ht
        exact ht
      rw [htc]
      simp
  · intro ht
    constructor
    · intro sq hsq0
      have hocc : sq.occupied = none := by
        have hs := List.find?_some hsq0
        simp only [Bool.and_eq_true, Option.isNone_iff_eq_none, decide_eq_true_eq] at hs
        exact hs.1
      have hsq : Game.joinSquare g (some c) = some sq := by
        simp [Game.joinSquare, ht, hsq0]
      refine ⟨hocc, ?_, rfl⟩
      simp [Game.join, h1, h2, h3, hsq]
    · intro hnone
      have hsq : Game.joinSquare g (some c) = none := by
        simp [Game.joinSquare, ht, hnone]
      simp [Game.join, h1, h2, h3, hsq]

/-- C5 witness: on a fresh map, joining at the existing unoccupied origin
places the player exactly there. -/
theorem c5_witness :
    (Game.join gEmpty "A" none none (some ⟨0, 0⟩) none none).1 =
      .ok (Game.joinPlayer gEmpty "A" none none
        { coords := ⟨0, 0⟩, sparse := false, occupied := none } none none) ∧
    ((Game.join gEmpty "A" none none (some ⟨0, 0⟩) none none).2.map.tryGetTile
      ⟨0, 0⟩).map MapTile.occupied = some (some "A") := by
  have h := (c5_join_supplied_coordinate gEmpty "A" none none ⟨0, 0⟩ none none
    rfl rfl rfl).1 { coords := ⟨0, 0⟩, sparse := false, occupied := none } (by decide)
  exact ⟨h.1, h.2.2⟩

/-- C5 counterexample: the claim says a join supplying the coordinate of an
occupied cell never places the new player on that cell; but joining B at
cell (0,0), already occupied by A, places B exactly there and overwrites the
occupancy, while A still records (0,0) as their position. -/
theorem c5_counterexample :
    ((gA.map.tryGetTile ⟨0, 0⟩).map MapTile.occupied = some (some "A")) ∧
    ((Game.join gA "B" none none (some ⟨0, 0⟩) none none).1 =
      .ok { userId := "B", hp := 100, points := 20, pointsPerMove := 5, pointsPerShot := 10,
            pointsPerTick := 1, pointsPerKill := 5, coords := ⟨0, 0⟩, team := none,
            weapon := SmallMissile, perk := none, dead := false }) ∧
    (((Game.join gA "B" none none (some ⟨0, 0⟩) none none).2.map.tryGetTile ⟨0, 0⟩).map
      MapTile.occupied = some (some "B")) := by
  refine ⟨by decide, by decide, by decide⟩

/-- C1 counterexample: a sequence of two join operations (both supplying the
origin) yields a reachable state in which two living players occupy the same
cell, and the cell's occupancy records only B while A still records the same
position. -/
theorem c1_counterexample :
    ((Game.join gA "B" none none (some ⟨0, 0⟩) none none).2.players.map
      (fun p => (p.userId, p.coords))) = [("A", ⟨0, 0⟩), ("B", ⟨0, 0⟩)] ∧
    (((Game.join gA "B" none none (some ⟨0, 0⟩) none none).2.map.tryGetTile ⟨0, 0⟩).map
      MapTile.occupied = some (some "B")) := by
  refine ⟨by decide, by decide⟩

end TurtleTanks

namespace TurtleTanks

/-- The observable outcome of a shot: everything in a ShotEffect except the
full snapshots of the affected Player records (of those, the identity and the
health numbers). -/
def ShotEffect.summary (e : ShotEffect) :
    List MapTile × List (String × Nat × Nat × Nat) × List String × Nat × Nat :=
  (e.affectedTiles,
   e.affectedPlayers.map (fun x => (x.player.userId, x.oldHP, x.newHP, x.damageTaken)),
   e.killedPlayers.map (fun p => p.userId),
   e.pointsRequired,
   e.totalDamage)

/-- Swap one player's weapon, leaving everything else in place. -/
def Game.setPlayerWeapon (g : GameState) (userId : String) (w : Weapon) : GameState :=
  { g with players := updatePlayer g.players userId (fun p => { p with weapon := w }) }

/-- The empty accumulator canAttack starts its area-of-effect fold with. -/
def emptyShot (pointsRequired : Nat) : ShotEffect :=
  { affectedTiles := [], affectedPlayers := [], killedPlayers := [],
    pointsRequired := pointsRequired, totalDamage := 0 }

/-- Shape of a successful canAttack: all validation checks passed, and the
effect is the area-of-effect fold at the kamikaze-or-weapon radius. -/
theorem canAttack_ok_shape (g : GameState) (userId : String) (coords : Coordinate)
    (eff : ShotEffect) (h : Game.canAttack g userId coords = .ok eff) :
    ∃ player tile, g.ended = false ∧ findPlayer g.players userId = some player ∧
      g.map.tryGetTile coords = some tile ∧ tile.sparse = false ∧
      distanceBetweenStraightLine player.coords coords ≤ player.weapon.range ∧
      (player.pointsPerShot : Int) ≤ player.points ∧
      eff = (g.map.getTilesInRadius coords
          (if Game.isKamikazeShot player coords then 2 else player.weapon.radius)).foldl
        (blastStep g.players player (Game.isKamikazeShot player coords))
        (emptyShot player.pointsPerShot) := by
  unfold Game.canAttack at h
  split at h
  · exact absurd h (by simp)
  · rename_i hended
    split at h
    · exact absurd h (by simp)
    · rename_i player hfind
      split at h
      · exact absurd h (by simp)
      · rename_i tile htile
        split at h
        · exact absurd h (by simp)
        · rename_i hsparse
          split at h
          · exact absurd h (by simp)
          · rename_i hrange
            split at h
            · exact absurd h (by simp)
            · rename_i hpoints
              refine ⟨player, tile, ?_, hfind, htile, ?_, ?_, ?_, ?_⟩
              · exact Bool.not_eq_true _ ▸ (by simpa using hended)
              · simpa using hsparse
              · exact Nat.le_of_not_lt (by simpa using hrange)
              · exact Int.not_lt.mp (by simpa using hpoints)
              · have := h
                injection this with h2
                exact h2.symm

/-- What every affected-player record of a kamikaze blast satisfies: the
snapshot matches the roster, the attacker takes their own full health, anyone
else takes half the global default starting health, clamped at zero. -/
def KamikazeEntry (ps : List Player) (a : Player) (e : PlayerShotEffect) : Prop :=
  findPlayer ps e.player.userId = some e.player ∧
  e.oldHP = e.player.hp ∧
  e.damageTaken = e.player.hp - e.newHP ∧
  (e.player.userId = a.userId → e.newHP = e.player.hp - a.hp) ∧
  (e.player.userId ≠ a.userId → e.newHP = e.player.hp - DEFAULT_STARTING_HP / 2)

theorem blastStep_kamikaze_entries (ps : List Player) (a : Player) (acc : ShotEffect)
    (tile : MapTile) (hacc : ∀ e ∈ acc.affectedPlayers, KamikazeEntry ps a e) :
    ∀ e ∈ (blastStep ps a true acc tile).affectedPlayers, KamikazeEntry ps a e := by
  cases hocc : tile.occupied with
  | none =>
    intro e he
    simp only [blastStep, hocc] at he
    exact hacc e he
  | some occupantId =>
    cases hfp : findPlayer ps occupantId with
    | none =>
      intro e he
      simp only [blastStep, hocc, hfp] at he
      exact hacc e he
    | some tp =>
      intro e he
      simp only [blastStep, hocc, hfp, blastOccupant] at he
      by_cases hskip : tp.userId ≠ a.userId ∧ sameTeam tp.team a.team = true
      · rw [if_pos hskip] at he
        exact hacc e he
      · rw [if_neg hskip] at he
        simp only [List.mem_append, List.mem_cons, List.not_mem_nil, or_false] at he
        rcases he with he | he
        · exact hacc e he
        · subst he
          have htp : tp.userId = occupantId := by
            have hh := List.find?_some hfp
            simpa using hh
          refine ⟨?_, rfl, rfl, ?_, ?_⟩
          · simp only []
            rw [htp]
            exact hfp
          · intro hself
            simp only [] at hself
            simp [blastDamage, hself]
          · intro hne
            simp only [] at hne
            simp [blastDamage, hne]

theorem blastFold_kamikaze_entries (ps : List Player) (a : Player) (tiles : List MapTile)
    (acc : ShotEffect) (hacc : ∀ e ∈ acc.affectedPlayers, KamikazeEntry ps a e) :
    ∀ e ∈ (tiles.foldl (blastStep ps a true) acc).affectedPlayers, KamikazeEntry ps a e := by
  induction tiles generalizing acc with
  | nil => exact hacc
  | cons tile tiles ih =>
    rw [List.foldl_cons]
    exact ih (blastStep ps a true acc tile) (blastStep_kamikaze_entries ps a acc tile hacc)

end TurtleTanks

namespace TurtleTanks

theorem blastOccupant_kam_summary (a a1 tp tp1 : Player) (acc acc1 : ShotEffect)
    (tile : MapTile) (hacc : acc1.summary = acc.summary)
    (hu : tp1.userId = tp.userId) (hh : tp1.hp = tp.hp) (htm : tp1.team = tp.team)
    (hau : a1.userId = a.userId) (hah : a1.hp = a.hp) (hat : a1.team = a.team) :
    (blastOccupant a1 true acc1 tile tp1).summary =
      (blastOccupant a true acc tile tp).summary := by
  have hdmg : blastDamage a1 tp1 true = blastDamage a tp true := by
    simp only [blastDamage, if_true, hu, hau, hah]
  simp only [blastOccupant, hdmg, hu, hh, htm, hau, hah, hat]
  by_cases hskip : tp.userId ≠ a.userId ∧ sameTeam tp.team a.team = true
  · rw [if_pos hskip, if_pos hskip]
    exact hacc
  · rw [if_neg hskip, if_neg hskip]
    simp only [ShotEffect.summary, Prod.mk.injEq, List.map_append] at hacc ⊢
    obtain ⟨h1, h2, h3, h4, h5⟩ := hacc
    refine ⟨by rw [h1], ?_, ?_, h4, by rw [h5]⟩
    · rw [h2]
      simp [hu, hh]
    · by_cases hkill : tp.hp - blastDamage a tp true = 0
      · rw [if_pos hkill, if_pos hkill]
        simp [h3, hu]
      · rw [if_neg hkill, if_neg hkill]
        simpa using h3

theorem blastStep_weapon_summary (ps : List Player) (uid : String) (w : Weapon) (a : Player)
    (tile : MapTile) (acc acc1 : ShotEffect) (hacc : acc1.summary = acc.summary) :
    (blastStep (updatePlayer ps uid (fun p => { p with weapon := w })) { a with weapon := w }
        true acc1 tile).summary = (blastStep ps a true acc tile).summary := by
  have hfp1 : ∀ id, findPlayer (updatePlayer ps uid (fun p => { p with weapon := w })) id =
      (findPlayer ps id).map (fun p => if p.userId = uid then { p with weapon := w } else p) :=
    fun id => findPlayer_updatePlayer ps uid (fun p => { p with weapon := w })
      (fun p => rfl) id
  cases hocc : tile.occupied with
  | none =>
    simp only [blastStep, hocc, ShotEffect.summary, Prod.mk.injEq] at hacc ⊢
    obtain ⟨h1, h2, h3, h4, h5⟩ := hacc
    exact ⟨by rw [h1], h2, h3, h4, h5⟩
  | some occupantId =>
    cases hfp : findPlayer ps occupantId with
    | none =>
      have hfp2 : findPlayer (updatePlayer ps uid (fun p => { p with weapon := w }))
          occupantId = none := by
        rw [hfp1 occupantId, hfp]
        rfl
      simp only [blastStep, hocc, hfp, hfp2, ShotEffect.summary, Prod.mk.injEq] at hacc ⊢
      obtain ⟨h1, h2, h3, h4, h5⟩ := hacc
      exact ⟨by rw [h1], h2, h3, h4, h5⟩
    | some tp =>
      have hfp2 : findPlayer (updatePlayer ps uid (fun p => { p with weapon := w }))
          occupantId = some (if tp.userId = uid then { tp with weapon := w } else tp) := by
        rw [hfp1 occupantId, hfp]
        rfl
      simp only [blastStep, hocc, hfp, hfp2]
      by_cases htpu : tp.userId = uid
      · rw [if_pos htpu]
        exact blastOccupant_kam_summary a { a with weapon := w } tp { tp with weapon := w }
          acc acc1 tile hacc rfl rfl rfl rfl rfl rfl
      · rw [if_neg htpu]
        exact blastOccupant_kam_summary a { a with weapon := w } tp tp
          acc acc1 tile hacc rfl rfl rfl rfl rfl rfl

theorem blastFold_weapon_summary (ps : List Player) (uid : String) (w : Weapon) (a : Player)
    (tiles : List MapTile) (acc acc1 : ShotEffect) (hacc : acc1.summary = acc.summary) :
    (tiles.foldl (blastStep (updatePlayer ps uid (fun p => { p with weapon := w }))
        { a with weapon := w } true) acc1).summary =
      (tiles.foldl (blastStep ps a true) acc).summary := by
  induction tiles generalizing acc acc1 with
  | nil => exact hacc
  | cons tile tiles ih =>
    rw [List.foldl_cons, List.foldl_cons]
    exact ih _ _ (blastStep_weapon_summary ps uid w a tile acc acc1 hacc)

end TurtleTanks

namespace TurtleTanks

/-- C2 (amended): a living attacker targeting their own cell with the Kamikaze
perk resolves with a blast radius of exactly 2 and independently of the
equipped weapon; the attacker's own damage equals their full pre-shot health
(a guaranteed self-kill), and every other affected occupant's recorded damage
is half of the GLOBAL default starting-health constant rounded down (capped at
that occupant's health) — not half of the rule set's configured starting
health, which Game.ts line 830 ignores in favour of DEFAULT_STARTING_HP. -/
theorem c2_kamikaze_fixed_radius_and_damage (g : GameState) (userId : String) (a : Player)
    (eff : ShotEffect)
    (hfind : findPlayer g.players userId = some a)
    (hperk : a.perk = some PerkType.Kamikaze)
    (heff : Game.canAttack g userId a.coords = .ok eff) :
    Game.canAttack g userId a.coords = .ok ((g.map.getTilesInRadius a.coords 2).foldl
        (blastStep g.players a true) (emptyShot a.pointsPerShot)) ∧
    (∀ e ∈ eff.affectedPlayers, e.player.userId = a.userId →
      e.damageTaken = a.hp ∧ e.newHP = 0) ∧
    (∀ e ∈ eff.affectedPlayers, e.player.userId ≠ a.userId →
      e.damageTaken = min (DEFAULT_STARTING_HP / 2) e.player.hp ∧
      e.newHP = e.player.hp - DEFAULT_STARTING_HP / 2) ∧
    (∀ w : Weapon, ∃ eff2,
      Game.canAttack (Game.setPlayerWeapon g userId w) userId a.coords = .ok eff2 ∧
      eff2.summary = eff.summary) := by
  obtain ⟨player, tile, hend, hfind2, htile, hsparse, hrange, hpts, hshape⟩ :=
    canAttack_ok_shape g userId a.coords eff heff
  have hpa : player = a := by
    rw [hfind] at hfind2
    injection hfind2 with hpa0
    exact hpa0.symm
  subst hpa
  have ha : player.userId = userId := by
    have hx := List.find?_some hfind
    simpa using hx
  have hkam : Game.isKamikazeShot player player.coords = true := by
    simp [Game.isKamikazeShot, hperk]
  rw [hkam] at hshape
  simp only [if_true] at hshape
  have hmem := blastFold_kamikaze_entries g.players player
    (g.map.getTilesInRadius player.coords 2) (emptyShot player.pointsPerShot)
    (by intro e he; simp [emptyShot] at he)
  refine ⟨?_, ?_, ?_, ?_⟩
  · rw [heff, hshape]
  · intro e he hid
    have hE := hmem e (by rw [hshape] at he; exact he)
    obtain ⟨hE1, hE2, hE3, hE4, hE5⟩ := hE
    have hep : e.player = player := by
      rw [hid, ha, hfind] at hE1
      injection hE1 with hep0
      exact hep0.symm
    have hnew := hE4 hid
    rw [hep, Nat.sub_self] at hnew
    rw [hE3, hnew, hep, Nat.sub_zero]
    exact ⟨rfl, rfl⟩
  · intro e he hid
    have hE := hmem e (by rw [hshape] at he; exact he)
    obtain ⟨hE1, hE2, hE3, hE4, hE5⟩ := hE
    have hnew := hE5 hid
    refine ⟨?_, hnew⟩
    rw [hE3, hnew]
    omega
  · intro w
    have hfpw : findPlayer (Game.setPlayerWeapon g userId w).players userId =
        some { player with weapon := w } := by
      simp only [Game.setPlayerWeapon]
      rw [findPlayer_updatePlayer g.players userId (fun p => { p with weapon := w })
        (fun p => rfl) userId, hfind]
      simp [ha]
    have hkamw : Game.isKamikazeShot { player with weapon := w } player.coords = true := by
      simp [Game.isKamikazeShot, hperk]
    have hdist : distanceBetweenStraightLine player.coords player.coords = 0 := by
      simp [distanceBetweenStraightLine]
    refine ⟨(g.map.getTilesInRadius player.coords 2).foldl
      (blastStep (updatePlayer g.players userId (fun p => { p with weapon := w }))
        { player with weapon := w } true) (emptyShot player.pointsPerShot), ?_, ?_⟩
    · unfold Game.canAttack
      rw [hfpw]
      simp only [Game.setPlayerWeapon]
      simp [hend, htile, hsparse, hkamw, hdist, Int.not_lt.mpr hpts, emptyShot]
    · rw [hshape]
      exact blastFold_weapon_summary g.players userId w player
        (g.map.getTilesInRadius player.coords 2) (emptyShot player.pointsPerShot)
        (emptyShot player.pointsPerShot) rfl

end TurtleTanks

namespace TurtleTanks

/-- A default-rules match: A with the Kamikaze perk at the origin, B adjacent. -/
def gKam : GameState :=
  (Game.join (Game.join gEmpty "A" none none (some ⟨0, 0⟩) none
    (some PerkType.Kamikaze)).2 "B" none none (some ⟨1, 0⟩) none none).2

/-- The roster record of A inside gKam. -/
def pKamA : Player :=
  { userId := "A", hp := 100, points := 20, pointsPerMove := 5, pointsPerShot := 10,
    pointsPerTick := 1, pointsPerKill := 5, coords := ⟨0, 0⟩, team := none,
    weapon := SmallMissile, perk := some PerkType.Kamikaze, dead := false }

/-- The effect gKam computes for A kamikazing at the origin. -/
def effKam : ShotEffect :=
  match Game.canAttack gKam "A" ⟨0, 0⟩ with
  | .ok e => e
  | .err _ => emptyShot 0

/-- C2 witness: the kamikaze theorem applied to the concrete match gKam. -/
theorem c2_witness :
    Game.canAttack gKam "A" ⟨0, 0⟩ =
      .ok ((gKam.map.getTilesInRadius ⟨0, 0⟩ 2).foldl
        (blastStep gKam.players pKamA true) (emptyShot pKamA.pointsPerShot)) := by
  exact (c2_kamikaze_fixed_radius_and_damage gKam "A" pKamA effKam
    (by decide) (by decide) (by decide)).1

/-- A match whose rule set overrides the default starting health to 200: A
(hp 100, Kamikaze perk) at the origin and B (hp 200) adjacent. -/
def gKamCx : GameState :=
  (Game.join (Game.join (initGame { defaultStartingHp := some 200 } map5) "A" (some 100)
    none (some ⟨0, 0⟩) none (some PerkType.Kamikaze)).2 "B" none none (some ⟨1, 0⟩)
    none none).2

/-- C2 counterexample: with the rule set's starting health configured to 200,
the kamikaze blast deals B only 50 damage — half of the GLOBAL default
starting-health constant (100), not half of the rule set's value (100 ≠ 50):
the claim that splash damage is half of the rule set's default starting
health is false (Game.ts line 830 reads DEFAULT_STARTING_HP). -/
theorem c2_counterexample :
    gKamCx.rules.defaultStartingHp = 200 ∧
    (match Game.canAttack gKamCx "A" ⟨0, 0⟩ with
     | .ok e => e.affectedPlayers.map (fun x => (x.player.userId, x.damageTaken))
     | .err _ => []) = [("A", 100), ("B", 50)] ∧
    (50 : Nat) ≠ gKamCx.rules.defaultStartingHp / 2 := by
  refine ⟨by decide, by decide, by decide⟩

end TurtleTanks

namespace TurtleTanks

/-- C8 witness: the amended scheduling theorem applied to the second join on a
concrete match, plus a concrete tick rescheduling. -/
theorem c8_witness :
    (Game.join gA "B" none none (some ⟨1, 0⟩) none none).2.timer =
      some MILLISECONDS_PER_TICK ∧
    (Game.handleGameTick gA).timer = some MILLISECONDS_PER_TICK := by
  have h := c8_scheduling_uses_global_constant gA "B" none none (some ⟨1, 0⟩) none none
    (by decide) (by decide)
  exact ⟨h.1, h.2⟩

/-- The minimum-selection fold picks an element of minimal count; among equal
minima it picks the LAST one in list order (`count <= minimumAmount` keeps
updating on ties, Game.ts line 379). -/
theorem chooseTeamFold_spec (cs : List (String × Nat)) (hne : cs ≠ []) :
    ∃ r l₁ l₂, chooseTeamFold cs = some r ∧ cs = l₁ ++ r :: l₂ ∧
      (∀ x ∈ l₁, r.2 ≤ x.2) ∧ (∀ x ∈ l₂, r.2 < x.2) := by
  induction cs using List.reverseRecOn with
  | nil => exact absurd rfl hne
  | append_singleton l c ih =>
    rcases eq_or_ne l [] with hl | hl
    · subst hl
      exact ⟨c, [], [], rfl, rfl, by simp, by simp⟩
    · obtain ⟨r, l₁, l₂, hfold, hsplit, hmin, hlast⟩ := ih hl
      have hstep : chooseTeamFold (l ++ [c]) =
          (if c.2 ≤ r.2 then some c else some r) := by
        unfold chooseTeamFold at hfold ⊢
        rw [List.foldl_append, hfold]
        rfl
      by_cases hc : c.2 ≤ r.2
      · refine ⟨c, l, [], by rw [hstep, if_pos hc], by simp, ?_, by simp⟩
        intro x hx
        rw [hsplit] at hx
        rcases List.mem_append.mp hx with hx | hx
        · exact le_trans hc (hmin x hx)
        · rcases List.mem_cons.mp hx with hx | hx
          · rw [hx]
            exact hc
          · exact le_trans hc (le_of_lt (hlast x hx))
      · refine ⟨r, l₁, l₂ ++ [c], by rw [hstep, if_neg hc], ?_, hmin, ?_⟩
        · rw [hsplit]
          simp
        · intro x hx
          rcases List.mem_append.mp hx with hx | hx
          · exact hlast x hx
          · rw [List.mem_singleton.mp hx]
            exact Nat.lt_of_not_le hc

/-- A successful join returns precisely the Player record built from the
selected square. -/
theorem join_ok_player (g : GameState) (userId : String) (hpOpt : Option Nat)
    (pointsOpt : Option Int) (coords : Option Coordinate) (storedTeam : Option String)
    (perk : Option PerkType) (p : Player)
    (h : (Game.join g userId hpOpt pointsOpt coords storedTeam perk).1 = .ok p) :
    ∃ sq, Game.joinSquare g coords = some sq ∧
      p = Game.joinPlayer g userId hpOpt pointsOpt sq storedTeam perk := by
  unfold Game.join at h
  split at h
  · exact absurd h (by simp)
  · split at h
    · exact absurd h (by simp)
    · split at h
      · exact absurd h (by simp)
      · split at h
        · exact absurd h (by simp)
        · rename_i sq hsq
          refine ⟨sq, hsq, ?_⟩
          simp only [] at h
          injection h with h2
          exact h2.symm

/-- C6 (amended): a join with teams enabled and no usable stored team assigns
the joining player to a configured team with the fewest living members; when
several teams tie for the fewest living members, the LAST such team in the
configured order wins (chooseTeam uses `count <= minimumAmount`, Game.ts lines
375-383, so every tie updates the choice). -/
theorem c6_join_assigns_fewest_last_tie (g : GameState) (userId : String)
    (hpOpt : Option Nat) (pointsOpt : Option Int) (coords : Option Coordinate)
    (storedTeam : Option String) (perk : Option PerkType) (ts : List String) (p : Player)
    (hts : g.rules.teams = some ts)
    (hne : ts ≠ [])
    (hstored : resolveStoredTeam ts storedTeam = none)
    (hok : (Game.join g userId hpOpt pointsOpt coords storedTeam perk).1 = .ok p) :
    ∃ t m₁ m₂, p.team = some t ∧ ts = m₁ ++ t :: m₂ ∧
      (∀ u ∈ ts, countTeam g.players t ≤ countTeam g.players u) ∧
      (∀ u ∈ m₂, countTeam g.players t < countTeam g.players u) := by
  obtain ⟨sq, hsq, hp⟩ :=
    join_ok_player g userId hpOpt pointsOpt coords storedTeam perk p hok
  have hteam : p.team = Game.chooseTeam g := by
    rw [hp]
    simp [Game.joinPlayer, Game.joinTeam, hts, hstored]
  obtain ⟨r, l₁, l₂, hfold, hsplit, hmin, hlast⟩ :=
    chooseTeamFold_spec (ts.map (fun t => (t, countTeam g.players t)))
      (by simpa using hne)
  obtain ⟨m₁, mrest, hts2, hm₁, hmrest⟩ := List.map_eq_append_iff.mp hsplit
  obtain ⟨t, m₂, hrest2, hft, hm₂⟩ := List.map_eq_cons_iff.mp hmrest
  have hchoose : Game.chooseTeam g = some t := by
    simp only [Game.chooseTeam, hts]
    rw [hfold, ← hft]
    rfl
  have hr2 : r.2 = countTeam g.players t := by rw [← hft]
  refine ⟨t, m₁, m₂, by rw [hteam, hchoose], by rw [hts2, hrest2], ?_, ?_⟩
  · intro u hu
    rw [hts2, hrest2] at hu
    rcases List.mem_append.mp hu with hu | hu
    · have : (u, countTeam g.players u) ∈ l₁ := by
        rw [← hm₁]
        exact List.mem_map_of_mem _ hu
      have := hmin _ this
      rw [hr2] at this
      exact this
    · rcases List.mem_cons.mp hu with hu | hu
      · rw [hu]
      · have : (u, countTeam g.players u) ∈ l₂ := by
          rw [← hm₂]
          exact List.mem_map_of_mem _ hu
        have := hlast _ this
        rw [hr2] at this
        exact le_of_lt this
  · intro u hu
    have : (u, countTeam g.players u) ∈ l₂ := by
      rw [← hm₂]
      exact List.mem_map_of_mem _ hu
    have := hlast _ this
    rw [hr2] at this
    exact this

/-- A two-team match with no players yet. -/
def gTeams : GameState := initGame { teams := some ["red", "blue"] } map5

/-- C6 witness: joining the empty two-team match applies the amended theorem;
both teams have zero living members, so the last team in configured order
(blue) is chosen. -/
theorem c6_witness :
    ∃ t m₁ m₂, (match (Game.join gTeams "u" none none none none none).1 with
        | JoinResult.ok p => p.team
        | JoinResult.err _ => none) = some t ∧
      (["red", "blue"] : List String) = m₁ ++ t :: m₂ ∧
      (∀ u ∈ (["red", "blue"] : List String),
        countTeam gTeams.players t ≤ countTeam gTeams.players u) ∧
      (∀ u ∈ m₂, countTeam gTeams.players t < countTeam gTeams.players u) := by
  obtain ⟨t, m₁, m₂, h1, h2, h3, h4⟩ := c6_join_assigns_fewest_last_tie gTeams "u"
    none none none none none ["red", "blue"]
    (Game.joinPlayer gTeams "u" none none
      { coords := ⟨0, 0⟩, sparse := false, occupied := none } none none)
    rfl (by decide) rfl (by decide)
  refine ⟨t, m₁, m₂, ?_, h2, h3, h4⟩
  have hj : (Game.join gTeams "u" none none none none none).1 =
      JoinResult.ok (Game.joinPlayer gTeams "u" none none
        { coords := ⟨0, 0⟩, sparse := false, occupied := none } none none) := by decide
  rw [hj]
  exact h1

/-- C6 counterexample: the claim says ties are broken in favor of the FIRST
team in configured order; but joining the empty two-team match (living counts
[0, 0], a tie) assigns the SECOND team, blue. -/
theorem c6_counterexample :
    (match (Game.join gTeams "u" none none none none none).1 with
     | JoinResult.ok p => p.team
     | JoinResult.err _ => none) = some "blue" := by
  decide

end TurtleTanks

namespace TurtleTanks

theorem receiveDamage_userId (p : Player) (d : Nat) : (p.receiveDamage d).userId = p.userId := rfl

theorem findPlayer_updatePlayer_ne (ps : List Player) (uid : String) (f : Player → Player)
    (id : String) (hne : id ≠ uid) (hf : ∀ p, p.userId = uid → (f p).userId = uid) :
    findPlayer (updatePlayer ps uid f) id = findPlayer ps id := by
  induction ps with
  | nil => rfl
  | cons p ps ih =>
    simp only [updatePlayer, List.map_cons, findPlayer, List.find?_cons] at *
    by_cases hp : p.userId = uid
    · rw [if_pos hp]
      have h1 : (decide ((f p).userId = id)) = false := by
        simp only [decide_eq_false_iff_not]
        rw [hf p hp]
        exact Ne.symm hne
      have h2 : (decide (p.userId = id)) = false := by
        simp only [decide_eq_false_iff_not]
        rw [hp]
        exact Ne.symm hne
      rw [h1, h2]
      exact ih
    · rw [if_neg hp]
      by_cases hd : p.userId = id
      · simp [hd]
      · have h2 : (decide (p.userId = id)) = false := by
          simp only [decide_eq_false_iff_not]
          exact hd
        rw [h2]
        simpa using ih

theorem applyEffectStep_untouched (h : GameState) (e : PlayerShotEffect) (bId : String)
    (hne : e.player.userId ≠ bId) :
    findPlayer (applyEffectStep h e).players bId = findPlayer h.players bId := by
  unfold applyEffectStep
  cases hfp : findPlayer h.players e.player.userId with
  | none => rfl
  | some p =>
    simp only []
    have hpu : p.userId = e.player.userId := by
      have hx := List.find?_some hfp
      simpa using hx
    by_cases hz : (p.receiveDamage e.damageTaken).hp = 0
    · rw [if_pos hz]
      unfold Game.killPlayer
      simp only []
      rw [findPlayer_removePlayer_ne]
      rw [receiveDamage_userId, hpu]
      exact fun hx => hne hx.symm
    · rw [if_neg hz]
      simp only []
      rw [findPlayer_updatePlayer_ne]
      · intro hx
        rw [hpu] at hx
        exact (hne hx.symm).elim
      · intro q hq
        exact hq ▸ rfl

theorem applyEffects_untouched (es : List PlayerShotEffect) (h : GameState) (bId : String)
    (hno : ∀ e ∈ es, e.player.userId ≠ bId) :
    findPlayer (applyEffects h es).players bId = findPlayer h.players bId := by
  induction es generalizing h with
  | nil => rfl
  | cons e es ih =>
    unfold applyEffects at *
    rw [List.foldl_cons]
    rw [ih (applyEffectStep h e) (fun x hx => hno x (List.mem_cons_of_mem e hx))]
    exact applyEffectStep_untouched h e bId (hno e (List.mem_cons_self e es))

end TurtleTanks

namespace TurtleTanks

/-- doAttack never touches the roster entry of a player who is not the
attacker and appears in none of the affected-player records. -/
theorem doAttack_preserves_unaffected (g : GameState) (userId : String) (c : Coordinate)
    (roll : Bool) (bId : String) (eff : ShotEffect)
    (heff : Game.canAttack g userId c = .ok eff)
    (hne : bId ≠ userId)
    (hno : ∀ e ∈ eff.affectedPlayers, e.player.userId ≠ bId) :
    findPlayer (Game.doAttack g userId c roll).2.players bId = findPlayer g.players bId := by
  unfold Game.doAttack
  rw [heff]
  cases hfa : findPlayer g.players userId with
  | none => rfl
  | some attacker =>
    simp only []
    have hupd : ∀ (f : Player → Player), (∀ p, p.userId = userId → (f p).userId = userId) →
        ∀ ps : List Player, findPlayer (updatePlayer ps userId f) bId = findPlayer ps bId :=
      fun f hf ps => findPlayer_updatePlayer_ne ps userId f bId hne hf
    split
    · split
      · simp only []
        rw [applyEffects_untouched _ _ _ hno]
        simp only []
        rw [hupd _ (fun p hp => hp ▸ rfl), hupd _ (fun p hp => hp ▸ rfl)]
      · simp only []
        rw [applyEffects_untouched _ _ _ hno]
        simp only []
        rw [hupd _ (fun p hp => hp ▸ rfl), hupd _ (fun p hp => hp ▸ rfl)]
    · simp only []
      rw [hupd _ (fun p hp => hp ▸ rfl)]

end TurtleTanks

namespace TurtleTanks

/-- One blast iteration never records a teammate of the attacker: no damage
entry and no affected tile for the teammate's cell (the `continue` in Game.ts
lines 815-821 fires before both). -/
theorem blastStep_skips_teammate (ps : List Player) (a b : Player) (kam : Bool)
    (acc : ShotEffect) (tile : MapTile)
    (hb : findPlayer ps b.userId = some b)
    (hneq : b.userId ≠ a.userId) (hteam : sameTeam b.team a.team = true)
    (hacc1 : ∀ e ∈ acc.affectedPlayers, e.player.userId ≠ b.userId)
    (hacc2 : ∀ t ∈ acc.affectedTiles, t.occupied ≠ some b.userId) :
    (∀ e ∈ (blastStep ps a kam acc tile).affectedPlayers, e.player.userId ≠ b.userId) ∧
    (∀ t ∈ (blastStep ps a kam acc tile).affectedTiles, t.occupied ≠ some b.userId) := by
  cases hocc : tile.occupied with
  | none =>
    simp only [blastStep, hocc]
    refine ⟨hacc1, ?_⟩
    intro t ht
    rcases List.mem_append.mp ht with ht | ht
    · exact hacc2 t ht
    · rw [List.mem_singleton.mp ht, hocc]
      simp
  | some occupantId =>
    by_cases hid : occupantId = b.userId
    · subst hid
      simp only [blastStep, hocc, hb, blastOccupant]
      rw [if_pos ⟨hneq, hteam⟩]
      exact ⟨hacc1, hacc2⟩
    · cases hfp : findPlayer ps occupantId with
      | none =>
        simp only [blastStep, hocc, hfp]
        refine ⟨hacc1, ?_⟩
        intro t ht
        rcases List.mem_append.mp ht with ht | ht
        · exact hacc2 t ht
        · rw [List.mem_singleton.mp ht, hocc]
          intro hx
          exact hid (by injection hx)
      | some tp =>
        have htp : tp.userId = occupantId := by
          have hx := List.find?_some hfp
          simpa using hx
        simp only [blastStep, hocc, hfp, blastOccupant]
        by_cases hskip : tp.userId ≠ a.userId ∧ sameTeam tp.team a.team = true
        · rw [if_pos hskip]
          exact ⟨hacc1, hacc2⟩
        · rw [if_neg hskip]
          constructor
          · intro e he
            rcases List.mem_append.mp he with he | he
            · exact hacc1 e he
            · rw [List.mem_singleton.mp he]
              simp only []
              rw [htp]
              exact hid
          · intro t ht
            rcases List.mem_append.mp ht with ht | ht
            · exact hacc2 t ht
            · rw [List.mem_singleton.mp ht, hocc]
              intro hx
              exact hid (by injection hx)

theorem blastFold_skips_teammate (ps : List Player) (a b : Player) (kam : Bool)
    (tiles : List MapTile) (acc : ShotEffect)
    (hb : findPlayer ps b.userId = some b)
    (hneq : b.userId ≠ a.userId) (hteam : sameTeam b.team a.team = true)
    (hacc1 : ∀ e ∈ acc.affectedPlayers, e.player.userId ≠ b.userId)
    (hacc2 : ∀ t ∈ acc.affectedTiles, t.occupied ≠ some b.userId) :
    (∀ e ∈ (tiles.foldl (blastStep ps a kam) acc).affectedPlayers,
      e.player.userId ≠ b.userId) ∧
    (∀ t ∈ (tiles.foldl (blastStep ps a kam) acc).affectedTiles,
      t.occupied ≠ some b.userId) := by
  induction tiles generalizing acc with
  | nil => exact ⟨hacc1, hacc2⟩
  | cons tile tiles ih =>
    rw [List.foldl_cons]
    obtain ⟨h1, h2⟩ := blastStep_skips_teammate ps a b kam acc tile hb hneq hteam hacc1 hacc2
    exact ih (blastStep ps a kam acc tile) h1 h2

end TurtleTanks

namespace TurtleTanks

/-- C7 (amended): a non-self (hence non-kamikaze) shot whose blast covers a
teammate's cell records NO damage entry for that teammate, leaves the
teammate's roster entry (health included) completely unchanged through
doAttack, and — contrary to the claim — does NOT count that cell among the
affected tiles: the `continue` in Game.ts lines 815-821 skips the
affectedTiles.push at line 852 as well. -/
theorem c7_friendly_fire_skips_teammate (g : GameState) (userId bId : String)
    (a b : Player) (c : Coordinate) (tm : String) (eff : ShotEffect)
    (ha : findPlayer g.players userId = some a)
    (hb : findPlayer g.players bId = some b)
    (hneq : bId ≠ userId)
    (hbt : b.team = some tm) (hat : a.team = some tm)
    (hnonself : c ≠ a.coords)
    (hcover : ∃ tl ∈ g.map.getTilesInRadius c a.weapon.radius, tl.occupied = some bId)
    (heff : Game.canAttack g userId c = .ok eff) :
    (∀ e ∈ eff.affectedPlayers, e.player.userId ≠ bId) ∧
    (∀ tl ∈ eff.affectedTiles, tl.occupied ≠ some bId) ∧
    (∀ roll, findPlayer (Game.doAttack g userId c roll).2.players bId = some b) := by
  obtain ⟨player, tile, hend, hfind2, htile, hsparse, hrange, hpts, hshape⟩ :=
    canAttack_ok_shape g userId c eff heff
  have hpa : player = a := by
    rw [ha] at hfind2
    injection hfind2 with h
    exact h.symm
  subst hpa
  have hauid : player.userId = userId := by
    have hx := List.find?_some ha
    simpa using hx
  have hbuid : b.userId = bId := by
    have hx := List.find?_some hb
    simpa using hx
  have hb2 : findPlayer g.players b.userId = some b := by rw [hbuid]; exact hb
  have hneq2 : b.userId ≠ player.userId := by
    rw [hbuid, hauid]
    exact hneq
  have hteam : sameTeam b.team player.team = true := by
    rw [hbt, hat]
    simp [sameTeam]
  obtain ⟨h1, h2⟩ := blastFold_skips_teammate g.players player b
    (Game.isKamikazeShot player c)
    (g.map.getTilesInRadius c
      (if Game.isKamikazeShot player c then 2 else player.weapon.radius))
    (emptyShot player.pointsPerShot) hb2 hneq2 hteam
    (by intro e he; simp [emptyShot] at he)
    (by intro t ht; simp [emptyShot] at ht)
  have hc1 : ∀ e ∈ eff.affectedPlayers, e.player.userId ≠ bId := by
    intro e he
    rw [← hbuid]
    exact h1 e (by rw [hshape] at he; exact he)
  refine ⟨hc1, ?_, ?_⟩
  · intro tl htl
    rw [← hbuid]
    exact h2 tl (by rw [hshape] at htl; exact htl)
  · intro roll
    rw [doAttack_preserves_unaffected g userId c roll bId eff heff hneq hc1]
    exact hb

/-- A two-team match with teammates a (origin) and b (adjacent), both red. -/
def gFF : GameState :=
  (Game.join (Game.join (initGame { teams := some ["red", "blue"] } map5) "a" none none
    (some ⟨0, 0⟩) (some "red") none).2 "b" none none (some ⟨1, 0⟩) (some "red") none).2

/-- The roster records of a and b inside gFF. -/
def pFFa : Player :=
  { userId := "a", hp := 100, points := 20, pointsPerMove := 5, pointsPerShot := 10,
    pointsPerTick := 1, pointsPerKill := 5, coords := ⟨0, 0⟩, team := some "red",
    weapon := SmallMissile, perk := none, dead := false }

def pFFb : Player :=
  { userId := "b", hp := 100, points := 20, pointsPerMove := 5, pointsPerShot := 10,
    pointsPerTick := 1, pointsPerKill := 5, coords := ⟨1, 0⟩, team := some "red",
    weapon := SmallMissile, perk := none, dead := false }

/-- The effect gFF computes for a shooting at (2,0), one tile beyond b. -/
def effFF : ShotEffect :=
  match Game.canAttack gFF "a" ⟨2, 0⟩ with
  | .ok e => e
  | .err _ => emptyShot 0

/-- C7 witness: the friendly-fire theorem applied to the concrete match gFF;
teammate b's roster entry is untouched by the resolved attack. -/
theorem c7_witness :
    findPlayer (Game.doAttack gFF "a" ⟨2, 0⟩ true).2.players "b" = some pFFb := by
  exact (c7_friendly_fire_skips_teammate gFF "a" "b" pFFa pFFb ⟨2, 0⟩ "red" effFF
    (by decide) (by decide) (by decide) (by decide) (by decide) (by decide)
    (by decide) (by decide)).2.2 true

/-- C7 counterexample: the claim says the teammate's cell is still counted
among the affected tiles; but b's cell (1,0) lies inside the radius-1 blast
at (2,0) and is absent from affectedTiles (and no tile occupied by b appears). -/
theorem c7_counterexample :
    distanceBetweenStraightLine ⟨1, 0⟩ ⟨2, 0⟩ ≤ SmallMissile.radius ∧
    ((gFF.map.tryGetTile ⟨1, 0⟩).map MapTile.occupied = some (some "b")) ∧
    Game.canAttack gFF "a" ⟨2, 0⟩ = .ok effFF ∧
    ¬ ((⟨1, 0⟩ : Coordinate) ∈ effFF.affectedTiles.map (fun t => t.coords)) := by
  refine ⟨by decide, by decide, by decide, by decide⟩

end TurtleTanks

namespace TurtleTanks

theorem findPlayer_userId (ps : List Player) (id : String) (p : Player)
    (h : findPlayer ps id = some p) : p.userId = id := by
  have hx := List.find?_some h
  simpa using hx

theorem findPlayer_mem (ps : List Player) (id : String) (p : Player)
    (h : findPlayer ps id = some p) : p ∈ ps :=
  List.mem_of_find?_eq_some h

theorem findPlayer_updatePlayer_self (ps : List Player) (uid : String) (f : Player → Player)
    (q : Player) (hq : findPlayer ps uid = some q) (hf : (f q).userId = uid) :
    findPlayer (updatePlayer ps uid f) uid = some (f q) := by
  induction ps with
  | nil => exact absurd hq (by simp [findPlayer])
  | cons p ps ih =>
    by_cases hp : p.userId = uid
    · have hpq : p = q := by
        unfold findPlayer at hq
        rw [List.find?_cons_of_pos _ (by simpa using hp)] at hq
        injection hq
      unfold findPlayer updatePlayer
      rw [List.map_cons, if_pos hp,
        List.find?_cons_of_pos _ (by rw [hpq]; simpa using hf)]
      rw [hpq]
    · have hq2 : findPlayer ps uid = some q := by
        unfold findPlayer at hq
        rw [List.find?_cons_of_neg _ (by simpa using hp)] at hq
        exact hq
      unfold findPlayer updatePlayer
      rw [List.map_cons, if_neg hp, List.find?_cons_of_neg _ (by simpa using hp)]
      exact ih hq2

theorem findPlayer_setPlayer_self (ps : List Player) (p : Player) :
    findPlayer (setPlayer ps p) p.userId = some p := by
  unfold setPlayer
  by_cases hex : (findPlayer ps p.userId).isSome
  · rw [if_pos hex]
    obtain ⟨q, hq⟩ := Option.isSome_iff_exists.mp hex
    exact findPlayer_updatePlayer_self ps p.userId (fun _ => p) q hq rfl
  · rw [if_neg hex]
    unfold findPlayer at *
    rw [List.find?_append]
    rw [Option.not_isSome_iff_eq_none.mp hex]
    simp

theorem findPlayer_setPlayer_ne (ps : List Player) (p : Player) (id : String)
    (hne : id ≠ p.userId) :
    findPlayer (setPlayer ps p) id = findPlayer ps id := by
  unfold setPlayer
  by_cases hex : (findPlayer ps p.userId).isSome
  · rw [if_pos hex]
    exact findPlayer_updatePlayer_ne ps p.userId (fun _ => p) id hne (fun q hq => rfl)
  · rw [if_neg hex]
    unfold findPlayer
    rw [List.find?_append]
    have h2 : List.find? (fun q => decide (q.userId = id)) [p] = none := by
      simp [Ne.symm hne]
    rw [h2]
    simp

theorem updatePlayer_map_userId (ps : List Player) (uid : String) (f : Player → Player)
    (hf : ∀ p, p.userId = uid → (f p).userId = uid) :
    (updatePlayer ps uid f).map (fun p => p.userId) = ps.map (fun p => p.userId) := by
  unfold updatePlayer
  rw [List.map_map]
  apply List.map_congr_left
  intro p hp
  simp only [Function.comp]
  by_cases h : p.userId = uid
  · rw [if_pos h, hf p h, h]
  · rw [if_neg h]

theorem findPlayer_updatePlayer_isSome (ps : List Player) (uid : String) (f : Player → Player)
    (hf : ∀ p, p.userId = uid → (f p).userId = uid) (id : String) :
    (findPlayer (updatePlayer ps uid f) id).isSome = (findPlayer ps id).isSome := by
  by_cases hne : id = uid
  · subst hne
    cases hq : findPlayer ps id with
    | none =>
      cases hq2 : findPlayer (updatePlayer ps id f) id with
      | none => rfl
      | some r =>
        obtain ⟨p0, hp0, hr⟩ := List.mem_map.mp (findPlayer_mem _ _ _ hq2)
        have hruid : r.userId = id := findPlayer_userId _ _ _ hq2
        have : (findPlayer ps id).isSome := by
          by_cases hcase : p0.userId = id
          · rw [findPlayer]
            rw [List.find?_isSome]
            exact ⟨p0, hp0, by simpa using hcase⟩
          · rw [if_neg hcase] at hr
            rw [hr] at hcase
            exact absurd hruid hcase
        rw [hq] at this
        exact absurd this (by simp)
    | some q =>
      rw [findPlayer_updatePlayer_self ps id f q hq (hf q (findPlayer_userId _ _ _ hq))]
      rfl
  · rw [findPlayer_updatePlayer_ne ps uid f id hne hf]

end TurtleTanks

namespace TurtleTanks

/-- Fields of a roster entry that the damage loop never changes. -/
def SameShape (q p : Player) : Prop :=
  q.userId = p.userId ∧ q.coords = p.coords ∧ q.team = p.team

theorem sameShape_refl (p : Player) : SameShape p p := ⟨rfl, rfl, rfl⟩

theorem sameShape_receiveDamage (p : Player) (d : Nat) : SameShape (p.receiveDamage d) p :=
  ⟨rfl, rfl, rfl⟩

theorem sameShape_trans (r q p : Player) (h1 : SameShape r q) (h2 : SameShape q p) :
    SameShape r p :=
  ⟨h1.1.trans h2.1, h1.2.1.trans h2.2.1, h1.2.2.trans h2.2.2⟩

theorem applyEffectStep_lookup (h : GameState) (e : PlayerShotEffect) (id : String)
    (q : Player) (hq : findPlayer (applyEffectStep h e).players id = some q) :
    ∃ p, findPlayer h.players id = some p ∧ SameShape q p := by
  unfold applyEffectStep at hq
  cases hfp : findPlayer h.players e.player.userId with
  | none =>
    rw [hfp] at hq
    exact ⟨q, hq, sameShape_refl q⟩
  | some p0 =>
    rw [hfp] at hq
    simp only [] at hq
    have hp0 : p0.userId = e.player.userId := findPlayer_userId _ _ _ hfp
    by_cases hz : (p0.receiveDamage e.damageTaken).hp = 0
    · rw [if_pos hz] at hq
      unfold Game.killPlayer at hq
      simp only [] at hq
      by_cases hid : id = (p0.receiveDamage e.damageTaken).userId
      · rw [hid, findPlayer_removePlayer_self] at hq
        exact absurd hq (by simp)
      · rw [findPlayer_removePlayer_ne _ _ _ hid] at hq
        exact ⟨q, hq, sameShape_refl q⟩
    · rw [if_neg hz] at hq
      simp only [] at hq
      by_cases hid : id = p0.userId
      · subst hid
        rw [findPlayer_updatePlayer_self h.players p0.userId _ p0
          (by rw [hp0]; exact hfp) rfl] at hq
        refine ⟨p0, by rw [hp0]; exact hfp, ?_⟩
        injection hq with hq
        rw [← hq]
        exact sameShape_receiveDamage p0 e.damageTaken
      · rw [findPlayer_updatePlayer_ne _ _ _ _ hid (fun r hr => hr ▸ rfl)] at hq
        exact ⟨q, hq, sameShape_refl q⟩

theorem applyEffects_lookup (es : List PlayerShotEffect) (h : GameState) (id : String)
    (q : Player) (hq : findPlayer (applyEffects h es).players id = some q) :
    ∃ p, findPlayer h.players id = some p ∧ SameShape q p := by
  induction es generalizing h with
  | nil => exact ⟨q, hq, sameShape_refl q⟩
  | cons e es ih =>
    unfold applyEffects at hq
    rw [List.foldl_cons] at hq
    obtain ⟨m, hm, hs1⟩ := ih (applyEffectStep h e) hq
    obtain ⟨p, hp, hs2⟩ := applyEffectStep_lookup h e id m hm
    exact ⟨p, hp, sameShape_trans q m p hs1 hs2⟩

theorem applyEffectStep_presence (h : GameState) (e : PlayerShotEffect) (id : String)
    (hpres : (findPlayer h.players id).isSome ∨ (findPlayer h.deadPlayers id).isSome) :
    (findPlayer (applyEffectStep h e).players id).isSome ∨
      (findPlayer (applyEffectStep h e).deadPlayers id).isSome := by
  unfold applyEffectStep
  cases hfp : findPlayer h.players e.player.userId with
  | none => exact hpres
  | some p0 =>
    simp only []
    have hp0 : p0.userId = e.player.userId := findPlayer_userId _ _ _ hfp
    by_cases hz : (p0.receiveDamage e.damageTaken).hp = 0
    · rw [if_pos hz]
      unfold Game.killPlayer
      simp only []
      by_cases hid : id = (p0.receiveDamage e.damageTaken).userId
      · right
        rw [hid, findPlayer_setPlayer_self]
        rfl
      · rw [findPlayer_removePlayer_ne _ _ _ hid,
          findPlayer_setPlayer_ne _ _ _ hid]
        exact hpres
    · rw [if_neg hz]
      simp only []
      rw [findPlayer_updatePlayer_isSome _ _ _ (fun r hr => hr ▸ rfl)]
      exact hpres

theorem applyEffects_presence (es : List PlayerShotEffect) (h : GameState) (id : String)
    (hpres : (findPlayer h.players id).isSome ∨ (findPlayer h.deadPlayers id).isSome) :
    (findPlayer (applyEffects h es).players id).isSome ∨
      (findPlayer (applyEffects h es).deadPlayers id).isSome := by
  induction es generalizing h with
  | nil => exact hpres
  | cons e es ih =>
    unfold applyEffects at *
    rw [List.foldl_cons]
    exact ih (applyEffectStep h e) (applyEffectStep_presence h e id hpres)

theorem applyEffectStep_ids_sublist (h : GameState) (e : PlayerShotEffect) :
    ((applyEffectStep h e).players.map (fun p => p.userId)).Sublist
      (h.players.map (fun p => p.userId)) := by
  unfold applyEffectStep
  cases hfp : findPlayer h.players e.player.userId with
  | none => exact List.Sublist.refl _
  | some p0 =>
    simp only []
    by_cases hz : (p0.receiveDamage e.damageTaken).hp = 0
    · rw [if_pos hz]
      unfold Game.killPlayer
      simp only [removePlayer]
      exact List.Sublist.map _ (List.filter_sublist _)
    · rw [if_neg hz]
      simp only []
      rw [updatePlayer_map_userId _ _ _ (fun r hr => hr ▸ rfl)]

theorem applyEffects_ids_sublist (es : List PlayerShotEffect) (h : GameState) :
    ((applyEffects h es).players.map (fun p => p.userId)).Sublist
      (h.players.map (fun p => p.userId)) := by
  induction es generalizing h with
  | nil => exact List.Sublist.refl _
  | cons e es ih =>
    unfold applyEffects at *
    rw [List.foldl_cons]
    exact (ih (applyEffectStep h e)).trans (applyEffectStep_ids_sublist h e)

theorem applyEffectStep_disjoint (h : GameState) (e : PlayerShotEffect)
    (hdisj : ∀ id, (findPlayer h.players id).isSome → findPlayer h.deadPlayers id = none) :
    ∀ id, (findPlayer (applyEffectStep h e).players id).isSome →
      findPlayer (applyEffectStep h e).deadPlayers id = none := by
  intro id hsome
  unfold applyEffectStep at hsome ⊢
  cases hfp : findPlayer h.players e.player.userId with
  | none =>
    rw [hfp] at hsome
    exact hdisj id hsome
  | some p0 =>
    rw [hfp] at hsome
    simp only [] at hsome ⊢
    by_cases hz : (p0.receiveDamage e.damageTaken).hp = 0
    · rw [if_pos hz] at hsome ⊢
      unfold Game.killPlayer at hsome ⊢
      simp only [] at hsome ⊢
      by_cases hid : id = (p0.receiveDamage e.damageTaken).userId
      · rw [hid, findPlayer_removePlayer_self] at hsome
        exact absurd hsome (by simp)
      · rw [findPlayer_removePlayer_ne _ _ _ hid] at hsome
        rw [findPlayer_setPlayer_ne _ _ _ hid]
        exact hdisj id hsome
    · rw [if_neg hz] at hsome ⊢
      simp only [] at hsome ⊢
      rw [findPlayer_updatePlayer_isSome _ _ _ (fun r hr => hr ▸ rfl)] at hsome
      exact hdisj id hsome

theorem applyEffects_disjoint (es : List PlayerShotEffect) (h : GameState)
    (hdisj : ∀ id, (findPlayer h.players id).isSome → findPlayer h.deadPlayers id = none) :
    ∀ id, (findPlayer (applyEffects h es).players id).isSome →
      findPlayer (applyEffects h es).deadPlayers id = none := by
  induction es generalizing h with
  | nil => exact hdisj
  | cons e es ih =>
    unfold applyEffects at *
    rw [List.foldl_cons]
    exact ih (applyEffectStep h e) (applyEffectStep_disjoint h e hdisj)

theorem applyEffectStep_map (h : GameState) (e : PlayerShotEffect) :
    (applyEffectStep h e).map = h.map := by
  unfold applyEffectStep
  cases hfp : findPlayer h.players e.player.userId with
  | none => rfl
  | some p0 =>
    simp only []
    by_cases hz : (p0.receiveDamage e.damageTaken).hp = 0
    · rw [if_pos hz]
      rfl
    · rw [if_neg hz]

theorem applyEffects_map (es : List PlayerShotEffect) (h : GameState) :
    (applyEffects h es).map = h.map := by
  induction es generalizing h with
  | nil => rfl
  | cons e es ih =>
    unfold applyEffects at *
    rw [List.foldl_cons]
    rw [ih (applyEffectStep h e), applyEffectStep_map]

end TurtleTanks

namespace TurtleTanks

/-- The structural invariants every state reachable through the Game methods
satisfies: well-formed map and rosters, team bookkeeping, and the relation
between cell occupancy and the rosters. -/
structure StateInv (g : GameState) : Prop where
  coordsNodup : (g.map.tiles.map (fun t => t.coords)).Nodup
  playersNodup : (g.players.map (fun p => p.userId)).Nodup
  teamsValid : ∀ ts, g.rules.teams = some ts → 2 ≤ ts.length
  teamAligned : ∀ p ∈ g.players, p.team.isSome = g.rules.teams.isSome
  rosterDisjoint : ∀ id, (findPlayer g.players id).isSome → findPlayer g.deadPlayers id = none
  occupantKnown : ∀ t ∈ g.map.tiles, ∀ id, t.occupied = some id →
    (findPlayer g.players id).isSome ∨ (findPlayer g.deadPlayers id).isSome
  occupantCoords : ∀ t ∈ g.map.tiles, ∀ id, t.occupied = some id →
    ∀ p, findPlayer g.players id = some p → t.coords = p.coords
  occupantUnique : ∀ t1 ∈ g.map.tiles, ∀ t2 ∈ g.map.tiles, ∀ id,
    t1.occupied = some id → t2.occupied = some id → t1 = t2

theorem setOccupied_coords (m : MapManager) (c : Coordinate) (v : Option String) :
    (m.setOccupied c v).tiles.map (fun t => t.coords) = m.tiles.map (fun t => t.coords) := by
  unfold MapManager.setOccupied
  simp only [List.map_map]
  apply List.map_congr_left
  intro t ht
  simp only [Function.comp]
  by_cases h : t.coords = c
  · rw [if_pos h]
  · rw [if_neg h]

theorem coords_inj (ts : List MapTile) (hnd : (ts.map (fun t => t.coords)).Nodup)
    (t1 t2 : MapTile) (h1 : t1 ∈ ts) (h2 : t2 ∈ ts) (hc : t1.coords = t2.coords) :
    t1 = t2 := by
  induction ts with
  | nil => cases h1
  | cons t ts ih =>
    rw [List.map_cons, List.nodup_cons] at hnd
    rcases List.mem_cons.mp h1 with he1 | hm1 <;> rcases List.mem_cons.mp h2 with he2 | hm2
    · rw [he1, he2]
    · subst he1
      refine absurd (List.mem_map_of_mem (fun t => t.coords) hm2) ?_
      intro hmem
      exact hnd.1 (by rw [hc]; exact hmem)
    · subst he2
      refine absurd (List.mem_map_of_mem (fun t => t.coords) hm1) ?_
      intro hmem
      exact hnd.1 (by rw [← hc]; exact hmem)
    · exact ih hnd.2 hm1 hm2

theorem findPlayer_append_one_ne (ps : List Player) (p : Player) (id : String)
    (hne : id ≠ p.userId) : findPlayer (ps ++ [p]) id = findPlayer ps id := by
  unfold findPlayer
  rw [List.find?_append]
  have h2 : List.find? (fun q => decide (q.userId = id)) [p] = none := by
    simp [Ne.symm hne]
  rw [h2]
  cases List.find? (fun q => decide (q.userId = id)) ps <;> rfl

theorem findPlayer_append_one_self (ps : List Player) (p : Player)
    (hnone : findPlayer ps p.userId = none) :
    findPlayer (ps ++ [p]) p.userId = some p := by
  unfold findPlayer at *
  rw [List.find?_append, hnone]
  simp

theorem setPlayer_fresh (ps : List Player) (p : Player)
    (hnone : findPlayer ps p.userId = none) : setPlayer ps p = ps ++ [p] := by
  unfold setPlayer
  rw [if_neg (by rw [hnone]; simp)]

theorem mem_updatePlayer_shape (ps : List Player) (uid : String) (f : Player → Player)
    (q : Player) (hq : q ∈ updatePlayer ps uid f) :
    ∃ p ∈ ps, q = p ∨ q = f p := by
  obtain ⟨p, hp, hq⟩ := List.mem_map.mp hq
  by_cases h : p.userId = uid
  · rw [if_pos h] at hq
    exact ⟨p, hp, Or.inr hq.symm⟩
  · rw [if_neg h] at hq
    exact ⟨p, hp, Or.inl hq.symm⟩

theorem mem_removePlayer (ps : List Player) (uid : String) (q : Player)
    (hq : q ∈ removePlayer ps uid) : q ∈ ps :=
  (List.mem_filter.mp hq).1

theorem applyEffectStep_mem_shape (h : GameState) (e : PlayerShotEffect) (q : Player)
    (hq : q ∈ (applyEffectStep h e).players) :
    ∃ p ∈ h.players, SameShape q p := by
  unfold applyEffectStep at hq
  cases hfp : findPlayer h.players e.player.userId with
  | none =>
    rw [hfp] at hq
    exact ⟨q, hq, sameShape_refl q⟩
  | some p0 =>
    rw [hfp] at hq
    simp only [] at hq
    by_cases hz : (p0.receiveDamage e.damageTaken).hp = 0
    · rw [if_pos hz] at hq
      unfold Game.killPlayer at hq
      simp only [] at hq
      exact ⟨q, mem_removePlayer _ _ _ hq, sameShape_refl q⟩
    · rw [if_neg hz] at hq
      simp only [] at hq
      obtain ⟨p, hp, hcase⟩ := mem_updatePlayer_shape _ _ _ _ hq
      rcases hcase with hcase | hcase
      · exact ⟨p, hp, hcase ▸ sameShape_refl p⟩
      · exact ⟨p0, findPlayer_mem _ _ _ hfp, hcase ▸ sameShape_receiveDamage p0 e.damageTaken⟩

theorem applyEffects_mem_shape (es : List PlayerShotEffect) (h : GameState) (q : Player)
    (hq : q ∈ (applyEffects h es).players) :
    ∃ p ∈ h.players, SameShape q p := by
  induction es generalizing h with
  | nil => exact ⟨q, hq, sameShape_refl q⟩
  | cons e es ih =>
    unfold applyEffects at hq
    rw [List.foldl_cons] at hq
    obtain ⟨m, hm, hs1⟩ := ih (applyEffectStep h e) hq
    obtain ⟨p, hp, hs2⟩ := applyEffectStep_mem_shape h e m hm
    exact ⟨p, hp, sameShape_trans q m p hs1 hs2⟩

theorem findPlayer_mapPlayers (ps : List Player) (f : Player → Player)
    (hf : ∀ p, (f p).userId = p.userId) (id : String) :
    findPlayer (ps.map f) id = (findPlayer ps id).map f := by
  unfold findPlayer
  rw [List.find?_map]
  have hpred : ((fun p => decide (p.userId = id)) ∘ f) = (fun p : Player => decide (p.userId = id)) := by
    funext p
    simp only [Function.comp]
    rw [hf p]
  rw [hpred]

theorem chooseTeam_isSome (g : GameState) (ts : List String)
    (hts : g.rules.teams = some ts) (hne : ts ≠ []) :
    (Game.chooseTeam g).isSome := by
  obtain ⟨r, l₁, l₂, hfold, _, _, _⟩ :=
    chooseTeamFold_spec (ts.map (fun t => (t, countTeam g.players t))) (by simpa using hne)
  simp only [Game.chooseTeam, hts]
  rw [hfold]
  rfl

end TurtleTanks

namespace TurtleTanks

theorem tick_preserves_inv (g : GameState) (hinv : StateInv g) :
    StateInv (Game.handleGameTick g) := by
  have hfind : ∀ id, findPlayer (Game.handleGameTick g).players id =
      (findPlayer g.players id).map
        (fun p => { p with points := p.points + (p.pointsPerTick : Int) }) := by
    intro id
    show findPlayer (g.players.map
        (fun p => { p with points := p.points + (p.pointsPerTick : Int) })) id = _
    exact findPlayer_mapPlayers g.players
      (fun p => { p with points := p.points + (p.pointsPerTick : Int) }) (fun p => rfl) id
  constructor
  · exact hinv.coordsNodup
  · show ((g.players.map
        (fun p => { p with points := p.points + (p.pointsPerTick : Int) })).map
        (fun p => p.userId)).Nodup
    rw [List.map_map]
    have hcomp : ((fun p : Player => p.userId) ∘
        (fun p : Player => { p with points := p.points + (p.pointsPerTick : Int) })) =
        (fun p : Player => p.userId) := by
      funext p
      rfl
    rw [hcomp]
    exact hinv.playersNodup
  · exact hinv.teamsValid
  · intro q hq
    have hq' : q ∈ g.players.map
        (fun p => { p with points := p.points + (p.pointsPerTick : Int) }) := hq
    obtain ⟨p, hp, hqp⟩ := List.mem_map.mp hq'
    show q.team.isSome = g.rules.teams.isSome
    rw [← hqp]
    exact hinv.teamAligned p hp
  · intro id hsome
    rw [hfind id] at hsome
    refine hinv.rosterDisjoint id ?_
    cases hx : findPlayer g.players id
    · rw [hx] at hsome
      exact absurd hsome (by simp)
    · simp
  · intro t ht id hocc
    rcases hinv.occupantKnown t ht id hocc with hk | hk
    · left
      rw [hfind id]
      cases hx : findPlayer g.players id
      · rw [hx] at hk
        exact absurd hk (by simp)
      · simp
    · right
      exact hk
  · intro t ht id hocc p' hp'
    rw [hfind id] at hp'
    cases hx : findPlayer g.players id with
    | none =>
      rw [hx] at hp'
      exact absurd hp' (by simp)
    | some p =>
      rw [hx] at hp'
      injection hp' with hp'
      rw [← hp']
      exact hinv.occupantCoords t ht id hocc p hx
  · exact hinv.occupantUnique

theorem joinSquare_mem (g : GameState) (coords : Option Coordinate) (sq : MapTile)
    (h : Game.joinSquare g coords = some sq) : sq ∈ g.map.tiles := by
  cases coords with
  | none =>
    simp only [Game.joinSquare] at h
    exact List.mem_of_find?_eq_some h
  | some c =>
    simp only [Game.joinSquare] at h
    cases ht : g.map.tryGetTile c with
    | none =>
      rw [ht] at h
      simp only [] at h
      exact List.mem_of_find?_eq_some h
    | some t =>
      rw [ht] at h
      simp only [] at h
      injection h with h
      rw [← h]
      exact List.mem_of_find?_eq_some ht

theorem joinTeam_isSome (g : GameState) (st : Option String)
    (hvalid : ∀ ts, g.rules.teams = some ts → 2 ≤ ts.length) :
    (Game.joinTeam g st).isSome = g.rules.teams.isSome := by
  cases hts : g.rules.teams with
  | none => simp [Game.joinTeam, hts]
  | some ts =>
    simp only [Game.joinTeam, hts]
    cases hrs : resolveStoredTeam ts st with
    | some t => simp
    | none =>
      have hne : ts ≠ [] := by
        intro hnil
        have h2 := hvalid ts hts
        rw [hnil] at h2
        simp at h2
      have hcs := chooseTeam_isSome g ts hts hne
      simp [hcs]

theorem join_state_shape (g : GameState) (uid : String) (hpOpt : Option Nat)
    (ptsOpt : Option Int) (coords : Option Coordinate) (st : Option String)
    (perk : Option PerkType) :
    (Game.join g uid hpOpt ptsOpt coords st perk).2 = g ∨
    (g.ended = false ∧ findPlayer g.players uid = none ∧
     findPlayer g.deadPlayers uid = none ∧
     ∃ sq, Game.joinSquare g coords = some sq ∧
       (Game.join g uid hpOpt ptsOpt coords st perk).2.players =
         setPlayer g.players (Game.joinPlayer g uid hpOpt ptsOpt sq st perk) ∧
       (Game.join g uid hpOpt ptsOpt coords st perk).2.map =
         g.map.setOccupied sq.coords (some uid) ∧
       (Game.join g uid hpOpt ptsOpt coords st perk).2.deadPlayers = g.deadPlayers ∧
       (Game.join g uid hpOpt ptsOpt coords st perk).2.rules = g.rules) := by
  by_cases h1 : g.ended = true
  · left
    simp [Game.join, h1]
  · by_cases h2 : (findPlayer g.players uid).isSome
    · left
      simp [Game.join, h1, h2]
    · by_cases h3 : (findPlayer g.deadPlayers uid).isSome
      · left
        simp [Game.join, h1, h2, h3]
      · cases hsq : Game.joinSquare g coords with
        | none =>
          left
          simp [Game.join, h1, h2, h3, hsq]
        | some sq =>
          right
          refine ⟨by simpa using h1, by simpa using h2, by simpa using h3, sq, rfl, ?_, ?_, ?_, ?_⟩ <;>
            simp [Game.join, h1, h2, h3, hsq]

theorem join_inv_core (g g' : GameState) (newP : Player) (sq : MapTile)
    (hinv : StateInv g)
    (hliv : findPlayer g.players newP.userId = none)
    (hdead : findPlayer g.deadPlayers newP.userId = none)
    (hcoords : newP.coords = sq.coords)
    (hteam : newP.team.isSome = g.rules.teams.isSome)
    (hply : g'.players = g.players ++ [newP])
    (hmap : g'.map = g.map.setOccupied sq.coords (some newP.userId))
    (hdd : g'.deadPlayers = g.deadPlayers)
    (hrules : g'.rules = g.rules) :
    StateInv g' := by
  have hfresh : ∀ q ∈ g.players, q.userId ≠ newP.userId := by
    intro q hq hcontra
    have hx : (findPlayer g.players newP.userId).isSome := by
      rw [findPlayer, List.find?_isSome]
      exact ⟨q, hq, by simpa using hcontra⟩
    rw [hliv] at hx
    exact absurd hx (by simp)
  constructor
  · rw [hmap, setOccupied_coords]
    exact hinv.coordsNodup
  · rw [hply, List.map_append, List.nodup_append]
    refine ⟨hinv.playersNodup, by simp, ?_⟩
    intro a ha hb
    obtain ⟨p, hp, hpa⟩ := List.mem_map.mp ha
    simp only [List.map_cons, List.map_nil, List.mem_singleton] at hb
    exact hfresh p hp (hpa.trans hb)
  · rw [hrules]
    exact hinv.teamsValid
  · intro q hq
    rw [hply] at hq
    rw [hrules]
    rcases List.mem_append.mp hq with hq | hq
    · exact hinv.teamAligned q hq
    · rw [List.mem_singleton.mp hq]
      exact hteam
  · intro id hsome
    rw [hply] at hsome
    rw [hdd]
    by_cases hid : id = newP.userId
    · rw [hid]
      exact hdead
    · rw [findPlayer_append_one_ne _ _ _ hid] at hsome
      exact hinv.rosterDisjoint id hsome
  · intro t' ht' id hocc
    rw [hmap] at ht'
    obtain ⟨t, htm, ht'eq⟩ := List.mem_map.mp ht'
    rw [hply, hdd]
    by_cases hc : t.coords = sq.coords
    · rw [if_pos hc] at ht'eq
      rw [← ht'eq] at hocc
      simp only [] at hocc
      injection hocc with hocc
      left
      rw [← hocc, findPlayer_append_one_self _ _ hliv]
      rfl
    · rw [if_neg hc] at ht'eq
      rw [← ht'eq] at hocc
      by_cases hid : id = newP.userId
      · rcases hinv.occupantKnown t htm id hocc with hk | hk
        · rw [hid, hliv] at hk
          exact absurd hk (by simp)
        · rw [hid, hdead] at hk
          exact absurd hk (by simp)
      · rcases hinv.occupantKnown t htm id hocc with hk | hk
        · left
          rw [findPlayer_append_one_ne _ _ _ hid]
          exact hk
        · right
          exact hk
  · intro t' ht' id hocc p' hp'
    rw [hmap] at ht'
    rw [hply] at hp'
    obtain ⟨t, htm, ht'eq⟩ := List.mem_map.mp ht'
    by_cases hc : t.coords = sq.coords
    · rw [if_pos hc] at ht'eq
      rw [← ht'eq] at hocc ⊢
      simp only [] at hocc
      injection hocc with hocc
      rw [← hocc, findPlayer_append_one_self _ _ hliv] at hp'
      injection hp' with hp'
      rw [← hp', hcoords]
      exact hc
    · rw [if_neg hc] at ht'eq
      rw [← ht'eq] at hocc ⊢
      by_cases hid : id = newP.userId
      · rcases hinv.occupantKnown t htm id hocc with hk | hk
        · rw [hid, hliv] at hk
          exact absurd hk (by simp)
        · rw [hid, hdead] at hk
          exact absurd hk (by simp)
      · rw [findPlayer_append_one_ne _ _ _ hid] at hp'
        exact hinv.occupantCoords t htm id hocc p' hp'
  · intro t1' ht1' t2' ht2' id hocc1 hocc2
    rw [hmap] at ht1' ht2'
    obtain ⟨t1, htm1, heq1⟩ := List.mem_map.mp ht1'
    obtain ⟨t2, htm2, heq2⟩ := List.mem_map.mp ht2'
    by_cases hc1 : t1.coords = sq.coords <;> by_cases hc2 : t2.coords = sq.coords
    · have ht12 : t1 = t2 := coords_inj g.map.tiles hinv.coordsNodup t1 t2 htm1 htm2
        (by rw [hc1, hc2])
      rw [← heq1, ← heq2, ht12]
    · rw [if_pos hc1] at heq1
      rw [if_neg hc2] at heq2
      rw [← heq1] at hocc1
      rw [← heq2] at hocc2
      simp only [] at hocc1
      injection hocc1 with hocc1
      rcases hinv.occupantKnown t2 htm2 id hocc2 with hk | hk
      · rw [← hocc1, hliv] at hk
        exact absurd hk (by simp)
      · rw [← hocc1, hdead] at hk
        exact absurd hk (by simp)
    · rw [if_neg hc1] at heq1
      rw [if_pos hc2] at heq2
      rw [← heq1] at hocc1
      rw [← heq2] at hocc2
      simp only [] at hocc2
      injection hocc2 with hocc2
      rcases hinv.occupantKnown t1 htm1 id hocc1 with hk | hk
      · rw [← hocc2, hliv] at hk
        exact absurd hk (by simp)
      · rw [← hocc2, hdead] at hk
        exact absurd hk (by simp)
    · rw [if_neg hc1] at heq1
      rw [if_neg hc2] at heq2
      rw [← heq1] at hocc1
      rw [← heq2] at hocc2
      rw [← heq1, ← heq2, hinv.occupantUnique t1 htm1 t2 htm2 id hocc1 hocc2]

theorem join_preserves_inv (g : GameState) (uid : String) (hpOpt : Option Nat)
    (ptsOpt : Option Int) (coords : Option Coordinate) (st : Option String)
    (perk : Option PerkType) (hinv : StateInv g) :
    StateInv (Game.join g uid hpOpt ptsOpt coords st perk).2 := by
  rcases join_state_shape g uid hpOpt ptsOpt coords st perk with
    heq | ⟨hend, hliv, hdead, sq, hsq, hply, hmap, hdd, hrules⟩
  · rw [heq]
    exact hinv
  · have happ : setPlayer g.players (Game.joinPlayer g uid hpOpt ptsOpt sq st perk) =
        g.players ++ [Game.joinPlayer g uid hpOpt ptsOpt sq st perk] :=
      setPlayer_fresh _ _ hliv
    refine join_inv_core g _ (Game.joinPlayer g uid hpOpt ptsOpt sq st perk) sq hinv
      hliv hdead rfl (joinTeam_isSome g st hinv.teamsValid) ?_ hmap hdd hrules
    rw [hply, happ]

end TurtleTanks

namespace TurtleTanks

theorem mem_setOccupied (m : MapManager) (c : Coordinate) (v : Option String) (t' : MapTile)
    (ht' : t' ∈ (m.setOccupied c v).tiles) :
    ∃ t0 ∈ m.tiles, t' = if t0.coords = c then { t0 with occupied := v } else t0 := by
  unfold MapManager.setOccupied at ht'
  obtain ⟨t0, ht0, heq⟩ := List.mem_map.mp ht'
  exact ⟨t0, ht0, heq.symm⟩

theorem setOccupied_twice_facts (m : MapManager) (c1 c2 : Coordinate)
    (v1 v2 : Option String) (t' : MapTile)
    (ht' : t' ∈ ((m.setOccupied c1 v1).setOccupied c2 v2).tiles) :
    ∃ t0 ∈ m.tiles, t'.coords = t0.coords ∧
      t'.occupied = (if t0.coords = c2 then v2
        else if t0.coords = c1 then v1 else t0.occupied) ∧
      t' = (fun u => if u.coords = c2 then { u with occupied := v2 } else u)
           ((fun u => if u.coords = c1 then { u with occupied := v1 } else u) t0) := by
  obtain ⟨u, hu, hequ⟩ := mem_setOccupied _ _ _ _ ht'
  obtain ⟨t0, ht0, heqt⟩ := mem_setOccupied _ _ _ _ hu
  have hucoords : u.coords = t0.coords := by
    rw [heqt]
    by_cases h1 : t0.coords = c1
    · rw [if_pos h1]
    · rw [if_neg h1]
  have huocc : u.occupied = if t0.coords = c1 then v1 else t0.occupied := by
    rw [heqt]
    by_cases h1 : t0.coords = c1
    · rw [if_pos h1, if_pos h1]
    · rw [if_neg h1, if_neg h1]
  have htcoords : t'.coords = u.coords := by
    rw [hequ]
    by_cases h2 : u.coords = c2
    · rw [if_pos h2]
    · rw [if_neg h2]
  have htocc : t'.occupied = if u.coords = c2 then v2 else u.occupied := by
    rw [hequ]
    by_cases h2 : u.coords = c2
    · rw [if_pos h2, if_pos h2]
    · rw [if_neg h2, if_neg h2]
  refine ⟨t0, ht0, by rw [htcoords, hucoords], ?_, by rw [hequ, heqt]⟩
  rw [htocc, hucoords, huocc]

theorem moveToCoord_shape (g : GameState) (uid : String) (c : Coordinate) :
    (Game.moveToCoord g uid c).2 = g ∨
    (∃ player pr, findPlayer g.players uid = some player ∧
      (Game.moveToCoord g uid c).2.players = updatePlayer g.players uid
        (fun p => { p with points := p.points - (pr : Int), coords := c }) ∧
      (Game.moveToCoord g uid c).2.map =
        (g.map.setOccupied player.coords none).setOccupied c (some uid) ∧
      (Game.moveToCoord g uid c).2.deadPlayers = g.deadPlayers ∧
      (Game.moveToCoord g uid c).2.rules = g.rules) := by
  cases hcm : Game.canMove g uid c with
  | err msg =>
    left
    simp [Game.moveToCoord, hcm]
  | ok pr tt =>
    cases hfp : findPlayer g.players uid with
    | none =>
      left
      simp [Game.moveToCoord, hcm, hfp]
    | some player =>
      by_cases hpts : (pr : Int) ≤ player.points
      · right
        refine ⟨player, pr, rfl, ?_, ?_, ?_, ?_⟩ <;>
          simp [Game.moveToCoord, hcm, hfp, hpts]
      · left
        simp [Game.moveToCoord, hcm, hfp, hpts]

theorem move_inv_core (g g' : GameState) (uid : String) (c : Coordinate)
    (player : Player) (f : Player → Player)
    (hinv : StateInv g)
    (hfp : findPlayer g.players uid = some player)
    (hfid : ∀ p, (f p).userId = p.userId)
    (hfcoords : ∀ p, (f p).coords = c)
    (hfteam : ∀ p, (f p).team = p.team)
    (hply : g'.players = updatePlayer g.players uid f)
    (hmap : g'.map = (g.map.setOccupied player.coords none).setOccupied c (some uid))
    (hdd : g'.deadPlayers = g.deadPlayers)
    (hrules : g'.rules = g.rules) :
    StateInv g' := by
  have hfid2 : ∀ p : Player, p.userId = uid → (f p).userId = uid := by
    intro p hp
    rw [hfid p, hp]
  have hpuid : player.userId = uid := findPlayer_userId _ _ _ hfp
  have hfind : ∀ id, findPlayer g'.players id =
      (findPlayer g.players id).map (fun p => if p.userId = uid then f p else p) := by
    intro id
    rw [hply]
    exact findPlayer_updatePlayer g.players uid f hfid id
  constructor
  · rw [hmap, setOccupied_coords, setOccupied_coords]
    exact hinv.coordsNodup
  · rw [hply, updatePlayer_map_userId _ _ _ hfid2]
    exact hinv.playersNodup
  · rw [hrules]
    exact hinv.teamsValid
  · intro q hq
    rw [hply] at hq
    rw [hrules]
    obtain ⟨p, hp, hcase⟩ := mem_updatePlayer_shape _ _ _ _ hq
    rcases hcase with hcase | hcase
    · rw [hcase]
      exact hinv.teamAligned p hp
    · rw [hcase]
      show (f p).team.isSome = _
      rw [hfteam p]
      exact hinv.teamAligned p hp
  · intro id hsome
    rw [hdd]
    rw [hfind id] at hsome
    refine hinv.rosterDisjoint id ?_
    cases hx : findPlayer g.players id
    · rw [hx] at hsome
      exact absurd hsome (by simp)
    · simp
  · intro t' ht' id hocc
    rw [hmap] at ht'
    obtain ⟨t0, htm, htc, htoc, htfn⟩ := setOccupied_twice_facts _ _ _ _ _ _ ht'
    rw [htoc] at hocc
    have hocc2 := hocc
    rw [hdd]
    by_cases h2 : t0.coords = c
    · rw [if_pos h2] at hocc2
      injection hocc2 with hocc2
      left
      rw [hfind id, ← hocc2, hfp]
      simp
    · rw [if_neg h2] at hocc2
      by_cases h1 : t0.coords = player.coords
      · rw [if_pos h1] at hocc2
        exact absurd hocc2 (by simp)
      · rw [if_neg h1] at hocc2
        rcases hinv.occupantKnown t0 htm id hocc2 with hk | hk
        · left
          rw [hfind id]
          cases hx : findPlayer g.players id
          · rw [hx] at hk
            exact absurd hk (by simp)
          · simp
        · right
          exact hk
  · intro t' ht' id hocc p' hp'
    rw [hmap] at ht'
    obtain ⟨t0, htm, htc, htoc, htfn⟩ := setOccupied_twice_facts _ _ _ _ _ _ ht'
    rw [htoc] at hocc
    have hocc2 := hocc
    rw [hfind id] at hp'
    by_cases h2 : t0.coords = c
    · rw [if_pos h2] at hocc2
      injection hocc2 with hocc2
      rw [← hocc2, hfp] at hp'
      have hp'' : some (if player.userId = uid then f player else player) = some p' := hp'
      rw [if_pos hpuid] at hp''
      injection hp'' with hp''
      rw [htc, h2, ← hp'', hfcoords player]
    · rw [if_neg h2] at hocc2
      by_cases h1 : t0.coords = player.coords
      · rw [if_pos h1] at hocc2
        exact absurd hocc2 (by simp)
      · rw [if_neg h1] at hocc2
        by_cases hid : id = uid
        · refine absurd (hinv.occupantCoords t0 htm id hocc2 player ?_) h1
          rw [hid]
          exact hfp
        · cases hx : findPlayer g.players id with
          | none =>
            rw [hx] at hp'
            exact absurd hp' (by simp)
          | some q =>
            rw [hx] at hp'
            have hquid : q.userId = id := findPlayer_userId _ _ _ hx
            have hp'' : some (if q.userId = uid then f q else q) = some p' := hp'
            rw [if_neg (by rw [hquid]; exact hid)] at hp''
            injection hp'' with hp''
            rw [htc, ← hp'']
            exact hinv.occupantCoords t0 htm id hocc2 q hx
  · intro t1' ht1' t2' ht2' id hocc1 hocc2
    rw [hmap] at ht1' ht2'
    obtain ⟨t1, htm1, htc1, htoc1, htfn1⟩ := setOccupied_twice_facts _ _ _ _ _ _ ht1'
    obtain ⟨t2, htm2, htc2, htoc2, htfn2⟩ := setOccupied_twice_facts _ _ _ _ _ _ ht2'
    rw [htoc1] at hocc1
    rw [htoc2] at hocc2
    have ho1 := hocc1
    have ho2 := hocc2
    suffices ht12 : t1 = t2 by rw [htfn1, htfn2, ht12]
    by_cases h2a : t1.coords = c <;> by_cases h2b : t2.coords = c
    · exact coords_inj g.map.tiles hinv.coordsNodup t1 t2 htm1 htm2 (by rw [h2a, h2b])
    · rw [if_pos h2a] at ho1
      injection ho1 with ho1
      rw [if_neg h2b] at ho2
      by_cases h1b : t2.coords = player.coords
      · rw [if_pos h1b] at ho2
        exact absurd ho2 (by simp)
      · rw [if_neg h1b] at ho2
        refine absurd (hinv.occupantCoords t2 htm2 id ho2 player ?_) h1b
        rw [← ho1]
        exact hfp
    · rw [if_pos h2b] at ho2
      injection ho2 with ho2
      rw [if_neg h2a] at ho1
      by_cases h1a : t1.coords = player.coords
      · rw [if_pos h1a] at ho1
        exact absurd ho1 (by simp)
      · rw [if_neg h1a] at ho1
        refine absurd (hinv.occupantCoords t1 htm1 id ho1 player ?_) h1a
        rw [← ho2]
        exact hfp
    · rw [if_neg h2a] at ho1
      rw [if_neg h2b] at ho2
      by_cases h1a : t1.coords = player.coords
      · rw [if_pos h1a] at ho1
        exact absurd ho1 (by simp)
      · rw [if_neg h1a] at ho1
        by_cases h1b : t2.coords = player.coords
        · rw [if_pos h1b] at ho2
          exact absurd ho2 (by simp)
        · rw [if_neg h1b] at ho2
          exact hinv.occupantUnique t1 htm1 t2 htm2 id ho1 ho2

theorem move_preserves_inv (g : GameState) (uid : String) (c : Coordinate)
    (hinv : StateInv g) : StateInv (Game.moveToCoord g uid c).2 := by
  rcases moveToCoord_shape g uid c with heq | ⟨player, pr, hfp, hply, hmap, hdd, hrules⟩
  · rw [heq]
    exact hinv
  · exact move_inv_core g _ uid c player
      (fun p => { p with points := p.points - (pr : Int), coords := c })
      hinv hfp (fun p => rfl) (fun p => rfl) (fun p => rfl) hply hmap hdd hrules

end TurtleTanks

namespace TurtleTanks

theorem inv_of_fields (g g' : GameState) (hinv : StateInv g)
    (hm : g'.map = g.map) (hp : g'.players = g.players)
    (hd : g'.deadPlayers = g.deadPlayers) (hr : g'.rules = g.rules) : StateInv g' := by
  constructor
  · rw [hm]
    exact hinv.coordsNodup
  · rw [hp]
    exact hinv.playersNodup
  · rw [hr]
    exact hinv.teamsValid
  · rw [hp, hr]
    exact hinv.teamAligned
  · rw [hp, hd]
    exact hinv.rosterDisjoint
  · rw [hm, hp, hd]
    exact hinv.occupantKnown
  · rw [hm, hp]
    exact hinv.occupantCoords
  · rw [hm]
    exact hinv.occupantUnique

theorem mapLike_update_preserves_inv (g g' : GameState) (uid : String) (f : Player → Player)
    (hinv : StateInv g)
    (hfid : ∀ p, (f p).userId = p.userId)
    (hfcoords : ∀ p, (f p).coords = p.coords)
    (hfteam : ∀ p, (f p).team = p.team)
    (hply : g'.players = updatePlayer g.players uid f)
    (hmap : g'.map = g.map) (hdd : g'.deadPlayers = g.deadPlayers)
    (hrules : g'.rules = g.rules) : StateInv g' := by
  have hfid2 : ∀ p : Player, p.userId = uid → (f p).userId = uid := by
    intro p hp
    rw [hfid p, hp]
  have hfind : ∀ id, findPlayer g'.players id =
      (findPlayer g.players id).map (fun p => if p.userId = uid then f p else p) := by
    intro id
    rw [hply]
    exact findPlayer_updatePlayer g.players uid f hfid id
  constructor
  · rw [hmap]
    exact hinv.coordsNodup
  · rw [hply, updatePlayer_map_userId _ _ _ hfid2]
    exact hinv.playersNodup
  · rw [hrules]
    exact hinv.teamsValid
  · intro q hq
    rw [hply] at hq
    rw [hrules]
    obtain ⟨p, hp, hcase⟩ := mem_updatePlayer_shape _ _ _ _ hq
    rcases hcase with hcase | hcase
    · rw [hcase]
      exact hinv.teamAligned p hp
    · rw [hcase]
      show (f p).team.isSome = _
      rw [hfteam p]
      exact hinv.teamAligned p hp
  · intro id hsome
    rw [hdd]
    rw [hfind id] at hsome
    refine hinv.rosterDisjoint id ?_
    cases hx : findPlayer g.players id
    · rw [hx] at hsome
      exact absurd hsome (by simp)
    · simp
  · intro t ht id hocc
    rw [hmap] at ht
    rw [hdd]
    rcases hinv.occupantKnown t ht id hocc with hk | hk
    · left
      rw [hfind id]
      cases hx : findPlayer g.players id
      · rw [hx] at hk
        exact absurd hk (by simp)
      · simp
    · right
      exact hk
  · intro t ht id hocc p' hp'
    rw [hmap] at ht
    rw [hfind id] at hp'
    cases hx : findPlayer g.players id with
    | none =>
      rw [hx] at hp'
      exact absurd hp' (by simp)
    | some q =>
      rw [hx] at hp'
      have hp'' : some (if q.userId = uid then f q else q) = some p' := hp'
      injection hp'' with hp''
      have hc : p'.coords = q.coords := by
        rw [← hp'']
        by_cases hcase : q.userId = uid
        · rw [if_pos hcase]
          exact hfcoords q
        · rw [if_neg hcase]
      rw [hc]
      exact hinv.occupantCoords t ht id hocc q hx
  · rw [hmap]
    exact hinv.occupantUnique

theorem replace_player_preserves_inv (g g' : GameState) (uid : String) (p p1 : Player)
    (hinv : StateInv g)
    (hfp : findPlayer g.players uid = some p)
    (hid : p1.userId = p.userId)
    (hcoords : p1.coords = p.coords)
    (hteam : p1.team = p.team)
    (hply : g'.players = updatePlayer g.players uid (fun _ => p1))
    (hmap : g'.map = g.map) (hdd : g'.deadPlayers = g.deadPlayers)
    (hrules : g'.rules = g.rules) : StateInv g' := by
  have hpuid : p.userId = uid := findPlayer_userId _ _ _ hfp
  have hp1uid : p1.userId = uid := by
    rw [hid, hpuid]
  have hfid2 : ∀ q : Player, q.userId = uid → ((fun _ : Player => p1) q).userId = uid := by
    intro q hq
    exact hp1uid
  have hfind_ne : ∀ id, id ≠ uid → findPlayer g'.players id = findPlayer g.players id := by
    intro id hne
    rw [hply]
    exact findPlayer_updatePlayer_ne g.players uid _ id hne hfid2
  have hfind_self : findPlayer g'.players uid = some p1 := by
    rw [hply]
    exact findPlayer_updatePlayer_self g.players uid _ p hfp hp1uid
  constructor
  · rw [hmap]
    exact hinv.coordsNodup
  · rw [hply, updatePlayer_map_userId _ _ _ hfid2]
    exact hinv.playersNodup
  · rw [hrules]
    exact hinv.teamsValid
  · intro q hq
    rw [hply] at hq
    rw [hrules]
    obtain ⟨p0, hp0, hcase⟩ := mem_updatePlayer_shape _ _ _ _ hq
    rcases hcase with hcase | hcase
    · rw [hcase]
      exact hinv.teamAligned p0 hp0
    · rw [hcase]
      show p1.team.isSome = _
      rw [hteam]
      exact hinv.teamAligned p (findPlayer_mem _ _ _ hfp)
  · intro id hsome
    rw [hdd]
    by_cases hne : id = uid
    · refine hinv.rosterDisjoint id ?_
      rw [hne, hfp]
      rfl
    · rw [hfind_ne id hne] at hsome
      exact hinv.rosterDisjoint id hsome
  · intro t ht id hocc
    rw [hmap] at ht
    rw [hdd]
    rcases hinv.occupantKnown t ht id hocc with hk | hk
    · left
      by_cases hne : id = uid
      · rw [hne, hfind_self]
        rfl
      · rw [hfind_ne id hne]
        exact hk
    · right
      exact hk
  · intro t ht id hocc p' hp'
    rw [hmap] at ht
    by_cases hne : id = uid
    · rw [hne, hfind_self] at hp'
      injection hp' with hp'
      rw [← hp', hcoords]
      refine hinv.occupantCoords t ht id hocc p ?_
      rw [hne]
      exact hfp
    · rw [hfind_ne id hne] at hp'
      exact hinv.occupantCoords t ht id hocc p' hp'
  · rw [hmap]
    exact hinv.occupantUnique

theorem kill_preserves_inv (g g' : GameState) (p1 : Player)
    (hinv : StateInv g)
    (hply : g'.players = removePlayer g.players p1.userId)
    (hdd : g'.deadPlayers = setPlayer g.deadPlayers p1)
    (hmap : g'.map = g.map) (hrules : g'.rules = g.rules) : StateInv g' := by
  have hsub : (g'.players.map (fun p => p.userId)).Sublist
      (g.players.map (fun p => p.userId)) := by
    rw [hply]
    exact List.Sublist.map _ (List.filter_sublist _)
  constructor
  · rw [hmap]
    exact hinv.coordsNodup
  · exact List.Nodup.sublist hsub hinv.playersNodup
  · rw [hrules]
    exact hinv.teamsValid
  · intro q hq
    rw [hply] at hq
    rw [hrules]
    exact hinv.teamAligned q (mem_removePlayer _ _ _ hq)
  · intro id hsome
    rw [hply] at hsome
    rw [hdd]
    by_cases hne : id = p1.userId
    · rw [hne, findPlayer_removePlayer_self] at hsome
      exact absurd hsome (by simp)
    · rw [findPlayer_removePlayer_ne _ _ _ hne] at hsome
      rw [findPlayer_setPlayer_ne _ _ _ hne]
      exact hinv.rosterDisjoint id hsome
  · intro t ht id hocc
    rw [hmap] at ht
    rw [hply, hdd]
    by_cases hne : id = p1.userId
    · right
      rw [hne, findPlayer_setPlayer_self]
      rfl
    · rcases hinv.occupantKnown t ht id hocc with hk | hk
      · left
        rw [findPlayer_removePlayer_ne _ _ _ hne]
        exact hk
      · right
        cases hx : findPlayer g.deadPlayers id with
        | none =>
          rw [hx] at hk
          exact absurd hk (by simp)
        | some q =>
          rw [findPlayer_setPlayer_ne _ _ _ hne, hx]
          rfl
  · intro t ht id hocc p' hp'
    rw [hmap] at ht
    rw [hply] at hp'
    by_cases hne : id = p1.userId
    · rw [hne, findPlayer_removePlayer_self] at hp'
      exact absurd hp' (by simp)
    · rw [findPlayer_removePlayer_ne _ _ _ hne] at hp'
      exact hinv.occupantCoords t ht id hocc p' hp'
  · rw [hmap]
    exact hinv.occupantUnique

theorem applyEffectStep_preserves_inv (g : GameState) (e : PlayerShotEffect)
    (hinv : StateInv g) : StateInv (applyEffectStep g e) := by
  unfold applyEffectStep
  cases hfp : findPlayer g.players e.player.userId with
  | none => exact hinv
  | some p =>
    simp only []
    have hpuid : p.userId = e.player.userId := findPlayer_userId _ _ _ hfp
    have hfp2 : findPlayer g.players p.userId = some p := by
      rw [hpuid]
      exact hfp
    by_cases hz : (p.receiveDamage e.damageTaken).hp = 0
    · rw [if_pos hz]
      exact kill_preserves_inv g _ (p.receiveDamage e.damageTaken) hinv rfl rfl rfl rfl
    · rw [if_neg hz]
      exact replace_player_preserves_inv g _ p.userId p (p.receiveDamage e.damageTaken)
        hinv hfp2 rfl rfl rfl rfl rfl rfl rfl
  
theorem applyEffects_preserves_inv (es : List PlayerShotEffect) (g : GameState)
    (hinv : StateInv g) : StateInv (applyEffects g es) := by
  induction es generalizing g with
  | nil => exact hinv
  | cons e es ih =>
    show StateInv ((e :: es).foldl applyEffectStep g)
    rw [List.foldl_cons]
    exact ih _ (applyEffectStep_preserves_inv g e hinv)

end TurtleTanks

namespace TurtleTanks

theorem doAttack_state_shape (g : GameState) (uid : String) (coords : Coordinate)
    (roll : Bool) :
    (Game.doAttack g uid coords roll).2 = g ∨
    (∃ effect attacker, Game.canAttack g uid coords = .ok effect ∧
      findPlayer g.players uid = some attacker ∧
      ((Game.doAttack g uid coords roll).2 =
        { g with players := (updatePlayer g.players uid
            (fun p => { p with points := p.points - (p.pointsPerShot : Int) })) } ∨
       ∃ g3, g3 = applyEffects
          { g with players := (updatePlayer
              (updatePlayer g.players uid
                (fun p => { p with points := p.points - (p.pointsPerShot : Int) }))
              uid
              (fun p => { p with points := p.points +
                (p.pointsPerKill : Int) * (effect.killedPlayers.length : Int) })) }
          effect.affectedPlayers ∧
        ((Game.doAttack g uid coords roll).2 = g3 ∨
         (Game.doAttack g uid coords roll).2 = { g3 with ended := true, timer := none }))) := by
  cases hca : Game.canAttack g uid coords with
  | err msg =>
    left
    simp [Game.doAttack, hca]
  | ok effect =>
    cases hfp : findPlayer g.players uid with
    | none =>
      left
      simp [Game.doAttack, hca, hfp]
    | some attacker =>
      by_cases hhit : (Game.isKamikazeShot attacker coords || roll) = true
      · right
        refine ⟨effect, attacker, rfl, rfl, Or.inr ?_⟩
        refine ⟨_, rfl, ?_⟩
        by_cases hend : (Game.checkForEndOfGame (applyEffects
            { g with players := (updatePlayer
                (updatePlayer g.players uid
                  (fun p => { p with points := p.points - (p.pointsPerShot : Int) }))
                uid
                (fun p => { p with points := p.points +
                  (p.pointsPerKill : Int) * (effect.killedPlayers.length : Int) })) }
            effect.affectedPlayers)).1 = true
        · right
          simp [Game.doAttack, hca, hfp, hhit, hend]
        · left
          rw [Bool.not_eq_true] at hend
          simp [Game.doAttack, hca, hfp, hhit, hend]
      · right
        rw [Bool.not_eq_true] at hhit
        refine ⟨effect, attacker, rfl, rfl, Or.inl ?_⟩
        simp [Game.doAttack, hca, hfp, hhit]

theorem attack_preserves_inv (g : GameState) (uid : String) (coords : Coordinate)
    (roll : Bool) (hinv : StateInv g) : StateInv (Game.doAttack g uid coords roll).2 := by
  rcases doAttack_state_shape g uid coords roll with
    heq | ⟨effect, attacker, hca, hfp, hrest⟩
  · rw [heq]
    exact hinv
  · have hinv1 : StateInv { g with players := (updatePlayer g.players uid
        (fun p => { p with points := p.points - (p.pointsPerShot : Int) })) } :=
      mapLike_update_preserves_inv g _ uid
        (fun p => { p with points := p.points - (p.pointsPerShot : Int) })
        hinv (fun p => rfl) (fun p => rfl) (fun p => rfl) rfl rfl rfl rfl
    rcases hrest with heq | ⟨g3, hg3, hrest⟩
    · rw [heq]
      exact hinv1
    · have hinv3 : StateInv g3 := by
        rw [hg3]
        refine applyEffects_preserves_inv _ _ ?_
        exact mapLike_update_preserves_inv
          { g with players := (updatePlayer g.players uid
              (fun p => { p with points := p.points - (p.pointsPerShot : Int) })) }
          _ uid
          (fun p => { p with points := p.points +
            (p.pointsPerKill : Int) * (effect.killedPlayers.length : Int) })
          hinv1 (fun p => rfl) (fun p => rfl) (fun p => rfl) rfl rfl rfl rfl
      rcases hrest with heq | heq
      · rw [heq]
        exact hinv3
      · rw [heq]
        exact inv_of_fields g3 _ hinv3 rfl rfl rfl rfl

theorem mkMapTiles_occupied (w h : Nat) (t : MapTile) (ht : t ∈ mkMapTiles w h) :
    t.occupied = none := by
  unfold mkMapTiles at ht
  obtain ⟨y, hy, hmem⟩ := List.mem_flatMap.mp ht
  obtain ⟨x, hx, heq⟩ := List.mem_map.mp hmem
  rw [← heq]

theorem mkMapTiles_coords_nodup (w h : Nat) :
    ((mkMapTiles w h).map (fun t => t.coords)).Nodup := by
  unfold mkMapTiles
  rw [List.map_flatMap, List.nodup_flatMap]
  constructor
  · intro y hy
    rw [List.map_map]
    refine List.Nodup.map ?_ (List.nodup_range _)
    intro x1 x2 hx
    have hx' : ({ x := Int.ofNat x1, y := Int.ofNat y } : Coordinate) =
        { x := Int.ofNat x2, y := Int.ofNat y } := hx
    have hx2 := congrArg Coordinate.x hx'
    exact Int.ofNat.inj hx2
  · have hpw : List.Pairwise (fun a b => a ≠ b) (List.range h) := List.nodup_range h
    refine hpw.imp ?_
    intro y1 y2 hne
    intro a ha1 ha2
    simp only [List.map_map] at ha1 ha2
    obtain ⟨x1, hx1, he1⟩ := List.mem_map.mp ha1
    obtain ⟨x2, hx2, he2⟩ := List.mem_map.mp ha2
    have hy1 : a.y = Int.ofNat y1 := by
      rw [← he1]
      rfl
    have hy2 : a.y = Int.ofNat y2 := by
      rw [← he2]
      rfl
    have hyy : Int.ofNat y1 = Int.ofNat y2 := by
      rw [← hy1, hy2]
    exact hne (Int.ofNat.inj hyy)

theorem mk_state_inv (rules : PartialGameRules) (w h : Nat) (g : GameState)
    (hmk : mkGame rules ⟨mkMapTiles w h⟩ = some g) : StateInv g := by
  have hg : g = initGame rules ⟨mkMapTiles w h⟩ ∧
      (∀ ts, rules.teams = some ts → 2 ≤ ts.length) := by
    unfold mkGame at hmk
    cases hts : rules.teams with
    | none =>
      rw [hts] at hmk
      simp only [] at hmk
      injection hmk with hmk
      refine ⟨hmk.symm, ?_⟩
      intro ts hcontra
      exact absurd hcontra (by simp)
    | some ts =>
      rw [hts] at hmk
      simp only [] at hmk
      by_cases hlen : ts.length < 2
      · rw [if_pos hlen] at hmk
        exact absurd hmk (by simp)
      · rw [if_neg hlen] at hmk
        injection hmk with hmk
        refine ⟨hmk.symm, ?_⟩
        intro ts' hts'
        injection hts' with hts'
        rw [← hts']
        omega
  obtain ⟨hg, hvalid⟩ := hg
  subst hg
  constructor
  · exact mkMapTiles_coords_nodup w h
  · exact List.nodup_nil
  · intro ts hts
    exact hvalid ts hts
  · intro p hp
    exact absurd hp (List.not_mem_nil p)
  · intro id hsome
    simp [findPlayer, initGame] at hsome
  · intro t ht id hocc
    rw [mkMapTiles_occupied w h t ht] at hocc
    exact absurd hocc (by simp)
  · intro t ht id hocc p hp
    rw [mkMapTiles_occupied w h t ht] at hocc
    exact absurd hocc (by simp)
  · intro t1 ht1 t2 ht2 id hocc1 hocc2
    rw [mkMapTiles_occupied w h t1 ht1] at hocc1
    exact absurd hocc1 (by simp)

/-- The states a match can actually be in: a fresh game over a generated grid
followed by any sequence of the public mutating operations. -/
inductive Reachable : GameState → Prop where
  | start (rules : PartialGameRules) (w h : Nat) (g : GameState) :
      mkGame rules ⟨mkMapTiles w h⟩ = some g → Reachable g
  | join (g : GameState) (uid : String) (hpOpt : Option Nat) (ptsOpt : Option Int)
      (coords : Option Coordinate) (st : Option String) (perk : Option PerkType) :
      Reachable g → Reachable (Game.join g uid hpOpt ptsOpt coords st perk).2
  | move (g : GameState) (uid : String) (c : Coordinate) :
      Reachable g → Reachable (Game.moveToCoord g uid c).2
  | attack (g : GameState) (uid : String) (c : Coordinate) (roll : Bool) :
      Reachable g → Reachable (Game.doAttack g uid c roll).2
  | tick (g : GameState) :
      Reachable g → Reachable (Game.handleGameTick g)

theorem reachable_stateInv (g : GameState) (hr : Reachable g) : StateInv g := by
  induction hr with
  | start rules w h g hmk => exact mk_state_inv rules w h g hmk
  | join g uid hpOpt ptsOpt coords st perk hr ih =>
    exact join_preserves_inv g uid hpOpt ptsOpt coords st perk ih
  | move g uid c hr ih => exact move_preserves_inv g uid c ih
  | attack g uid c roll hr ih => exact attack_preserves_inv g uid c roll ih
  | tick g hr ih => exact tick_preserves_inv g ih

end TurtleTanks

namespace TurtleTanks

theorem nodup_all_eq_singleton {α : Type} (l : List α) (hnd : l.Nodup) (x : α)
    (hx : x ∈ l) (hall : ∀ y ∈ l, y = x) : l = [x] := by
  cases l with
  | nil => exact absurd hx (List.not_mem_nil x)
  | cons a as =>
    rw [List.nodup_cons] at hnd
    have ha : a = x := hall a (List.mem_cons_self a as)
    have has : as = [] := by
      rw [List.eq_nil_iff_forall_not_mem]
      intro y hy
      have hy2 : y = x := hall y (List.mem_cons_of_mem a hy)
      rw [← ha] at hy2
      rw [hy2] at hy
      exact hnd.1 hy
    rw [ha, has]

theorem teams_dedup_one (ps : List Player) (b : Bool)
    (halign : ∀ p ∈ ps, p.team.isSome = b) :
    (((ps.filterMap (fun p => p.team)).dedup.length = 1) ↔
      (∃ t, ps ≠ [] ∧ ∀ p ∈ ps, p.team = some t)) := by
  cases b with
  | false =>
    have hfm : ps.filterMap (fun p => p.team) = [] := by
      rw [List.filterMap_eq_nil_iff]
      intro p hp
      have h1 := halign p hp
      cases hpt : p.team with
      | none => rfl
      | some t =>
        rw [hpt] at h1
        simp at h1
    rw [hfm]
    simp only [List.dedup_nil, List.length_nil]
    constructor
    · intro h
      exact absurd h (by simp)
    · rintro ⟨t, hne, hall⟩
      obtain ⟨p, hp⟩ := List.exists_mem_of_ne_nil ps hne
      have h1 := halign p hp
      rw [hall p hp] at h1
      simp at h1
  | true =>
    constructor
    · intro h
      obtain ⟨t, ht⟩ := List.length_eq_one.mp h
      have htmem : t ∈ ps.filterMap (fun p => p.team) := by
        have h2 : t ∈ (ps.filterMap (fun p => p.team)).dedup := by
          rw [ht]
          exact List.mem_singleton_self t
        exact List.mem_dedup.mp h2
      obtain ⟨p0, hp0, hp0t⟩ := List.mem_filterMap.mp htmem
      refine ⟨t, ?_, ?_⟩
      · intro hnil
        rw [hnil] at hp0
        exact absurd hp0 (List.not_mem_nil p0)
      · intro p hp
        have hsome := halign p hp
        cases hpt : p.team with
        | none =>
          rw [hpt] at hsome
          simp at hsome
        | some tp =>
          have h3 : tp ∈ (ps.filterMap (fun p => p.team)).dedup := by
            rw [List.mem_dedup]
            exact List.mem_filterMap.mpr ⟨p, hp, hpt⟩
          rw [ht] at h3
          rw [List.mem_singleton.mp h3]
    · rintro ⟨t, hne, hall⟩
      have hfm : ∀ x ∈ ps.filterMap (fun p => p.team), x = t := by
        intro x hx
        obtain ⟨p, hp, hpx⟩ := List.mem_filterMap.mp hx
        rw [hall p hp] at hpx
        injection hpx with h2
        exact h2.symm
      obtain ⟨p0, hp0⟩ := List.exists_mem_of_ne_nil ps hne
      have ht0 : t ∈ ps.filterMap (fun p => p.team) :=
        List.mem_filterMap.mpr ⟨p0, hp0, hall p0 hp0⟩
      have hd : (ps.filterMap (fun p => p.team)).dedup = [t] := by
        refine nodup_all_eq_singleton _ (List.nodup_dedup _) t ?_ ?_
        · exact List.mem_dedup.mpr ht0
        · intro y hy
          exact hfm y (List.mem_dedup.mp hy)
      rw [hd]
      rfl

theorem checkForEndOfGame_set_ended (h : GameState) (e : Bool) (t : Option Nat) :
    Game.checkForEndOfGame { h with ended := e, timer := t } =
      Game.checkForEndOfGame h := rfl

theorem applyEffectStep_ended (h : GameState) (e : PlayerShotEffect) :
    (applyEffectStep h e).ended = h.ended := by
  unfold applyEffectStep
  cases hfp : findPlayer h.players e.player.userId with
  | none => rfl
  | some p0 =>
    simp only []
    by_cases hz : (p0.receiveDamage e.damageTaken).hp = 0
    · rw [if_pos hz]
      rfl
    · rw [if_neg hz]

theorem applyEffects_ended (es : List PlayerShotEffect) (h : GameState) :
    (applyEffects h es).ended = h.ended := by
  induction es generalizing h with
  | nil => rfl
  | cons e es ih =>
    unfold applyEffects at *
    rw [List.foldl_cons]
    rw [ih (applyEffectStep h e), applyEffectStep_ended]

theorem checkForEndOfGame_true_iff (h : GameState) (b : Bool)
    (halign : ∀ p ∈ h.players, p.team.isSome = b) :
    (((Game.checkForEndOfGame h).1 = true) ↔
      ((h.players.filter (fun p => !p.dead)).length = 0 ∨
       (h.players.filter (fun p => !p.dead)).length = 1 ∨
       (∃ t, h.players.filter (fun p => !p.dead) ≠ [] ∧
         ∀ p ∈ h.players.filter (fun p => !p.dead), p.team = some t))) := by
  have halign2 : ∀ p ∈ h.players.filter (fun p => !p.dead), p.team.isSome = b := by
    intro p hp
    exact halign p (List.mem_of_mem_filter hp)
  have hteams := teams_dedup_one (h.players.filter (fun p => !p.dead)) b halign2
  simp only [Game.checkForEndOfGame]
  by_cases h0 : (h.players.filter (fun p => !p.dead)).length = 0
  · rw [if_pos h0]
    simp [h0]
  · rw [if_neg h0]
    by_cases h1 : (h.players.filter (fun p => !p.dead)).length = 1 ∨
        ((h.players.filter (fun p => !p.dead)).filterMap (fun p => p.team)).dedup.length = 1
    · rw [if_pos h1]
      simp only []
      constructor
      · intro _
        rcases h1 with h1 | h1
        · exact Or.inr (Or.inl h1)
        · exact Or.inr (Or.inr (hteams.mp h1))
      · intro _
        trivial
    · rw [if_neg h1]
      simp only []
      constructor
      · intro hcontra
        exact absurd hcontra (by simp)
      · intro hcase
        rcases hcase with hc | hc | hc
        · exact absurd hc h0
        · exact absurd (Or.inl hc) h1
        · exact absurd (Or.inr (hteams.mpr hc)) h1

theorem doAttack_hit_ended (g : GameState) (uid : String) (coords : Coordinate)
    (roll : Bool) (out : AttackOutcome) (g' : GameState)
    (hres : Game.doAttack g uid coords roll = (.ok out, g'))
    (hhit : out.shotResult = .Hit) :
    (g'.ended = true ↔ (Game.checkForEndOfGame g').1 = true) := by
  cases hca : Game.canAttack g uid coords with
  | err msg =>
    unfold Game.doAttack at hres
    rw [hca] at hres
    simp only [] at hres
    injection hres with h1 h2
    exact absurd h1 (by simp)
  | ok effect =>
    obtain ⟨player, tile, hended, hfp2, _⟩ := canAttack_ok_shape g uid coords effect hca
    unfold Game.doAttack at hres
    rw [hca, hfp2] at hres
    simp only [] at hres
    split at hres
    · split at hres
      · rename_i hend
        injection hres with h1 h2
        rw [← h2]
        refine ⟨fun _ => ?_, fun _ => rfl⟩
        rw [checkForEndOfGame_set_ended]
        exact hend
      · rename_i hend
        injection hres with h1 h2
        rw [← h2]
        constructor
        · intro hcontra
          rw [applyEffects_ended] at hcontra
          have h4 : g.ended = true := hcontra
          rw [hended] at h4
          exact absurd h4 (by simp)
        · intro hrhs
          exact absurd hrhs hend
    · injection hres with h1 h2
      injection h1 with h1
      rw [← h1] at hhit
      exact absurd hhit (by simp)

/-- C3: after every resolved hit of doAttack on a reachable state, the match
is marked ended exactly when zero living players remain, exactly one living
player remains, or all remaining living players share one team. (On reachable
states every roster entry has a team exactly when the rule set configures
teams, so the mixed teamed/teamless situation of the claim's last clause
cannot arise.) -/
theorem c3_hit_end_condition (g : GameState) (hr : Reachable g) (uid : String)
    (coords : Coordinate) (roll : Bool) (out : AttackOutcome) (g' : GameState)
    (hres : Game.doAttack g uid coords roll = (.ok out, g'))
    (hhit : out.shotResult = .Hit) :
    (g'.ended = true ↔
      ((g'.players.filter (fun p => !p.dead)).length = 0 ∨
       (g'.players.filter (fun p => !p.dead)).length = 1 ∨
       (∃ t, g'.players.filter (fun p => !p.dead) ≠ [] ∧
         ∀ p ∈ g'.players.filter (fun p => !p.dead), p.team = some t))) := by
  have hr' : Reachable g' := by
    have h2 := Reachable.attack g uid coords roll hr
    rw [hres] at h2
    exact h2
  have hinv' := reachable_stateInv g' hr'
  rw [doAttack_hit_ended g uid coords roll out g' hres hhit]
  exact checkForEndOfGame_true_iff g' g'.rules.teams.isSome hinv'.teamAligned

/-- Player B joined at (2, 0), after A joined at the origin. -/
def gAB : GameState := (Game.join gA "B" none none (some { x := 2, y := 0 }) none none).2

/-- The outcome of A shooting B's cell in the two-player fixture. -/
def c3fallbackEffect : ShotEffect :=
  { affectedTiles := [], affectedPlayers := [], killedPlayers := [],
    pointsRequired := 0, totalDamage := 0 }

def c3out : AttackOutcome :=
  match (Game.doAttack gAB "A" { x := 2, y := 0 } true).1 with
  | .ok o => o
  | .err _ => { effect := c3fallbackEffect, shotResult := .Miss, ended := false, winners := [] }

theorem c3_witness :
    ((Game.doAttack gAB "A" { x := 2, y := 0 } true).2.ended = true ↔
      (((Game.doAttack gAB "A" { x := 2, y := 0 } true).2.players.filter
          (fun p => !p.dead)).length = 0 ∨
       ((Game.doAttack gAB "A" { x := 2, y := 0 } true).2.players.filter
          (fun p => !p.dead)).length = 1 ∨
       (∃ t, (Game.doAttack gAB "A" { x := 2, y := 0 } true).2.players.filter
          (fun p => !p.dead) ≠ [] ∧
         ∀ p ∈ (Game.doAttack gAB "A" { x := 2, y := 0 } true).2.players.filter
          (fun p => !p.dead), p.team = some t))) :=
  c3_hit_end_condition gAB
    (Reachable.join gA "B" none none (some { x := 2, y := 0 }) none none
      (Reachable.join gEmpty "A" none none (some { x := 0, y := 0 }) none none
        (Reachable.start {} 5 5 gEmpty rfl)))
    "A" { x := 2, y := 0 } true c3out (Game.doAttack gAB "A" { x := 2, y := 0 } true).2
    (by rfl) (by rfl)

end TurtleTanks

namespace TurtleTanks

theorem blastStep_affected (ps : List Player) (attacker : Player) (kam : Bool)
    (acc : ShotEffect) (tile : MapTile) (e : PlayerShotEffect)
    (he : e ∈ (blastStep ps attacker kam acc tile).affectedPlayers) :
    e ∈ acc.affectedPlayers ∨
    (tile.occupied = some e.player.userId ∧
     findPlayer ps e.player.userId = some e.player ∧
     e.newHP = e.player.hp - e.damageTaken) := by
  unfold blastStep at he
  cases hocc : tile.occupied with
  | none =>
    rw [hocc] at he
    left
    exact he
  | some occId =>
    rw [hocc] at he
    simp only [] at he
    cases hfp : findPlayer ps occId with
    | none =>
      rw [hfp] at he
      left
      exact he
    | some tp =>
      rw [hfp] at he
      simp only [] at he
      unfold blastOccupant at he
      by_cases hteam : (tp.userId ≠ attacker.userId ∧ sameTeam tp.team attacker.team = true)
      · rw [if_pos hteam] at he
        left
        exact he
      · rw [if_neg hteam] at he
        simp only [] at he
        rcases List.mem_append.mp he with he | he
        · left
          exact he
        · right
          rw [List.mem_singleton.mp he]
          have htpid : tp.userId = occId := findPlayer_userId _ _ _ hfp
          refine ⟨?_, ?_, ?_⟩
          · show some occId = some tp.userId
            rw [htpid]
          · show findPlayer ps tp.userId = some tp
            rw [htpid]
            exact hfp
          · show tp.hp - blastDamage attacker tp kam =
              tp.hp - (tp.hp - (tp.hp - blastDamage attacker tp kam))
            omega

theorem blastFold_affected (tiles : List MapTile) (ps : List Player) (attacker : Player)
    (kam : Bool) (acc : ShotEffect) (e : PlayerShotEffect)
    (he : e ∈ (tiles.foldl (blastStep ps attacker kam) acc).affectedPlayers) :
    e ∈ acc.affectedPlayers ∨
    ((∃ tile ∈ tiles, tile.occupied = some e.player.userId) ∧
     findPlayer ps e.player.userId = some e.player ∧
     e.newHP = e.player.hp - e.damageTaken) := by
  induction tiles generalizing acc with
  | nil =>
    left
    exact he
  | cons t ts ih =>
    rw [List.foldl_cons] at he
    rcases ih (blastStep ps attacker kam acc t) he with hacc | hfacts
    · rcases blastStep_affected ps attacker kam acc t e hacc with h | h
      · left
        exact h
      · right
        exact ⟨⟨t, List.mem_cons_self t ts, h.1⟩, h.2.1, h.2.2⟩
    · right
      obtain ⟨⟨tile, htm, hto⟩, h2, h3⟩ := hfacts
      exact ⟨⟨tile, List.mem_cons_of_mem t htm, hto⟩, h2, h3⟩

theorem blastStep_affected_shape (ps : List Player) (attacker : Player) (kam : Bool)
    (acc : ShotEffect) (tile : MapTile) :
    (blastStep ps attacker kam acc tile).affectedPlayers = acc.affectedPlayers ∨
    (∃ e1, tile.occupied = some e1.player.userId ∧
      (blastStep ps attacker kam acc tile).affectedPlayers =
        acc.affectedPlayers ++ [e1]) := by
  unfold blastStep
  cases hocc : tile.occupied with
  | none =>
    left
    rfl
  | some occId =>
    simp only []
    cases hfp : findPlayer ps occId with
    | none =>
      left
      rfl
    | some tp =>
      simp only []
      unfold blastOccupant
      by_cases hteam : (tp.userId ≠ attacker.userId ∧ sameTeam tp.team attacker.team = true)
      · rw [if_pos hteam]
        left
        rfl
      · rw [if_neg hteam]
        right
        have htpid : tp.userId = occId := findPlayer_userId _ _ _ hfp
        refine ⟨_, ?_, rfl⟩
        show some occId = some tp.userId
        rw [htpid]

theorem blastFold_ids_nodup_aux (ps : List Player) (attacker : Player) (kam : Bool)
    (T : List MapTile)
    (huniq : ∀ t1 ∈ T, ∀ t2 ∈ T, ∀ id, t1.occupied = some id →
      t2.occupied = some id → t1 = t2)
    (tiles : List MapTile) (hsubT : ∀ t ∈ tiles, t ∈ T) (hnd : tiles.Nodup)
    (acc : ShotEffect)
    (haccnd : (acc.affectedPlayers.map (fun e => e.player.userId)).Nodup)
    (hfresh : ∀ e ∈ acc.affectedPlayers, ∀ t ∈ tiles,
      t.occupied ≠ some e.player.userId) :
    ((tiles.foldl (blastStep ps attacker kam) acc).affectedPlayers.map
      (fun e => e.player.userId)).Nodup := by
  induction tiles generalizing acc with
  | nil => exact haccnd
  | cons t ts ih =>
    rw [List.foldl_cons]
    rw [List.nodup_cons] at hnd
    refine ih (fun t' ht' => hsubT t' (List.mem_cons_of_mem t ht')) hnd.2 _ ?_ ?_
    · rcases blastStep_affected_shape ps attacker kam acc t with hsh | ⟨e1, hocc1, hsh⟩
      · rw [hsh]
        exact haccnd
      · rw [hsh, List.map_append, List.nodup_append]
        refine ⟨haccnd, by simp, ?_⟩
        intro a ha hb
        obtain ⟨e, hea, heid⟩ := List.mem_map.mp ha
        simp only [List.map_cons, List.map_nil, List.mem_singleton] at hb
        refine hfresh e hea t (List.mem_cons_self t ts) ?_
        rw [hocc1, ← hb, ← heid]
    · intro e he t' ht' hcontra
      rcases blastStep_affected_shape ps attacker kam acc t with hsh | ⟨e1, hocc1, hsh⟩
      · rw [hsh] at he
        exact hfresh e he t' (List.mem_cons_of_mem t ht') hcontra
      · rw [hsh] at he
        rcases List.mem_append.mp he with he | he
        · exact hfresh e he t' (List.mem_cons_of_mem t ht') hcontra
        · rw [List.mem_singleton.mp he] at hcontra
          have ht12 : t = t' := huniq t (hsubT t (List.mem_cons_self t ts)) t'
            (hsubT t' (List.mem_cons_of_mem t ht')) e1.player.userId hocc1 hcontra
          rw [ht12] at hnd
          exact hnd.1 ht'

theorem applyEffectStep_findPlayer_ne (h : GameState) (e0 : PlayerShotEffect)
    (id : String) (hne : id ≠ e0.player.userId) :
    findPlayer (applyEffectStep h e0).players id = findPlayer h.players id := by
  unfold applyEffectStep
  cases hfp : findPlayer h.players e0.player.userId with
  | none => rfl
  | some p =>
    simp only []
    have hpid : p.userId = e0.player.userId := findPlayer_userId _ _ _ hfp
    by_cases hz : (p.receiveDamage e0.damageTaken).hp = 0
    · rw [if_pos hz]
      show findPlayer (removePlayer h.players (p.receiveDamage e0.damageTaken).userId) id = _
      refine findPlayer_removePlayer_ne _ _ _ ?_
      intro hc
      have hpid2 : (p.receiveDamage e0.damageTaken).userId = e0.player.userId := hpid
      exact hne (hc.trans hpid2)
    · rw [if_neg hz]
      show findPlayer (updatePlayer h.players p.userId
        (fun _ => p.receiveDamage e0.damageTaken)) id = _
      refine findPlayer_updatePlayer_ne _ _ _ _ ?_ ?_
      · intro hc
        exact hne (hc.trans hpid)
      · intro q hq
        exact rfl

theorem applyEffectStep_findDead_ne (h : GameState) (e0 : PlayerShotEffect)
    (id : String) (hne : id ≠ e0.player.userId) :
    findPlayer (applyEffectStep h e0).deadPlayers id = findPlayer h.deadPlayers id := by
  unfold applyEffectStep
  cases hfp : findPlayer h.players e0.player.userId with
  | none => rfl
  | some p =>
    simp only []
    have hpid : p.userId = e0.player.userId := findPlayer_userId _ _ _ hfp
    by_cases hz : (p.receiveDamage e0.damageTaken).hp = 0
    · rw [if_pos hz]
      show findPlayer (setPlayer h.deadPlayers (p.receiveDamage e0.damageTaken)) id = _
      refine findPlayer_setPlayer_ne _ _ _ ?_
      intro hc
      have hpid2 : (p.receiveDamage e0.damageTaken).userId = e0.player.userId := hpid
      exact hne (hc.trans hpid2)
    · rw [if_neg hz]

theorem applyEffectStep_dead_stable (h : GameState) (e0 : PlayerShotEffect)
    (id : String) (q : Player) (hliv : findPlayer h.players id = none)
    (hdead : findPlayer h.deadPlayers id = some q) :
    findPlayer (applyEffectStep h e0).players id = none ∧
    findPlayer (applyEffectStep h e0).deadPlayers id = some q := by
  by_cases hne : id = e0.player.userId
  · unfold applyEffectStep
    rw [← hne, hliv]
    exact ⟨hliv, hdead⟩
  · constructor
    · rw [applyEffectStep_findPlayer_ne h e0 id hne]
      exact hliv
    · rw [applyEffectStep_findDead_ne h e0 id hne]
      exact hdead

theorem applyEffects_dead_stable (es : List PlayerShotEffect) (h : GameState)
    (id : String) (q : Player) (hliv : findPlayer h.players id = none)
    (hdead : findPlayer h.deadPlayers id = some q) :
    findPlayer (applyEffects h es).players id = none ∧
    findPlayer (applyEffects h es).deadPlayers id = some q := by
  induction es generalizing h with
  | nil => exact ⟨hliv, hdead⟩
  | cons e0 es ih =>
    unfold applyEffects at *
    rw [List.foldl_cons]
    obtain ⟨h1, h2⟩ := applyEffectStep_dead_stable h e0 id q hliv hdead
    exact ih (applyEffectStep h e0) h1 h2

theorem applyEffects_kills (es : List PlayerShotEffect) (h : GameState)
    (e : PlayerShotEffect) (he : e ∈ es)
    (hids : (es.map (fun x => x.player.userId)).Nodup)
    (p : Player) (hfp : findPlayer h.players e.player.userId = some p)
    (hhp : p.hp = e.player.hp)
    (hz : e.player.hp - e.damageTaken = 0) :
    findPlayer (applyEffects h es).players e.player.userId = none ∧
    (findPlayer (applyEffects h es).deadPlayers e.player.userId).isSome := by
  induction es generalizing h with
  | nil => exact absurd he (List.not_mem_nil e)
  | cons e0 es ih =>
    unfold applyEffects at *
    rw [List.foldl_cons]
    rw [List.map_cons, List.nodup_cons] at hids
    rcases List.mem_cons.mp he with heq | htail
    · subst heq
      have hp1z : (p.receiveDamage e.damageTaken).hp = 0 := by
        show p.hp - e.damageTaken = 0
        rw [hhp]
        exact hz
      have hstep : applyEffectStep h e =
          Game.killPlayer h (p.receiveDamage e.damageTaken) := by
        unfold applyEffectStep
        rw [hfp]
        simp only []
        rw [if_pos hp1z]
      rw [hstep]
      have hpid0 : p.userId = e.player.userId := findPlayer_userId _ _ _ hfp
      have hpid : (p.receiveDamage e.damageTaken).userId = e.player.userId := hpid0
      have hliv2 : findPlayer (Game.killPlayer h
          (p.receiveDamage e.damageTaken)).players e.player.userId = none := by
        show findPlayer (removePlayer h.players (p.receiveDamage e.damageTaken).userId) _ = none
        rw [hpid]
        exact findPlayer_removePlayer_self _ _
      have hdead2 : findPlayer (Game.killPlayer h
          (p.receiveDamage e.damageTaken)).deadPlayers e.player.userId =
          some (p.receiveDamage e.damageTaken) := by
        show findPlayer (setPlayer h.deadPlayers (p.receiveDamage e.damageTaken)) _ = _
        rw [← hpid]
        exact findPlayer_setPlayer_self _ _
      obtain ⟨h1, h2⟩ := applyEffects_dead_stable es
        (Game.killPlayer h (p.receiveDamage e.damageTaken)) e.player.userId
        (p.receiveDamage e.damageTaken) hliv2 hdead2
      refine ⟨h1, ?_⟩
      have h2x : findPlayer (List.foldl applyEffectStep
          (Game.killPlayer h (p.receiveDamage e.damageTaken)) es).deadPlayers
          e.player.userId = some (p.receiveDamage e.damageTaken) := h2
      rw [h2x]
      rfl
    · have hne : e.player.userId ≠ e0.player.userId := by
        intro hc
        have hm : e.player.userId ∈ es.map (fun x => x.player.userId) :=
          List.mem_map_of_mem (fun x => x.player.userId) htail
        rw [hc] at hm
        exact hids.1 hm
      have hfp' : findPlayer (applyEffectStep h e0).players e.player.userId = some p := by
        rw [applyEffectStep_findPlayer_ne h e0 _ hne]
        exact hfp
      exact ih (applyEffectStep h e0) htail hids.2 hfp'

theorem applyEffectStep_entry_points (h : GameState) (e0 : PlayerShotEffect)
    (id : String) (p : Player) (hfp : findPlayer h.players id = some p)
    (hdead : findPlayer h.deadPlayers id = none) :
    (∃ q, findPlayer (applyEffectStep h e0).players id = some q ∧
       findPlayer (applyEffectStep h e0).deadPlayers id = none ∧
       q.points = p.points ∧ q.userId = p.userId) ∨
    (∃ q, findPlayer (applyEffectStep h e0).players id = none ∧
       findPlayer (applyEffectStep h e0).deadPlayers id = some q ∧
       q.points = p.points ∧ q.userId = p.userId) := by
  have hpid : p.userId = id := findPlayer_userId _ _ _ hfp
  by_cases hne : id = e0.player.userId
  · have hfp0 : findPlayer h.players e0.player.userId = some p := by
      rw [← hne]
      exact hfp
    unfold applyEffectStep
    rw [hfp0]
    simp only []
    by_cases hz : (p.receiveDamage e0.damageTaken).hp = 0
    · rw [if_pos hz]
      right
      refine ⟨p.receiveDamage e0.damageTaken, ?_, ?_, rfl, rfl⟩
      · show findPlayer (removePlayer h.players
          (p.receiveDamage e0.damageTaken).userId) id = none
        have h3 : (p.receiveDamage e0.damageTaken).userId = id := hpid
        rw [h3]
        exact findPlayer_removePlayer_self _ _
      · show findPlayer (setPlayer h.deadPlayers
          (p.receiveDamage e0.damageTaken)) id = _
        have h3 : (p.receiveDamage e0.damageTaken).userId = id := hpid
        rw [← h3]
        exact findPlayer_setPlayer_self _ _
    · rw [if_neg hz]
      left
      refine ⟨p.receiveDamage e0.damageTaken, ?_, hdead, rfl, rfl⟩
      show findPlayer (updatePlayer h.players p.userId
        (fun _ => p.receiveDamage e0.damageTaken)) id = _
      rw [hpid]
      refine findPlayer_updatePlayer_self _ _ _ p ?_ ?_
      · exact hfp
      · exact hpid
  · left
    refine ⟨p, ?_, ?_, rfl, rfl⟩
    · rw [applyEffectStep_findPlayer_ne h e0 id hne]
      exact hfp
    · rw [applyEffectStep_findDead_ne h e0 id hne]
      exact hdead

theorem applyEffects_entry_points (es : List PlayerShotEffect) (h : GameState)
    (id : String) (p : Player) (hfp : findPlayer h.players id = some p)
    (hdead : findPlayer h.deadPlayers id = none) :
    ∃ q, (findPlayer (applyEffects h es).players id = some q ∨
          findPlayer (applyEffects h es).deadPlayers id = some q) ∧
      q.points = p.points ∧ q.userId = p.userId := by
  induction es generalizing h p with
  | nil => exact ⟨p, Or.inl hfp, rfl, rfl⟩
  | cons e0 es ih =>
    unfold applyEffects at *
    rw [List.foldl_cons]
    rcases applyEffectStep_entry_points h e0 id p hfp hdead with
      ⟨q1, hq1, hq1d, hpts, hid⟩ | ⟨q1, hq1, hq1d, hpts, hid⟩
    · obtain ⟨q, hq, hqpts, hquid⟩ := ih (applyEffectStep h e0) q1 hq1 hq1d
      exact ⟨q, hq, by rw [hqpts, hpts], by rw [hquid, hid]⟩
    · obtain ⟨h1, h2⟩ := applyEffects_dead_stable es (applyEffectStep h e0) id q1 hq1 hq1d
      exact ⟨q1, Or.inr h2, hpts, hid⟩

end TurtleTanks

namespace TurtleTanks

theorem hit_resolution_core (g : GameState) (hinv : StateInv g) (uid : String)
    (coords : Coordinate) (player : Player) (effect : ShotEffect)
    (hfpP : findPlayer g.players uid = some player)
    (heff : effect = (g.map.getTilesInRadius coords
        (if Game.isKamikazeShot player coords then 2 else player.weapon.radius)).foldl
      (blastStep g.players player (Game.isKamikazeShot player coords))
      (emptyShot player.pointsPerShot))
    (g3 : GameState)
    (hg3 : g3 = applyEffects
      { g with players := (updatePlayer
          (updatePlayer g.players uid
            (fun p => { p with points := p.points - (p.pointsPerShot : Int) }))
          uid
          (fun p => { p with points := p.points +
            ((p.pointsPerKill * effect.killedPlayers.length : Nat) : Int) })) }
      effect.affectedPlayers) :
    g3.map = g.map ∧
    (∀ e ∈ effect.affectedPlayers, e.newHP = 0 →
      findPlayer g3.players e.player.userId = none ∧
      (findPlayer g3.deadPlayers e.player.userId).isSome) ∧
    (∃ a', (findPlayer g3.players uid = some a' ∨
            findPlayer g3.deadPlayers uid = some a') ∧
      a'.points = player.points - (player.pointsPerShot : Int) +
        (player.pointsPerKill : Int) * (effect.killedPlayers.length : Int)) := by
  have hauid : player.userId = uid := findPlayer_userId _ _ _ hfpP
  set f1 : Player → Player :=
    fun p => { p with points := p.points - (p.pointsPerShot : Int) } with hf1
  set f2 : Player → Player :=
    fun p => { p with points := p.points +
      ((p.pointsPerKill * effect.killedPlayers.length : Nat) : Int) } with hf2
  set G2 : GameState :=
    { g with players := (updatePlayer (updatePlayer g.players uid f1) uid f2) } with hG2
  have hG2players : G2.players = updatePlayer (updatePlayer g.players uid f1) uid f2 := rfl
  have htilesnd : g.map.tiles.Nodup := List.Nodup.of_map _ hinv.coordsNodup
  have hsubT : ∀ t ∈ g.map.getTilesInRadius coords
      (if Game.isKamikazeShot player coords then 2 else player.weapon.radius),
      t ∈ g.map.tiles := fun t ht => List.mem_of_mem_filter ht
  have htnd : (g.map.getTilesInRadius coords
      (if Game.isKamikazeShot player coords then 2 else player.weapon.radius)).Nodup :=
    List.Nodup.sublist (List.filter_sublist _) htilesnd
  have hids : (effect.affectedPlayers.map (fun e => e.player.userId)).Nodup := by
    rw [heff]
    refine blastFold_ids_nodup_aux g.players player _ g.map.tiles hinv.occupantUnique
      _ hsubT htnd (emptyShot player.pointsPerShot) ?_ ?_
    · simp [emptyShot]
    · intro e he
      simp [emptyShot] at he
  have hentry : ∀ e ∈ effect.affectedPlayers,
      findPlayer g.players e.player.userId = some e.player ∧
      e.newHP = e.player.hp - e.damageTaken := by
    intro e he
    rw [heff] at he
    rcases blastFold_affected _ _ _ _ _ _ he with hacc | ⟨_, h2, h3⟩
    · simp [emptyShot] at hacc
    · exact ⟨h2, h3⟩
  refine ⟨?_, ?_, ?_⟩
  · rw [hg3, applyEffects_map]
  · intro e he hz0
    obtain ⟨hfpe, hnh⟩ := hentry e he
    have hz : e.player.hp - e.damageTaken = 0 := by
      rw [← hnh]
      exact hz0
    have hvic : ∃ p', findPlayer G2.players e.player.userId = some p' ∧
        p'.hp = e.player.hp := by
      rw [hG2players,
        findPlayer_updatePlayer (updatePlayer g.players uid f1) uid f2 (fun p => rfl),
        findPlayer_updatePlayer g.players uid f1 (fun p => rfl), hfpe]
      refine ⟨_, rfl, ?_⟩
      by_cases h1 : e.player.userId = uid <;> simp [h1, hf1, hf2]
    obtain ⟨p', hfp', hhp'⟩ := hvic
    rw [hg3]
    exact applyEffects_kills effect.affectedPlayers G2 e he hids p' hfp' hhp' hz
  · have hdeadg : findPlayer g.deadPlayers uid = none :=
      hinv.rosterDisjoint uid (by rw [hfpP]; rfl)
    have hfp1 : findPlayer (updatePlayer g.players uid f1) uid = some (f1 player) :=
      findPlayer_updatePlayer_self g.players uid f1 player hfpP hauid
    have hfp2 : findPlayer G2.players uid = some (f2 (f1 player)) := by
      rw [hG2players]
      exact findPlayer_updatePlayer_self _ uid f2 (f1 player) hfp1 hauid
    have hdead2 : findPlayer G2.deadPlayers uid = none := hdeadg
    obtain ⟨q, hq, hqpts, hquid⟩ :=
      applyEffects_entry_points effect.affectedPlayers G2 uid (f2 (f1 player)) hfp2 hdead2
    refine ⟨q, ?_, ?_⟩
    · rw [hg3]
      exact hq
    · rw [hqpts]
      show (player.points - (player.pointsPerShot : Int)) +
        ((player.pointsPerKill * effect.killedPlayers.length : Nat) : Int) =
        player.points - (player.pointsPerShot : Int) +
        (player.pointsPerKill : Int) * (effect.killedPlayers.length : Int)
      push_cast
      ring

/-- C4: on a resolved hit from a reachable state, the tile map — occupancy
included — is left completely unchanged (killPlayer never clears the victim's
cell), every affected occupant whose recorded new health is zero is removed
from the living roster and appears on the eliminated roster, and the
attacker's roster entry is charged the per-shot cost and credited the
per-kill reward once per recorded kill. -/
theorem c4_hit_kill_resolution (g : GameState) (hr : Reachable g) (uid : String)
    (coords : Coordinate) (roll : Bool) (out : AttackOutcome) (g' : GameState)
    (hres : Game.doAttack g uid coords roll = (.ok out, g'))
    (hhit : out.shotResult = .Hit) :
    g'.map = g.map ∧
    (∀ e ∈ out.effect.affectedPlayers, e.newHP = 0 →
      findPlayer g'.players e.player.userId = none ∧
      (findPlayer g'.deadPlayers e.player.userId).isSome) ∧
    (∃ attacker a', findPlayer g.players uid = some attacker ∧
      (findPlayer g'.players uid = some a' ∨ findPlayer g'.deadPlayers uid = some a') ∧
      a'.points = attacker.points - (attacker.pointsPerShot : Int) +
        (attacker.pointsPerKill : Int) * (out.effect.killedPlayers.length : Int)) := by
  have hinv := reachable_stateInv g hr
  cases hca : Game.canAttack g uid coords with
  | err msg =>
    unfold Game.doAttack at hres
    rw [hca] at hres
    simp only [] at hres
    injection hres with h1 h2
    exact absurd h1 (by simp)
  | ok effect =>
    obtain ⟨player, tile, hended, hfpP, htile, hsparse, hrange, hpoints, heff⟩ :=
      canAttack_ok_shape g uid coords effect hca
    unfold Game.doAttack at hres
    rw [hca, hfpP] at hres
    simp only [] at hres
    have hcore := hit_resolution_core g hinv uid coords player effect hfpP heff
      (applyEffects
        { g with players := (updatePlayer
            (updatePlayer g.players uid
              (fun p => { p with points := p.points - (p.pointsPerShot : Int) }))
            uid
            (fun p => { p with points := p.points +
              ((p.pointsPerKill * effect.killedPlayers.length : Nat) : Int) })) }
        effect.affectedPlayers) rfl
    split at hres
    · split at hres
      · injection hres with h1 h2
        injection h1 with h1
        have houteff : out.effect = effect := by
          rw [← h1]
        refine ⟨?_, ?_, ?_⟩
        · rw [← h2]
          exact hcore.1
        · rw [houteff, ← h2]
          exact hcore.2.1
        · obtain ⟨a', ha1, ha2⟩ := hcore.2.2
          refine ⟨player, a', hfpP, ?_, ?_⟩
          · rw [← h2]
            exact ha1
          · rw [houteff]
            exact ha2
      · injection hres with h1 h2
        injection h1 with h1
        have houteff : out.effect = effect := by
          rw [← h1]
        refine ⟨?_, ?_, ?_⟩
        · rw [← h2]
          exact hcore.1
        · rw [houteff, ← h2]
          exact hcore.2.1
        · obtain ⟨a', ha1, ha2⟩ := hcore.2.2
          refine ⟨player, a', hfpP, ?_, ?_⟩
          · rw [← h2]
            exact ha1
          · rw [houteff]
            exact ha2
    · injection hres with h1 h2
      injection h1 with h1
      rw [← h1] at hhit
      exact absurd hhit (by simp)

/-- The state after A kamikazes at the origin in the gKam fixture. -/
def gKamAfter : GameState := (Game.doAttack gKam "A" { x := 0, y := 0 } false).2

/-- The outcome of A kamikazing at the origin in the gKam fixture. -/
def c4out : AttackOutcome :=
  match (Game.doAttack gKam "A" { x := 0, y := 0 } false).1 with
  | .ok o => o
  | .err _ => { effect := c3fallbackEffect, shotResult := .Miss, ended := false, winners := [] }

theorem c4_witness :
    gKamAfter.map = gKam.map ∧
    (∀ e ∈ c4out.effect.affectedPlayers, e.newHP = 0 →
      findPlayer gKamAfter.players e.player.userId = none ∧
      (findPlayer gKamAfter.deadPlayers e.player.userId).isSome) ∧
    (∃ attacker a', findPlayer gKam.players "A" = some attacker ∧
      (findPlayer gKamAfter.players "A" = some a' ∨
       findPlayer gKamAfter.deadPlayers "A" = some a') ∧
      a'.points = attacker.points - (attacker.pointsPerShot : Int) +
        (attacker.pointsPerKill : Int) * (c4out.effect.killedPlayers.length : Int)) :=
  c4_hit_kill_resolution gKam
    (Reachable.join _ "B" none none (some ⟨1, 0⟩) none none
      (Reachable.join gEmpty "A" none none (some ⟨0, 0⟩) none (some PerkType.Kamikaze)
        (Reachable.start {} 5 5 gEmpty rfl)))
    "A" { x := 0, y := 0 } false c4out gKamAfter (by rfl) (by rfl)

/-- C4 counterexample: A, holding the Kamikaze perk, self-destructs and is
moved to the eliminated roster, yet the origin cell still records "A" as its
occupant afterwards — killPlayer (Game.ts lines 202-208) never clears the
victim's cell, so the claim's "occupancy on their cell is cleared" part is
false. -/
theorem c4_counterexample :
    findPlayer gKamAfter.players "A" = none ∧
    (findPlayer gKamAfter.deadPlayers "A").isSome = true ∧
    (gKamAfter.map.tryGetTile { x := 0, y := 0 }).map (fun t => t.occupied) =
      some (some "A") := by
  decide

end TurtleTanks

namespace TurtleTanks

theorem findPlayer_eq_of_mem (ps : List Player) (hnd : (ps.map (fun p => p.userId)).Nodup)
    (q : Player) (hq : q ∈ ps) (uid : String) (hid : q.userId = uid) :
    findPlayer ps uid = some q := by
  induction ps with
  | nil => exact absurd hq (List.not_mem_nil q)
  | cons p ps ih =>
    rw [List.map_cons, List.nodup_cons] at hnd
    rcases List.mem_cons.mp hq with heq | hmem
    · subst heq
      unfold findPlayer
      rw [List.find?_cons_of_pos _ (by simpa using hid)]
    · by_cases hp : p.userId = uid
      · exfalso
        refine hnd.1 ?_
        rw [hp, ← hid]
        exact List.mem_map_of_mem (fun p => p.userId) hmem
      · unfold findPlayer
        rw [List.find?_cons_of_neg _ (by simpa using hp)]
        exact ih hnd.2 hmem

theorem mem_updatePlayer_eq (ps : List Player) (uid : String) (f : Player → Player)
    (q' : Player) (hq' : q' ∈ updatePlayer ps uid f) :
    ∃ q ∈ ps, q' = (if q.userId = uid then f q else q) := by
  obtain ⟨q, hq, heq⟩ := List.mem_map.mp hq'
  exact ⟨q, hq, heq.symm⟩

theorem joinSquare_safe_unoccupied (g : GameState) (coords : Option Coordinate)
    (sq : MapTile)
    (hguard : ∀ c, coords = some c → ∀ t, g.map.tryGetTile c = some t →
      t.occupied = none)
    (hsq : Game.joinSquare g coords = some sq) : sq.occupied = none := by
  cases coords with
  | none =>
    simp only [Game.joinSquare] at hsq
    have hsq2 : g.map.tiles.find? (fun t => t.occupied.isNone && !t.sparse) = some sq := hsq
    have hpred := List.find?_some hsq2
    have hpred2 : (sq.occupied.isNone && !sq.sparse) = true := hpred
    rw [Bool.and_eq_true] at hpred2
    exact Option.isNone_iff_eq_none.mp hpred2.1
  | some c =>
    simp only [Game.joinSquare] at hsq
    cases ht : g.map.tryGetTile c with
    | some t =>
      rw [ht] at hsq
      simp only [] at hsq
      injection hsq with hsq
      rw [← hsq]
      exact hguard c rfl t ht
    | none =>
      rw [ht] at hsq
      simp only [] at hsq
      have hsq2 : g.map.tiles.find? (fun t => t.occupied.isNone && !t.sparse) = some sq := hsq
      have hpred := List.find?_some hsq2
      have hpred2 : (sq.occupied.isNone && !sq.sparse) = true := hpred
      rw [Bool.and_eq_true] at hpred2
      exact Option.isNone_iff_eq_none.mp hpred2.1

theorem canMove_ok_dest (g : GameState) (uid : String) (c : Coordinate) (pr tt : Nat)
    (h : Game.canMove g uid c = .ok pr tt) :
    ∃ t, g.map.tryGetTile c = some t ∧ t.occupied = none := by
  unfold Game.canMove at h
  split at h
  · exact absurd h (by simp)
  · split at h
    · exact absurd h (by simp)
    · rename_i player hfp
      unfold MapManager.canMoveTo at h
      cases ht : g.map.tryGetTile c with
      | none =>
        rw [ht] at h
        exact absurd h (by simp)
      | some t =>
        rw [ht] at h
        simp only [] at h
        split at h
        · exact absurd h (by simp)
        · split at h
          · exact absurd h (by simp)
          · rename_i hocc
            refine ⟨t, rfl, ?_⟩
            cases hoc : t.occupied
            · rfl
            · rw [hoc] at hocc
              exact absurd rfl hocc

theorem moveToCoord_shape2 (g : GameState) (uid : String) (c : Coordinate) :
    (Game.moveToCoord g uid c).2 = g ∨
    (∃ player pr t, findPlayer g.players uid = some player ∧
      g.map.tryGetTile c = some t ∧ t.occupied = none ∧
      (Game.moveToCoord g uid c).2.players = updatePlayer g.players uid
        (fun p => { p with points := p.points - (pr : Int), coords := c }) ∧
      (Game.moveToCoord g uid c).2.map =
        (g.map.setOccupied player.coords none).setOccupied c (some uid) ∧
      (Game.moveToCoord g uid c).2.deadPlayers = g.deadPlayers ∧
      (Game.moveToCoord g uid c).2.rules = g.rules) := by
  cases hcm : Game.canMove g uid c with
  | err msg =>
    left
    simp [Game.moveToCoord, hcm]
  | ok pr tt =>
    obtain ⟨t, ht, htocc⟩ := canMove_ok_dest g uid c pr tt hcm
    cases hfp : findPlayer g.players uid with
    | none =>
      left
      simp [Game.moveToCoord, hcm, hfp]
    | some player =>
      by_cases hpts : (pr : Int) ≤ player.points
      · right
        refine ⟨player, pr, t, rfl, ht, htocc, ?_, ?_, ?_, ?_⟩ <;>
          simp [Game.moveToCoord, hcm, hfp, hpts]
      · left
        simp [Game.moveToCoord, hcm, hfp, hpts]

theorem setOccupied_image (m : MapManager) (c : Coordinate) (v : Option String)
    (t : MapTile) (ht : t ∈ m.tiles) :
    ∃ t' ∈ (m.setOccupied c v).tiles, t'.coords = t.coords ∧
      t'.occupied = (if t.coords = c then v else t.occupied) := by
  refine ⟨if t.coords = c then { t with occupied := v } else t,
    List.mem_map_of_mem _ ht, ?_, ?_⟩
  · by_cases h : t.coords = c
    · rw [if_pos h]
    · rw [if_neg h]
  · by_cases h : t.coords = c
    · rw [if_pos h, if_pos h]
    · rw [if_neg h, if_neg h]

theorem setOccupied_twice_image (m : MapManager) (c1 c2 : Coordinate)
    (v1 v2 : Option String) (t : MapTile) (ht : t ∈ m.tiles) :
    ∃ t' ∈ ((m.setOccupied c1 v1).setOccupied c2 v2).tiles,
      t'.coords = t.coords ∧
      t'.occupied = (if t.coords = c2 then v2
        else if t.coords = c1 then v1 else t.occupied) := by
  obtain ⟨u, hu, huc, huo⟩ := setOccupied_image m c1 v1 t ht
  obtain ⟨t', ht', htc, hto⟩ := setOccupied_image (m.setOccupied c1 v1) c2 v2 u hu
  refine ⟨t', ht', htc.trans huc, ?_⟩
  rw [hto, huc, huo]

/-- The position–occupancy alignment of spec 3: every living combatant stands
on a cell of the map that records them as its occupant. -/
def PosInv (g : GameState) : Prop :=
  ∀ p ∈ g.players, ∃ t ∈ g.map.tiles, t.coords = p.coords ∧ t.occupied = some p.userId

theorem mk_state_pos (rules : PartialGameRules) (w h : Nat) (g : GameState)
    (hmk : mkGame rules ⟨mkMapTiles w h⟩ = some g) : PosInv g := by
  have hg : g.players = [] := by
    unfold mkGame at hmk
    cases hts : rules.teams with
    | none =>
      rw [hts] at hmk
      simp only [] at hmk
      injection hmk with hmk
      rw [← hmk]
      rfl
    | some ts =>
      rw [hts] at hmk
      simp only [] at hmk
      by_cases hlen : ts.length < 2
      · rw [if_pos hlen] at hmk
        exact absurd hmk (by simp)
      · rw [if_neg hlen] at hmk
        injection hmk with hmk
        rw [← hmk]
        rfl
  intro p hp
  rw [hg] at hp
  exact absurd hp (List.not_mem_nil p)

theorem join_preserves_pos (g : GameState) (uid : String) (hpOpt : Option Nat)
    (ptsOpt : Option Int) (coords : Option Coordinate) (st : Option String)
    (perk : Option PerkType) (hinv : StateInv g) (hpos : PosInv g)
    (hguard : ∀ c, coords = some c → ∀ t, g.map.tryGetTile c = some t →
      t.occupied = none) :
    PosInv (Game.join g uid hpOpt ptsOpt coords st perk).2 := by
  rcases join_state_shape g uid hpOpt ptsOpt coords st perk with
    heq | ⟨hend, hliv, hdead, sq, hsq, hply, hmap, hdd, hrules⟩
  · rw [heq]
    exact hpos
  · have hsqmem : sq ∈ g.map.tiles := joinSquare_mem g coords sq hsq
    have hsqocc : sq.occupied = none := joinSquare_safe_unoccupied g coords sq hguard hsq
    have happ : setPlayer g.players (Game.joinPlayer g uid hpOpt ptsOpt sq st perk) =
        g.players ++ [Game.joinPlayer g uid hpOpt ptsOpt sq st perk] :=
      setPlayer_fresh _ _ hliv
    intro p' hp'
    rw [hply, happ] at hp'
    rw [hmap]
    rcases List.mem_append.mp hp' with hold | hnew
    · obtain ⟨t, htm, htc, hto⟩ := hpos p' hold
      have htne : t.coords ≠ sq.coords := by
        intro hc
        have hts : t = sq := coords_inj g.map.tiles hinv.coordsNodup t sq htm hsqmem hc
        rw [hts, hsqocc] at hto
        exact absurd hto (by simp)
      refine ⟨t, ?_, htc, hto⟩
      show t ∈ g.map.tiles.map
        (fun t0 => if t0.coords = sq.coords then { t0 with occupied := some uid } else t0)
      refine List.mem_map.mpr ⟨t, htm, ?_⟩
      rw [if_neg htne]
    · rw [List.mem_singleton.mp hnew]
      refine ⟨{ sq with occupied := some uid }, ?_, rfl, rfl⟩
      show ({ sq with occupied := some uid } : MapTile) ∈ g.map.tiles.map
        (fun t0 => if t0.coords = sq.coords then { t0 with occupied := some uid } else t0)
      refine List.mem_map.mpr ⟨sq, hsqmem, ?_⟩
      simp

theorem move_preserves_pos (g : GameState) (uid : String) (c : Coordinate)
    (hinv : StateInv g) (hpos : PosInv g) : PosInv (Game.moveToCoord g uid c).2 := by
  rcases moveToCoord_shape2 g uid c with
    heq | ⟨player, pr, t, hfp, ht, htocc, hply, hmap, hdd, hrules⟩
  · rw [heq]
    exact hpos
  · have htm : t ∈ g.map.tiles := List.mem_of_find?_eq_some ht
    have htc2 : t.coords = c := by simpa using List.find?_some ht
    have hpmem : player ∈ g.players := findPlayer_mem _ _ _ hfp
    have hpuid : player.userId = uid := findPlayer_userId _ _ _ hfp
    intro q' hq'
    rw [hply] at hq'
    rw [hmap]
    obtain ⟨q, hq, hq'eq⟩ := mem_updatePlayer_eq _ _ _ _ hq'
    by_cases hcase : q.userId = uid
    · rw [if_pos hcase] at hq'eq
      obtain ⟨t', ht', htc', hto'⟩ :=
        setOccupied_twice_image g.map player.coords c none (some uid) t htm
      rw [if_pos htc2] at hto'
      refine ⟨t', ht', ?_, ?_⟩
      · rw [htc', htc2, hq'eq]
      · rw [hto', hq'eq]
        show some uid = some q.userId
        rw [hcase]
    · rw [if_neg hcase] at hq'eq
      obtain ⟨tq, htqm, htqc, htqo⟩ := hpos q hq
      have hneP : tq.coords ≠ player.coords := by
        intro hcc
        obtain ⟨tp, htpm, htpc, htpo⟩ := hpos player hpmem
        have hteq : tq = tp := coords_inj g.map.tiles hinv.coordsNodup tq tp htqm htpm
          (by rw [hcc, htpc])
        rw [hteq, htpo] at htqo
        injection htqo with htqo
        exact hcase ((htqo.symm).trans hpuid)
      have hneC : tq.coords ≠ c := by
        intro hcc
        have hteq : tq = t := coords_inj g.map.tiles hinv.coordsNodup tq t htqm htm
          (by rw [hcc, htc2])
        rw [hteq, htocc] at htqo
        exact absurd htqo (by simp)
      obtain ⟨t', ht', htc', hto'⟩ :=
        setOccupied_twice_image g.map player.coords c none (some uid) tq htqm
      rw [if_neg hneC, if_neg hneP] at hto'
      refine ⟨t', ht', ?_, ?_⟩
      · rw [htc', htqc, hq'eq]
      · rw [hto', htqo, hq'eq]

theorem attack_step_shape (q' : Player) (ps : List Player) (uid : String)
    (f : Player → Player) (hq' : q' ∈ updatePlayer ps uid f)
    (hfid : ∀ p, (f p).userId = p.userId) (hfc : ∀ p, (f p).coords = p.coords) :
    ∃ q ∈ ps, q'.userId = q.userId ∧ q'.coords = q.coords := by
  obtain ⟨q, hq, heq⟩ := mem_updatePlayer_eq ps uid f q' hq'
  by_cases hcase : q.userId = uid
  · rw [if_pos hcase] at heq
    exact ⟨q, hq, by rw [heq, hfid], by rw [heq, hfc]⟩
  · rw [if_neg hcase] at heq
    exact ⟨q, hq, by rw [heq], by rw [heq]⟩

theorem attack_preserves_pos (g : GameState) (uid : String) (coords : Coordinate)
    (roll : Bool) (hpos : PosInv g) : PosInv (Game.doAttack g uid coords roll).2 := by
  rcases doAttack_state_shape g uid coords roll with heq | ⟨effect, attacker, hca, hfp, hrest⟩
  · rw [heq]
    exact hpos
  · rcases hrest with heq | ⟨g3, hg3, hrest⟩
    · intro q' hq'
      rw [heq] at hq'
      obtain ⟨q, hq, h1, h2⟩ := attack_step_shape q' g.players uid _ hq'
        (fun p => rfl) (fun p => rfl)
      obtain ⟨t, htm, htc, hto⟩ := hpos q hq
      rw [heq]
      exact ⟨t, htm, by rw [htc, h2], by rw [hto, h1]⟩
    · have hmain : ∀ q' ∈ g3.players, ∃ q ∈ g.players,
          q'.userId = q.userId ∧ q'.coords = q.coords := by
        intro q' hq'
        rw [hg3] at hq'
        obtain ⟨m, hm, hs⟩ := applyEffects_mem_shape _ _ _ hq'
        obtain ⟨m2, hm2, hi1, hi2⟩ := attack_step_shape m _ uid _ hm
          (fun p => rfl) (fun p => rfl)
        obtain ⟨q, hq, hj1, hj2⟩ := attack_step_shape m2 g.players uid _ hm2
          (fun p => rfl) (fun p => rfl)
        exact ⟨q, hq, by rw [hs.1, hi1, hj1], by rw [hs.2.1, hi2, hj2]⟩
      have hmap3 : g3.map = g.map := by
        rw [hg3, applyEffects_map]
      rcases hrest with heq | heq
      · intro q' hq'
        rw [heq] at hq'
        obtain ⟨q, hq, h1, h2⟩ := hmain q' hq'
        obtain ⟨t, htm, htc, hto⟩ := hpos q hq
        rw [heq, hmap3]
        exact ⟨t, htm, by rw [htc, h2], by rw [hto, h1]⟩
      · intro q' hq'
        rw [heq] at hq'
        have hq'' : q' ∈ g3.players := hq'
        obtain ⟨q, hq, h1, h2⟩ := hmain q' hq''
        obtain ⟨t, htm, htc, hto⟩ := hpos q hq
        rw [heq]
        refine ⟨t, ?_, by rw [htc, h2], by rw [hto, h1]⟩
        show t ∈ g3.map.tiles
        rw [hmap3]
        exact htm

theorem tick_preserves_pos (g : GameState) (hpos : PosInv g) :
    PosInv (Game.handleGameTick g) := by
  intro q' hq'
  have hq'' : q' ∈ g.players.map
      (fun p => { p with points := p.points + (p.pointsPerTick : Int) }) := hq'
  obtain ⟨q, hq, heq⟩ := List.mem_map.mp hq''
  obtain ⟨t, htm, htc, hto⟩ := hpos q hq
  refine ⟨t, htm, ?_, ?_⟩
  · rw [htc, ← heq]
  · rw [hto, ← heq]

/-- Reachability restricted to joins that never target an existing occupied
cell: the supplied coordinate, when it names an existing tile, names an
unoccupied one. -/
inductive ReachableSafe : GameState → Prop where
  | start (rules : PartialGameRules) (w h : Nat) (g : GameState) :
      mkGame rules ⟨mkMapTiles w h⟩ = some g → ReachableSafe g
  | join (g : GameState) (uid : String) (hpOpt : Option Nat) (ptsOpt : Option Int)
      (coords : Option Coordinate) (st : Option String) (perk : Option PerkType) :
      ReachableSafe g →
      (∀ c, coords = some c → ∀ t, g.map.tryGetTile c = some t → t.occupied = none) →
      ReachableSafe (Game.join g uid hpOpt ptsOpt coords st perk).2
  | move (g : GameState) (uid : String) (c : Coordinate) :
      ReachableSafe g → ReachableSafe (Game.moveToCoord g uid c).2
  | attack (g : GameState) (uid : String) (c : Coordinate) (roll : Bool) :
      ReachableSafe g → ReachableSafe (Game.doAttack g uid c roll).2
  | tick (g : GameState) :
      ReachableSafe g → ReachableSafe (Game.handleGameTick g)

theorem reachableSafe_reachable (g : GameState) (hr : ReachableSafe g) : Reachable g := by
  induction hr with
  | start rules w h g hmk => exact Reachable.start rules w h g hmk
  | join g uid hpOpt ptsOpt coords st perk hr hguard ih =>
    exact Reachable.join g uid hpOpt ptsOpt coords st perk ih
  | move g uid c hr ih => exact Reachable.move g uid c ih
  | attack g uid c roll hr ih => exact Reachable.attack g uid c roll ih
  | tick g hr ih => exact Reachable.tick g ih

theorem reachableSafe_posInv (g : GameState) (hr : ReachableSafe g) : PosInv g := by
  induction hr with
  | start rules w h g hmk => exact mk_state_pos rules w h g hmk
  | join g uid hpOpt ptsOpt coords st perk hr hguard ih =>
    exact join_preserves_pos g uid hpOpt ptsOpt coords st perk
      (reachable_stateInv g (reachableSafe_reachable g hr)) ih hguard
  | move g uid c hr ih =>
    exact move_preserves_pos g uid c
      (reachable_stateInv g (reachableSafe_reachable g hr)) ih
  | attack g uid c roll hr ih => exact attack_preserves_pos g uid c roll ih
  | tick g hr ih => exact tick_preserves_pos g ih

end TurtleTanks

namespace TurtleTanks

/-- C1 (amended): over every match history in which no join supplies the
coordinate of an existing occupied cell, no two living players occupy the
same cell, and every living player stands on exactly one cell of the map
that records them as its occupant. Unrestricted joins break this: join
places the new player on any EXISTING supplied cell, occupied or not
(Game.ts lines 413-421), as the counterexample shows. -/
theorem c1_no_shared_cells (g : GameState) (hr : ReachableSafe g) :
    (∀ p ∈ g.players, ∀ q ∈ g.players, p.coords = q.coords → p = q) ∧
    (∀ p ∈ g.players, ∃ t ∈ g.map.tiles,
      t.coords = p.coords ∧ t.occupied = some p.userId ∧
      ∀ t2 ∈ g.map.tiles, t2.occupied = some p.userId → t2 = t) := by
  have hinv := reachable_stateInv g (reachableSafe_reachable g hr)
  have hpos := reachableSafe_posInv g hr
  constructor
  · intro p hp q hq hc
    obtain ⟨tp, htpm, htpc, htpo⟩ := hpos p hp
    obtain ⟨tq, htqm, htqc, htqo⟩ := hpos q hq
    have hteq : tp = tq := coords_inj g.map.tiles hinv.coordsNodup tp tq htpm htqm
      (by rw [htpc, htqc, hc])
    rw [hteq, htqo] at htpo
    injection htpo with hid
    have h1 := findPlayer_eq_of_mem g.players hinv.playersNodup p hp p.userId rfl
    have h2 := findPlayer_eq_of_mem g.players hinv.playersNodup q hq p.userId hid
    rw [h1] at h2
    exact Option.some.inj h2
  · intro p hp
    obtain ⟨t, htm, htc, hto⟩ := hpos p hp
    refine ⟨t, htm, htc, hto, ?_⟩
    intro t2 ht2m ht2o
    exact hinv.occupantUnique t2 ht2m t htm p.userId ht2o hto

theorem c1_witness :
    (∀ p ∈ gAB.players, ∀ q ∈ gAB.players, p.coords = q.coords → p = q) ∧
    (∀ p ∈ gAB.players, ∃ t ∈ gAB.map.tiles,
      t.coords = p.coords ∧ t.occupied = some p.userId ∧
      ∀ t2 ∈ gAB.map.tiles, t2.occupied = some p.userId → t2 = t) :=
  c1_no_shared_cells gAB
    (ReachableSafe.join gA "B" none none (some { x := 2, y := 0 }) none none
      (ReachableSafe.join gEmpty "A" none none (some { x := 0, y := 0 }) none none
        (ReachableSafe.start {} 5 5 gEmpty rfl)
        (by
          intro c hc t ht
          injection hc with hc
          subst hc
          have hval : gEmpty.map.tryGetTile { x := 0, y := 0 } =
              some ({ coords := { x := 0, y := 0 }, sparse := false, occupied := none } : MapTile) := by
            decide
          rw [hval] at ht
          injection ht with ht
          subst ht
          rfl))
      (by
        intro c hc t ht
        injection hc with hc
        subst hc
        have hval : gA.map.tryGetTile { x := 2, y := 0 } =
            some ({ coords := { x := 2, y := 0 }, sparse := false, occupied := none } : MapTile) := by
          decide
        rw [hval] at ht
        injection ht with ht
        subst ht
        rfl))

end TurtleTanks
